import Mathlib

/-!
# Verification of the nepeta configuration-format library

A shallow embedding of the nepeta parser, writer, base64 codec and
convenience helpers, translated from the C++ sources
(`nepeta_traits.h`, `nepeta_base64.h`, `nepeta_parser_specialization.h`,
`nepeta_parser_detail.h`, `nepeta_writer_detail.h`, `nepeta_algorithm.h`),
together with theorems settling the behavioural claims of the
specification.

Bytes are modelled as `Nat` (the value of the byte).  The C++ code uses
`char`, which is signed on the reference platform; every comparison in
the sources either tests equality against a specific byte value or, in
`is_binary` and `is_number`, uses range checks that exclude values
`>= 0x80` (negative as `char`).  The `Nat` model reproduces these
outcomes byte for byte.
-/

set_option maxHeartbeats 1000000

namespace Nepeta

/-! ## Character traits (`nepeta_traits.h`) -/

/-- `traits<char>::is_whitespace`: space or tab. -/
def is_whitespace (c : Nat) : Bool := c == 32 || c == 9

/-- `traits<char>::is_newline`: line feed or carriage return. -/
def is_newline (c : Nat) : Bool := c == 10 || c == 13

/-- `traits<char>::is_binary`: a control byte that is neither whitespace
nor newline.  (The C++ guard `ch >= c_nullchar` together with signed
`char` excludes bytes `>= 0x80`, as does `c < 32` on byte values.) -/
def is_binary (c : Nat) : Bool := c < 32 && !is_whitespace c && !is_newline c

/-- `traits<char>::is_identifier`: plain text without control bytes,
whitespace, newline, or any of the special characters `#"{};\`. -/
def is_identifier (c : Nat) : Bool :=
  !is_binary c && !is_whitespace c && !is_newline c &&
  c != 35 && c != 34 && c != 59 && c != 92 && c != 123 && c != 125

/-- `traits<char>::is_number`: an ASCII decimal digit. -/
def is_number (c : Nat) : Bool := 48 ≤ c && c ≤ 57

/-- `traits<char>::to_number`: digit value of an ASCII digit byte. -/
def to_number (c : Nat) : Nat := c - 48

/-- `traits<char>::true_value` (`"true"`). -/
def true_value : List Nat := [116, 114, 117, 101]

/-- `traits<char>::false_value` (`"false"`). -/
def false_value : List Nat := [102, 97, 108, 115, 101]

/-- `traits<char>::base64_codec` (`"base64"`). -/
def base64_codec : List Nat := [98, 97, 115, 101, 54, 52]

/-- `traits<char>::text_codec` (`"text"`). -/
def text_codec : List Nat := [116, 101, 120, 116]

/-! ## Base64 codec (`nepeta_base64.h`) -/

/-- `traits<char>::base64_encoding_table`:
`A`–`Z`, `a`–`z`, `0`–`9`, `+`, `/` as byte values. -/
def base64_encoding_table : List Nat :=
  [65, 66, 67, 68, 69, 70, 71, 72, 73, 74, 75, 76, 77, 78, 79, 80,
   81, 82, 83, 84, 85, 86, 87, 88, 89, 90,
   97, 98, 99, 100, 101, 102, 103, 104, 105, 106, 107, 108, 109, 110,
   111, 112, 113, 114, 115, 116, 117, 118, 119, 120, 121, 122,
   48, 49, 50, 51, 52, 53, 54, 55, 56, 57, 43, 47]

/-- The `base64_index` table of `convert_from_base64`, written out with
its 123 initialised entries; all later entries of the C++ array are
value-initialised to `0`, which `List.getD` reproduces. -/
def base64_index_table : List Nat :=
  [0,  0,  0,  0,  0,  0,  0,  0,  0,  0,  0,  0,  0,  0,  0,  0,
   0,  0,  0,  0,  0,  0,  0,  0,  0,  0,  0,  0,  0,  0,  0,  0,
   0,  0,  0,  0,  0,  0,  0,  0,  0,  0,  0,  62, 63, 62, 62, 63,
   52, 53, 54, 55, 56, 57, 58, 59, 60, 61, 0,  0,  0,  0,  0,  0,
   0,  0,  1,  2,  3,  4,  5,  6,  7,  8,  9,  10, 11, 12, 13, 14,
   15, 16, 17, 18, 19, 20, 21, 22, 23, 24, 25, 0,  0,  0,  0,  63,
   0,  26, 27, 28, 29, 30, 31, 32, 33, 34, 35, 36, 37, 38, 39, 40,
   41, 42, 43, 44, 45, 46, 47, 48, 49, 50, 51]

/-- Lookup into `base64_index` (out-of-table bytes decode to `0`). -/
def base64_index (c : Nat) : Nat := base64_index_table.getD c 0

/-- `traits<char>::is_base64_padding_character` (`'='`). -/
def is_base64_padding_character (c : Nat) : Bool := c == 61

/-- The 24-bit accumulator `n` built from one aligned base64 block. -/
def b64_accum4 (a b c d : Nat) : Nat :=
  base64_index a <<< 18 ||| base64_index b <<< 12 ||| base64_index c <<< 6 ||| base64_index d

/-- The three output bytes the aligned loop of `convert_from_base64`
writes for one 4-byte block. -/
def b64_block_out (a b c d : Nat) : List Nat :=
  [(b64_accum4 a b c d >>> 16) &&& 255,
   (b64_accum4 a b c d >>> 8) &&& 255,
   b64_accum4 a b c d &&& 255]

/-- The concatenated output of the aligned loop of
`convert_from_base64`, reading 4-byte blocks from the front of `l`.
(The loop's reads are always at or beyond its write cursor, so every
block reads the original input bytes.) -/
def b64_aligned_out : List Nat → List Nat
  | a :: b :: c :: d :: rest => b64_block_out a b c d ++ b64_aligned_out rest
  | _ => []

/-- Overwrite `buf` starting at position `i` with the bytes of `src`
(the effect of a run of sequential byte stores). -/
def list_overwrite (buf : List Nat) (i : Nat) (src : List Nat) : List Nat :=
  match src with
  | [] => buf
  | c :: rest => list_overwrite (buf.set i c) (i + 1) rest

/-- `detail::convert_from_base64(p_out, size)` from `nepeta_base64.h`,
decoding a buffer in place.  The result is the final content of the
buffer region together with the returned length `write_i`.

The simulation is exact: the aligned loop writes `3⌊n/4⌋` bytes over the
front of the buffer while reading blocks at or beyond its write cursor
(hence from the original input); the padding checks then read the
*current* buffer at positions `last_aligned - 1` and `last_aligned - 2`
(the latter may already hold decoded output when only one aligned block
exists); finally the 1/2/3-byte tail is decoded from positions at or
beyond `last_aligned` (untouched by the writes so far) and written at
the current write cursor. -/
def convert_from_base64 (inp : List Nat) : List Nat × Nat :=
  let size := inp.length
  let last_aligned := size - size % 4
  let aligned := b64_aligned_out (inp.take last_aligned)
  let buf1 := list_overwrite inp 0 aligned
  let write_i := aligned.length
  let write_i :=
    if 4 ≤ size then
      let s1 := if is_base64_padding_character (buf1.getD (last_aligned - 1) 0) then 1 else 0
      let s2 := if is_base64_padding_character (buf1.getD (last_aligned - 2) 0) then 1 else 0
      write_i - s1 - s2
    else write_i
  let bytes_remaining := size % 4
  let tail : List Nat :=
    if bytes_remaining == 1 then []
    else if bytes_remaining == 2 then
      let n := base64_index (buf1.getD last_aligned 0) <<< 18 |||
               base64_index (buf1.getD (last_aligned + 1) 0) <<< 12
      [(n >>> 16) &&& 255]
    else if bytes_remaining == 3 then
      let n := base64_index (buf1.getD last_aligned 0) <<< 18 |||
               base64_index (buf1.getD (last_aligned + 1) 0) <<< 12 |||
               base64_index (buf1.getD (last_aligned + 2) 0) <<< 6
      [(n >>> 16) &&& 255, (n >>> 8) &&& 255]
    else []
  (list_overwrite buf1 write_i tail, write_i + tail.length)

/-- `detail::convert_to_base64_fragment<InputSize>`: encode a fragment
of 1–3 input bytes into 4 base64 characters.  For `InputSize = 1` the
C++ reads `input[1]`, which for the final fragment of a
`std::basic_string` is the null terminator, hence `b1 = 0` there. -/
def convert_to_base64_fragment (inputSize : Nat) (b0 b1 b2 : Nat) : List Nat :=
  let table := base64_encoding_table
  let o0 := table.getD ((b0 >>> 2) &&& 63) 0
  let o1 := table.getD (((b0 &&& 3) <<< 4) ||| ((b1 >>> 4) &&& 15)) 0
  let o2 := if 2 ≤ inputSize
    then table.getD (((b1 &&& 15) <<< 2) ||| (if 3 ≤ inputSize then (b2 >>> 6) &&& 3 else 0)) 0
    else 61
  let o3 := if 3 ≤ inputSize then table.getD (b2 &&& 63) 0 else 61
  [o0, o1, o2, o3]

/-! ## The document tree (`nepeta.h`)

`basic_document` stores an id, an ordered sequence of data values and an
ordered sequence of children.  It is parametrised by the value type `D`:
the owned variant (`basic_document<char>`) stores byte strings
(`List Nat`) and the view variant (`basic_document_view<char>`) stores
`(offset, length)` slices into the source buffer. -/

inductive basic_document (D : Type) : Type where
  | mk : D → List D → List (basic_document D) → basic_document D

/-- The `id` field of a node. -/
def basic_document.id {D : Type} : basic_document D → D
  | .mk i _ _ => i

/-- The `data` field: ordered data values of a node. -/
def basic_document.data {D : Type} : basic_document D → List D
  | .mk _ d _ => d

/-- The `children` field: ordered children of a node. -/
def basic_document.children {D : Type} : basic_document D → List (basic_document D)
  | .mk _ _ c => c

/-- Append a data value to a node (`node.data.emplace_back(...)`). -/
def basic_document.add_data {D : Type} : basic_document D → D → basic_document D
  | .mk i d c, v => .mk i (d ++ [v]) c

/-- Append a child to a node (`node.children.emplace_back()` after the
child has been filled in). -/
def basic_document.add_child {D : Type} :
    basic_document D → basic_document D → basic_document D
  | .mk i d c, ch => .mk i d (c ++ [ch])

/-- The owned document type: byte-string values. -/
abbrev document := basic_document (List Nat)

mutual

/-- Nesting depth of a document: a leaf has height `0`, and a node with
children exceeds its tallest child's height by one. -/
def doc_height {D : Type} : basic_document D → Nat
  | .mk _ _ c => doc_height_list c

/-- Greatest nesting depth contributed by a list of children. -/
def doc_height_list {D : Type} : List (basic_document D) → Nat
  | [] => 0
  | ch :: rest => max (doc_height ch + 1) (doc_height_list rest)

end

/-! ## Convenience helpers (`nepeta_algorithm.h`) -/

/-- `nepeta::opt_data`: data element at `index` as a view, or absent if
out of bounds. -/
def opt_data (doc : document) (index : Nat) : Option (List Nat) :=
  if index < doc.data.length then some (doc.data.getD index []) else none

/-- `nepeta::opt_bool`: `true` for `"true"`, `false` for `"false"`,
otherwise absent. -/
def opt_bool (view : List Nat) : Option Bool :=
  if view = true_value then some true
  else if view = false_value then some false
  else none

/-- `nepeta::as_bool`: `opt_bool` with a default value. -/
def as_bool (view : List Nat) (default_value : Bool := false) : Bool :=
  (opt_bool view).getD default_value

/-- `nepeta::doc_opt_bool`: `opt_bool` over the document's data at
`index`, or absent if out of bounds. -/
def doc_opt_bool (doc : document) (index : Nat) : Option Bool :=
  if index < doc.data.length then opt_bool (doc.data.getD index []) else none

/-- `nepeta::doc_as_bool`: `doc_opt_bool` with a default value. -/
def doc_as_bool (doc : document) (index : Nat) (default_value : Bool := false) : Bool :=
  (doc_opt_bool doc index).getD default_value

/-- The loop of `nepeta::opt_integer`, carrying the element index `i`,
the accumulated value `result` and the sign flag `is_negative`. -/
def opt_integer_go : List Nat → Nat → Int → Bool → Option (Bool × Int)
  | [], _, result, is_negative => some (is_negative, result)
  | ch :: rest, i, result, is_negative =>
    if i = 0 ∧ ch = 45 then
      opt_integer_go rest (i + 1) result true
    else if i = 0 ∧ ch = 43 then
      opt_integer_go rest (i + 1) result false
    else if is_number ch then
      opt_integer_go rest (i + 1) (result * 10 + (to_number ch : Int)) is_negative
    else if ch = 39 then
      opt_integer_go rest (i + 1) result is_negative
    else
      none

/-- `nepeta::opt_integer`: base-10 conversion accepting
`[-+]?[0-9']*`; `'` is a digit spacer, any other byte fails. -/
def opt_integer (view : List Nat) : Option Int :=
  (opt_integer_go view 0 0 false).map fun r => if r.1 then -r.2 else r.2

/-- `nepeta::as_integer`: `opt_integer` with a default value. -/
def as_integer (view : List Nat) (default_value : Int := 0) : Int :=
  (opt_integer view).getD default_value

/-- `nepeta::doc_opt_integer`: `opt_integer` over the document's data at
`index`, or absent if out of bounds. -/
def doc_opt_integer (doc : document) (index : Nat) : Option Int :=
  if index < doc.data.length then opt_integer (doc.data.getD index []) else none

/-- `nepeta::doc_as_integer`: `doc_opt_integer` with a default value. -/
def doc_as_integer (doc : document) (index : Nat) (default_value : Int := 0) : Int :=
  (doc_opt_integer doc index).getD default_value

/-! ## Writer configuration and data-type classification
(`nepeta_writer.h`, `nepeta_writer_detail.h`) -/

/-- `writer_parameters::indentation_type`. -/
inductive indentation_type where
  | tabs
  | spaces
deriving DecidableEq, Repr

/-- `nepeta::writer_parameters` with the C++ default member values
(`limit_for_checking_binary` defaults to `UINT_MAX`). -/
structure writer_parameters where
  indentation : indentation_type := .tabs
  indentation_characters : Nat := 1
  limit_for_block_enforcement : Nat := 128
  limit_for_checking_binary : Nat := 4294967295
  base64_per_line : Nat := 60
deriving DecidableEq, Repr

/-- `nepeta_writer::target_data_type`. -/
inductive target_data_type where
  | identifier
  | string
  | block
  | block_base64
deriving DecidableEq, Repr

/-- The scanning loop of `determine_data_type`: scans bytes in order,
clearing `is_id` on any non-identifier byte, and stops early on the
first binary byte.  Returns `(binary_found, is_id)`. -/
def determine_data_type_scan : List Nat → Bool → Bool × Bool
  | [], is_id => (false, is_id)
  | ch :: rest, is_id =>
    let is_id := is_id && is_identifier ch
    if is_binary ch then (true, is_id)
    else determine_data_type_scan rest is_id

/-- `nepeta_writer::determine_data_type`: classify a data value as
identifier, string, block or base64 block. -/
def determine_data_type (p : writer_parameters) (data : List Nat) : target_data_type :=
  if data = [] then .string
  else
    let max_check := min data.length
      (max p.limit_for_checking_binary p.limit_for_block_enforcement)
    let scan := determine_data_type_scan (data.take max_check) true
    if scan.1 then .block_base64
    else if p.limit_for_block_enforcement ≤ data.length then .block
    else if scan.2 then .identifier
    else .string

/-- `nepeta_writer::determine_identifier_type`: identifier when every
byte is identifier-safe (vacuously for the empty id), else string. -/
def determine_identifier_type : List Nat → target_data_type
  | [] => .identifier
  | ch :: rest =>
    if !is_identifier ch then .string else determine_identifier_type rest

/-! ## Parser state and specialisations
(`nepeta_parser_specialization.h`, `nepeta_parser_detail.h`)

The parser is a recursive-descent state machine over a byte buffer.
Both storage variants share the identical control flow; they differ in
the `specialization` record, which says how captured values are
materialised.  The owned variant builds fresh byte strings; the view
variant stores `(offset, length)` slices and writes decoded bytes into
the source buffer in place, which is why every specialisation operation
threads the live buffer.

Loops and recursion are driven by an explicit fuel argument (structural
recursion); every theorem below quantifies over the fuel, and concrete
runs use a sufficiently large fuel. -/

/-- `nepeta::parser_error` (the spelling `too_may_...` is the code's). -/
inductive parser_error where
  | illegal_character
  | node_not_closed
  | comment_not_closed
  | string_not_closed
  | block_not_closed
  | too_may_node_closing_markers
  | bad_codec
  | recursion_limit_reached
  | require_newline
  | invalid_escape
  | bad_block_close
deriving DecidableEq, Repr

/-- `nepeta::default_recursion_limit`. -/
def default_recursion_limit : Nat := 2000

/-- `nepeta::default_maximum_error_limit`. -/
def default_maximum_error_limit : Nat := 10

/-- `detail::line_column_from_buffer_position`: 1-based line and column
of a buffer offset, by counting newline bytes before it. -/
def line_column_from_buffer_position (buf : List Nat) (bufpos : Nat) : Nat × Nat :=
  (buf.take bufpos).foldl
    (fun lc c => if c = 10 then (lc.1 + 1, 1) else (lc.1, lc.2 + 1)) (1, 1)

/-- The mutable state shared by `parser_document`,
`parser_document_view` and `nepeta_parser`: the live buffer, the
cursor, the cached current character, the limits, and the ordered list
of error-sink invocations `(kind, byte, line, column)`. -/
structure parser_state where
  source : List Nat
  buffer_position : Nat
  current_character : Nat
  recursion_limit : Nat
  error_limit : Nat
  errors : List (parser_error × Nat × Nat × Nat)
deriving DecidableEq, Repr

/-- The value-materialisation interface of the two parser
specialisations.  `copy_string` receives the slice as
`(start, length)` into the live buffer. -/
structure specialization (D : Type) where
  make_data : List Nat → Nat → D
  add_character : List Nat → D → Nat → List Nat × D
  copy_string : List Nat → D → Nat → Nat → List Nat × D
  resize_string : D → Nat → D
  data_bytes : List Nat → D → List Nat
  set_data_bytes : List Nat → D → List Nat → List Nat × D

/-- The owned specialisation (`detail::parser_document`): values are
byte strings, the buffer is never written. -/
def owned_spec : specialization (List Nat) where
  make_data _ _ := []
  add_character buf d ch := (buf, d ++ [ch])
  copy_string buf d start len := (buf, d ++ ((buf.drop start).take len))
  resize_string d n := d.take n ++ List.replicate (n - d.length) 0
  data_bytes _ d := d
  set_data_bytes buf _ bytes := (buf, bytes)

/-- Sequential forward byte copy (`std::copy` over byte pointers):
copies `len` bytes from position `src` to position `dst`, one at a
time in increasing order. -/
def copy_forward (buf : List Nat) (dst src len : Nat) : List Nat :=
  match len with
  | 0 => buf
  | len + 1 => copy_forward (buf.set dst (buf.getD src 0)) (dst + 1) (src + 1) len

/-- The view specialisation (`detail::parser_document_view`): a value
is an `(offset, length)` slice of the live buffer; appending writes
into the buffer at the end of the slice.  `copy_string` skips the copy
when source and destination start at the same offset (the
`dst.data() != src.data()` test). -/
def view_spec : specialization (Nat × Nat) where
  make_data _ pos := (pos, 0)
  add_character buf d ch := (buf.set (d.1 + d.2) ch, (d.1, d.2 + 1))
  copy_string buf d start len :=
    (if d.1 = start then buf else copy_forward buf (d.1 + d.2) start len,
     (d.1, d.2 + len))
  resize_string d n := (d.1, n)
  data_bytes buf d := (buf.drop d.1).take d.2
  set_data_bytes buf d bytes := (list_overwrite buf d.1 bytes, d)

/-- `eof()`: the cursor is at or past the end of the buffer. -/
def eof_at (s : parser_state) : Bool := decide (s.source.length ≤ s.buffer_position)

/-- `next_eof()`: the position after the cursor is at or past the end
(both specialisations compute this as `pos + 1 >= size`, the owned one
via unsigned wrap-around of `size() - 1`). -/
def next_eof_at (s : parser_state) : Bool :=
  decide (s.source.length ≤ s.buffer_position + 1)

/-- The specialisation's `current_character()`: byte at the cursor. -/
def spec_current (s : parser_state) : Nat := s.source.getD s.buffer_position 0

/-- The specialisation's `next_character()`: advance one byte. -/
def spec_next (s : parser_state) : parser_state :=
  { s with buffer_position := s.buffer_position + 1 }

/-- `peek_next_character()`: byte after the cursor, or NUL at the end. -/
def peek_next_character (s : parser_state) : Nat :=
  if next_eof_at s then 0 else s.source.getD (s.buffer_position + 1) 0

/-- `error(type, ch, buffer_position)`: when the error quota is
positive, compute line/column, invoke the sink (append to `errors`),
and decrement the quota; otherwise do nothing. -/
def report_error (s : parser_state) (t : parser_error) (ch bufpos : Nat) :
    parser_state :=
  if s.error_limit = 0 then s
  else
    let lc := line_column_from_buffer_position s.source bufpos
    { s with errors := s.errors ++ [(t, ch, lc.1, lc.2)],
             error_limit := s.error_limit - 1 }

/-- `nepeta_parser::next_character()`: advance, crossing a CRLF pair in
a single step when the cached current character is `\r` and the
following byte is `\n`. -/
def next_character (s : parser_state) : parser_state :=
  if s.current_character = 13 ∧ peek_next_character s = 10 then
    spec_next (spec_next s)
  else spec_next s

/-- The parser operation refreshing the cached current character
without an EOF check (only called when not at EOF); named
`update_current_character_unsafe` in the C++ source. -/
def update_current_character_nocheck (s : parser_state) : parser_state :=
  { s with current_character := spec_current s }

/-- `update_current_character()`: refresh the cache, NUL at EOF. -/
def update_current_character (s : parser_state) : parser_state :=
  { s with current_character := if eof_at s then 0 else spec_current s }

/-- Result of `skip`: whether parsing may continue. -/
inductive parsing_position where
  | eof
  | valid
deriving DecidableEq, Repr

/-- `comment_type` of `skip_comment`. -/
inductive comment_type where
  | passed_to_next_line
  | stayed_on_same_line
  | not_a_comment
deriving DecidableEq, Repr

/-- `parser_data_type` returned by `detect_data_type`. -/
inductive parser_data_type where
  | identifier
  | string
  | block
  | not_a_data_type
deriving DecidableEq, Repr

/-- The predicate `whitespace_and_newlines` of `nepeta_parser`. -/
def whitespace_and_newlines (s : parser_state) : Bool :=
  is_whitespace s.current_character || is_newline s.current_character

/-- The predicate `whitespace` of `nepeta_parser`. -/
def whitespace (s : parser_state) : Bool := is_whitespace s.current_character

/-- The predicate `identifier` of `nepeta_parser`. -/
def identifier (s : parser_state) : Bool := is_identifier s.current_character

/-- The predicate `block_text` of `nepeta_parser`: neither newline nor
escape marker. -/
def block_text (s : parser_state) : Bool :=
  !is_newline s.current_character && !(s.current_character == 92)

/-- The predicate `until_newline` of `nepeta_parser`. -/
def until_newline (s : parser_state) : Bool := !is_newline s.current_character

/-- The anonymous predicate of `parse_data_string_context`: neither
string marker, newline, nor escape marker. -/
def string_text (s : parser_state) : Bool :=
  !(s.current_character == 34 || is_newline s.current_character ||
    s.current_character == 92)

/-- `nepeta_parser::skip`: advance while the predicate matches the
current character, refreshing the cache, stopping at EOF. -/
def skip : Nat → (parser_state → Bool) → parser_state → parser_state × parsing_position
  | 0, _, s => (s, if eof_at s then .eof else .valid)
  | fuel + 1, pred, s =>
    if pred s then
      let s1 := next_character s
      if eof_at s1 then (s1, .eof)
      else skip fuel pred (update_current_character_nocheck s1)
    else
      (s, if eof_at s then .eof else .valid)

/-- `nepeta_parser::read`: like `skip`, returning the number of bytes
consumed. -/
def read (fuel : Nat) (pred : parser_state → Bool) (s : parser_state) :
    parser_state × Nat :=
  let start := s.buffer_position
  let r := skip fuel pred s
  (r.1, r.1.buffer_position - start)

/-- The scanning loop of `skip_comment` for `/*` comments: search for
the closing `*/`, recording whether a newline was crossed; report
`comment_not_closed` when EOF is reached first. -/
def skip_comment_loop :
    Nat → Nat → comment_type → parser_state → parser_state × comment_type
  | 0, _, t, s => (s, t)
  | fuel + 1, start_position, t, s =>
    if eof_at s then (report_error s .comment_not_closed 0 start_position, t)
    else
      let s := update_current_character_nocheck s
      if s.current_character = 42 ∧ peek_next_character s = 47 then
        (update_current_character (next_character (next_character s)), t)
      else
        let t := if is_newline s.current_character then .passed_to_next_line else t
        skip_comment_loop fuel start_position t (next_character s)

/-- `nepeta_parser::skip_comment`: called with the cursor on a `/`;
skips `/*...*/` or `//...` comments. -/
def skip_comment (fuel : Nat) (s : parser_state) : parser_state × comment_type :=
  let start_position := s.buffer_position
  let next_ch := peek_next_character s
  if next_ch = 42 then
    skip_comment_loop fuel start_position .stayed_on_same_line
      (next_character (next_character s))
  else if next_ch = 47 then
    ((skip fuel until_newline s).1, .passed_to_next_line)
  else (s, .not_a_comment)

/-- `nepeta_parser::skip_whitespace_until_newline`: skip whitespace;
report `require_newline` and skip the rest of the line when a
non-newline byte follows; then advance past the newline. -/
def skip_whitespace_until_newline (fuel : Nat) (s : parser_state) : parser_state :=
  let s := (skip fuel whitespace s).1
  let s :=
    if !is_newline s.current_character then
      let s := report_error s .require_newline s.current_character s.buffer_position
      (skip fuel until_newline s).1
    else s
  if !eof_at s then update_current_character (next_character s) else s

/-- The escape table of `read_escape_character` (§4.1): C-style control
escapes, self-escaping punctuation and whitespace; anything else is
invalid. -/
def escape_map (c : Nat) : Option Nat :=
  if c = 48 then some 0
  else if c = 97 then some 7
  else if c = 98 then some 8
  else if c = 102 then some 12
  else if c = 110 then some 10
  else if c = 114 then some 13
  else if c = 116 then some 9
  else if c = 118 then some 11
  else if c = 39 ∨ c = 34 ∨ c = 92 ∨ c = 32 ∨ c = 9 ∨ c = 123 ∨ c = 125 then some c
  else none

/-- `detect_data_type()` over the current character. -/
def detect_data_type (c : Nat) : parser_data_type :=
  if is_identifier c then .identifier
  else if c = 34 then .string
  else if c = 123 then .block
  else .not_a_data_type

/-- `block_codec_type` of `parse_data_block_codec_context`. -/
inductive block_codec_type where
  | text
  | base64
deriving DecidableEq, Repr

/-- `append_buffer_string(data, n_bytes)`: copy the `n` bytes just
consumed (`source_view_before_current`) onto the value. -/
def append_buffer_string {D : Type} (m : specialization D) (s : parser_state)
    (data : D) (n : Nat) : parser_state × D :=
  let r := m.copy_string s.source data (s.buffer_position - n) n
  ({ s with source := r.1 }, r.2)

/-- `append_buffer_character(data, ch)`: append one literal byte. -/
def append_buffer_character {D : Type} (m : specialization D) (s : parser_state)
    (data : D) (ch : Nat) : parser_state × D :=
  let r := m.add_character s.source data ch
  ({ s with source := r.1 }, r.2)

/-- `base64_convert(data)`: decode the value's bytes in place and
resize it to the returned length. -/
def base64_convert {D : Type} (m : specialization D) (s : parser_state)
    (data : D) : parser_state × D :=
  let conv := convert_from_base64 (m.data_bytes s.source data)
  let r := m.set_data_bytes s.source data conv.1
  ({ s with source := r.1 }, m.resize_string r.2 conv.2)

/-- `nepeta_parser::read_escape_character`: consume the escape marker,
map the following byte through the escape table and append the result;
an invalid escape is reported and nothing is appended (nor is the
offending byte consumed). -/
def read_escape_character {D : Type} (m : specialization D) (s : parser_state)
    (data : D) : parser_state × D :=
  let s := update_current_character (next_character s)
  match escape_map s.current_character with
  | none => (report_error s .invalid_escape s.current_character s.buffer_position, data)
  | some ch =>
    let r := append_buffer_character m s data ch
    (update_current_character (next_character r.1), r.2)

/-- `parse_data_identifier_context`: read while identifier bytes match
and materialise them. -/
def parse_data_identifier_context {D : Type} (m : specialization D) (fuel : Nat)
    (s : parser_state) : parser_state × D :=
  let data := m.make_data s.source s.buffer_position
  let r := read fuel identifier s
  append_buffer_string m r.1 data r.2

/-- The loop of `parse_data_string_context`: capture runs of plain
bytes, handle the closing quote, escapes, and report
`string_not_closed` on newline or EOF. -/
def parse_data_string_loop {D : Type} (m : specialization D) :
    Nat → parser_state → D → Nat → parser_state × D
  | 0, s, data, _ => (s, data)
  | fuel + 1, s, data, start_position =>
    if eof_at s then (report_error s .string_not_closed 0 start_position, data)
    else
      let s := update_current_character_nocheck s
      let r := read fuel string_text s
      let a := append_buffer_string m r.1 data r.2
      let s := a.1
      let data := a.2
      if s.current_character = 34 then
        (update_current_character (next_character s), data)
      else if s.current_character = 92 then
        let e := read_escape_character m s data
        parse_data_string_loop m fuel e.1 e.2 start_position
      else
        (report_error s .string_not_closed 0 start_position, data)

/-- `parse_data_string_context`: skip the opening quote and run the
string loop. -/
def parse_data_string_context {D : Type} (m : specialization D) (fuel : Nat)
    (s : parser_state) : parser_state × D :=
  let start_position := s.buffer_position
  let s := next_character s
  let data := m.make_data s.source s.buffer_position
  parse_data_string_loop m fuel s data start_position

/-- `nepeta_parser::parse_block_line`: append block text up to the next
newline (handling escapes) and consume the newline. -/
def parse_block_line {D : Type} (m : specialization D) :
    Nat → parser_state → D → parser_state × D
  | 0, s, data => (s, data)
  | fuel + 1, s, data =>
    if eof_at s then (s, data)
    else
      let r := read fuel block_text s
      let a := append_buffer_string m r.1 data r.2
      let s := a.1
      let data := a.2
      if eof_at s then (s, data)
      else if is_newline s.current_character then
        (update_current_character (next_character s), data)
      else if s.current_character = 92 then
        let e := read_escape_character m s data
        parse_block_line m fuel e.1 e.2
      else (s, data)

/-- The main loop of `parse_data_block_body_context`: close the block
on a `}` before the indentation column (or on the first line), append
a literal newline between text lines, parse one line, then consume up
to one indentation worth of whitespace. -/
def parse_data_block_body_loop {D : Type} (m : specialization D) :
    Nat → parser_state → D → Nat → Nat → Bool → Bool → Nat → parser_state × D
  | 0, s, data, _, _, _, _, _ => (s, data)
  | fuel + 1, s, data, column_depth, current_column_start, is_first_line,
      is_base64, start_position =>
    if eof_at s then (report_error s .block_not_closed 0 start_position, data)
    else if s.current_character = 125 ∧
        (s.buffer_position - current_column_start < column_depth ∨
         is_first_line = true) then
      (update_current_character (next_character s), data)
    else
      let s := if s.current_character = 125 then
          report_error s .bad_block_close 0 s.buffer_position
        else s
      let a := if is_first_line = false ∧ is_base64 = false then
          append_buffer_character m s data 10
        else (s, data)
      let p := parse_block_line m fuel a.1 a.2
      let current_column_start := p.1.buffer_position
      let target := current_column_start + column_depth
      let r := skip fuel
        (fun st => decide (st.buffer_position < target) &&
          is_whitespace st.current_character) p.1
      parse_data_block_body_loop m fuel r.1 p.2 column_depth current_column_start
        false is_base64 start_position

/-- `parse_data_block_body_context`: measure the indentation column of
the first line and run the block-body loop. -/
def parse_data_block_body_context {D : Type} (m : specialization D) (fuel : Nat)
    (s : parser_state) (start_position : Nat) (is_base64 : Bool) :
    parser_state × D :=
  let before_whitespace := s.buffer_position
  let s := (skip fuel whitespace s).1
  let column_depth := s.buffer_position - before_whitespace
  let data := m.make_data s.source s.buffer_position
  parse_data_block_body_loop m fuel s data column_depth before_whitespace true
    is_base64 start_position

/-- `parse_data_block_codec_context`: read the codec identifier;
`base64` selects the base64 codec, anything other than `text` reports
`bad_codec` and falls back to text. -/
def parse_data_block_codec_context (fuel : Nat) (s : parser_state) :
    parser_state × block_codec_type :=
  let codec_start_position := s.buffer_position
  let r := read fuel identifier s
  let s := r.1
  let codec := (s.source.drop (s.buffer_position - r.2)).take r.2
  if codec = base64_codec then (s, .base64)
  else if codec ≠ text_codec then
    (report_error s .bad_codec 0 codec_start_position, .text)
  else (s, .text)

/-- `parse_data_block_context`: consume `{`, the optional codec name
and the rest of the opening line, run the block body, and base64-decode
the captured value when the codec was `base64`. -/
def parse_data_block_context {D : Type} (m : specialization D) (fuel : Nat)
    (s : parser_state) : parser_state × D :=
  let start_position := s.buffer_position
  let s := update_current_character (next_character s)
  let r := skip fuel whitespace s
  if r.2 = .eof then
    (report_error r.1 .block_not_closed 0 start_position,
     m.make_data r.1.source r.1.buffer_position)
  else
    let s := r.1
    let c :=
      if is_identifier s.current_character then
        let cc := parse_data_block_codec_context fuel s
        (cc.1, decide (cc.2 = .base64))
      else (s, false)
    let s := skip_whitespace_until_newline fuel c.1
    let b := parse_data_block_body_context m fuel s start_position c.2
    if c.2 then base64_convert m b.1 b.2 else b

/-- `parse_single_data`: dispatch on the detected data type; the
unreachable default reports `illegal_character` and yields an empty
value. -/
def parse_single_data {D : Type} (m : specialization D) (fuel : Nat)
    (s : parser_state) (t : parser_data_type) : parser_state × D :=
  match t with
  | .block => parse_data_block_context m fuel s
  | .string => parse_data_string_context m fuel s
  | .identifier => parse_data_identifier_context m fuel s
  | .not_a_data_type =>
    let s := report_error s .illegal_character s.current_character s.buffer_position
    let s := update_current_character (next_character s)
    (s, m.make_data s.source s.buffer_position)

/-- `parse_node_data_context`: the data-context loop collecting the
same-line values of a node; ends on newline, `;`, a comment passing to
the next line, or EOF; `\` continues onto the next line. -/
def parse_node_data_context {D : Type} (m : specialization D) :
    Nat → parser_state → basic_document D → parser_state × basic_document D
  | 0, s, node => (s, node)
  | fuel + 1, s, node =>
    let r := skip fuel whitespace s
    if r.2 ≠ .valid then (r.1, node)
    else
      let s0 := r.1
      let cr := if s0.current_character = 47 then skip_comment fuel s0
        else (s0, .not_a_comment)
      let s := cr.1
      if cr.2 = .passed_to_next_line then (s, node)
      else if cr.2 = .stayed_on_same_line then parse_node_data_context m fuel s node
      else if s.current_character = 59 then
        (update_current_character (next_character s), node)
      else if s.current_character = 92 then
        let s := update_current_character (next_character s)
        let s := skip_whitespace_until_newline fuel s
        parse_node_data_context m fuel s node
      else if is_newline s.current_character then (s, node)
      else
        let t := detect_data_type s.current_character
        if t = .not_a_data_type then
          let s := report_error s .illegal_character s.current_character
            s.buffer_position
          parse_node_data_context m fuel (update_current_character (next_character s)) node
        else
          let d := parse_single_data m fuel s t
          parse_node_data_context m fuel d.1 (node.add_data d.2)

/-- `parse_node_header_context`: parse the identifier (or quoted
string) into a fresh child's `id` and run the data context on it.  The
caller appends the finished child to the parent. -/
def parse_node_header_context {D : Type} (m : specialization D) (fuel : Nat)
    (s : parser_state) (header_data_type : parser_data_type) :
    parser_state × basic_document D :=
  let i := parse_single_data m fuel s header_data_type
  parse_node_data_context m fuel i.1 (basic_document.mk i.2 [] [])

mutual

/-- `parse_node_body_context`: the node-body loop at recursion level
`current_recursion` with opening position `start_pos`; reports
`node_not_closed` at EOF inside a nested node. -/
def parse_node_body_context {D : Type} (m : specialization D) :
    Nat → parser_state → basic_document D → Nat → Nat →
    parser_state × basic_document D
  | 0, s, node, _, _ => (s, node)
  | fuel + 1, s, node, current_recursion, start_pos =>
    let r := skip fuel whitespace_and_newlines s
    if r.2 ≠ .valid then
      let s := r.1
      (if 0 < current_recursion then report_error s .node_not_closed 0 start_pos
       else s, node)
    else
      let s0 := r.1
      let cr := if s0.current_character = 47 then skip_comment fuel s0
        else (s0, .not_a_comment)
      if cr.2 ≠ comment_type.not_a_comment then
        parse_node_body_context m fuel cr.1 node current_recursion start_pos
      else
        let it := parse_node_body_item m fuel cr.1 node current_recursion start_pos
        if it.2.2 then
          parse_node_body_context m fuel it.1 it.2.1 current_recursion start_pos
        else (it.1, it.2.1)
termination_by structural fuel _ _ _ _ => fuel

/-- One non-comment iteration of the node-body loop: the nested-node
marker and its close-marker check, then the header.  The returned flag
is `false` exactly when the context returns to its caller (a close
marker). -/
def parse_node_body_item {D : Type} (m : specialization D) :
    Nat → parser_state → basic_document D → Nat → Nat →
    parser_state × basic_document D × Bool
  | 0, s, node, _, _ => (s, node, true)
  | fuel + 1, s, node, current_recursion, _start_pos =>
    let nested_start_pos := s.buffer_position
    let is_nested := s.current_character = 35
    if is_nested then
      let s := update_current_character (next_character s)
      if eof_at s ∨ is_whitespace s.current_character ∨
          is_newline s.current_character then
        (if current_recursion = 0 then
           report_error s .too_may_node_closing_markers 0 nested_start_pos
         else s, node, false)
      else parse_node_body_header m fuel s node current_recursion nested_start_pos true
    else parse_node_body_header m fuel s node current_recursion nested_start_pos false
termination_by structural fuel _ _ _ _ => fuel

/-- The header part of a node-body iteration: create and fill the
child; enforce the recursion limit (reporting
`recursion_limit_reached` and skipping the line), else recurse into a
nested child's body; a non-header byte reports `illegal_character`. -/
def parse_node_body_header {D : Type} (m : specialization D) :
    Nat → parser_state → basic_document D → Nat → Nat → Bool →
    parser_state × basic_document D × Bool
  | 0, s, node, _, _, _ => (s, node, true)
  | fuel + 1, s, node, current_recursion, nested_start_pos, is_nested =>
    let header_data_type := detect_data_type s.current_character
    if header_data_type = .string ∨ header_data_type = .identifier then
      let hc := parse_node_header_context m fuel s header_data_type
      let s := hc.1
      if s.recursion_limit ≤ current_recursion + 1 then
        let s := report_error s .recursion_limit_reached 0 nested_start_pos
        let s := (skip fuel until_newline s).1
        (s, node.add_child hc.2, true)
      else if is_nested then
        let rc := parse_node_body_context m fuel s hc.2 (current_recursion + 1)
          nested_start_pos
        (rc.1, node.add_child rc.2, true)
      else (s, node.add_child hc.2, true)
    else
      let s := report_error s .illegal_character s.current_character
        s.buffer_position
      let s := if s.current_character ≠ 35 then
          update_current_character (next_character s)
        else s
      (s, node, true)
termination_by structural fuel _ _ _ _ => fuel

end

/-- Initial parser state over a source buffer (the `nepeta_parser`
constructor caches the first character). -/
def initial_parser_state (source : List Nat) (recursion_limit error_limit : Nat) :
    parser_state :=
  let s : parser_state :=
    { source := source, buffer_position := 0, current_character := 0,
      recursion_limit := recursion_limit, error_limit := error_limit,
      errors := [] }
  { s with current_character := if eof_at s then 0 else spec_current s }

/-- `nepeta::load` with explicit limits: parse a fresh owned document. -/
def load_custom (fuel : Nat) (source : List Nat)
    (recursion_limit error_limit : Nat) : parser_state × document :=
  parse_node_body_context owned_spec fuel
    (initial_parser_state source recursion_limit error_limit)
    (basic_document.mk [] [] []) 0 0

/-- `nepeta::load`: parse with the default limits. -/
def load (fuel : Nat) (source : List Nat) : parser_state × document :=
  load_custom fuel source default_recursion_limit default_maximum_error_limit

/-- `nepeta::load_view` with explicit limits: parse a fresh view
document over a mutable copy of the buffer. -/
def load_view_custom (fuel : Nat) (source : List Nat)
    (recursion_limit error_limit : Nat) : parser_state × basic_document (Nat × Nat) :=
  parse_node_body_context view_spec fuel
    (initial_parser_state source recursion_limit error_limit)
    (basic_document.mk (0, 0) [] []) 0 0

mutual

/-- Materialise a view document against the final buffer: each
`(offset, length)` slice is read out of the (mutated) buffer, which is
what comparing a `document_view` against a `document` compares. -/
def view_extract (buf : List Nat) : basic_document (Nat × Nat) → document
  | .mk i d c =>
    basic_document.mk ((buf.drop i.1).take i.2)
      (d.map fun v => (buf.drop v.1).take v.2) (view_extract_list buf c)

/-- Materialise a list of view children. -/
def view_extract_list (buf : List Nat) :
    List (basic_document (Nat × Nat)) → List document
  | [] => []
  | c :: rest => view_extract buf c :: view_extract_list buf rest

end

/-! ## CRLF expansion

`crlf_variant S` replaces every LF byte of `S` by the two bytes CR LF;
the simulation maps a parser state over `S` to the corresponding state
over `crlf_variant S`. -/

/-- The CRLF variant of a source: every LF becomes CR LF. -/
def crlf_variant (S : List Nat) : List Nat :=
  S.flatMap fun c => if c = 10 then [13, 10] else [c]

/-- A source with no carriage-return bytes. -/
def no_cr (S : List Nat) : Prop := ∀ c ∈ S, c ≠ 13

/-- Image of a buffer position under CRLF expansion: each earlier LF
adds one extra byte. -/
def crlf_pos (S : List Nat) (p : Nat) : Nat := p + (S.take p).count 10

/-- Image of a cached current character: a cursor sitting on an LF of
`S` sits on the CR of the corresponding pair. -/
def crlf_char (c : Nat) : Nat := if c = 10 then 13 else c

/-- Image of a whole parser state under CRLF expansion.  A reported
character is mapped through `crlf_char` as well: an error reported at a
linefeed byte of the plain run is reported at the carriage return of
the corresponding pair. -/
def crlf_state (S : List Nat) (σ : parser_state) : parser_state :=
  { source := crlf_variant S,
    buffer_position := crlf_pos S σ.buffer_position,
    current_character := crlf_char σ.current_character,
    recursion_limit := σ.recursion_limit,
    error_limit := σ.error_limit,
    errors := σ.errors.map (fun e => (e.1, crlf_char e.2.1, e.2.2)) }

/-- The cached character is in sync whenever the cursor sits on an LF
(it may be stale elsewhere, but never at a newline). -/
def cache_ok (S : List Nat) (σ : parser_state) : Prop :=
  σ.buffer_position < S.length → S.getD σ.buffer_position 0 = 10 →
    σ.current_character = 10

/-- The simulation invariant on states of the LF-only run. -/
def sim_src (S : List Nat) (σ : parser_state) : Prop :=
  σ.source = S ∧ σ.current_character ≠ 13 ∧ cache_ok S σ

/-! ## Fuel adequacy

The Lean embedding replaces the C++ `while` loops by fuel-indexed
recursion.  The flags below mirror the owned parser's control flow and
return `false` exactly when some loop of the run was cut short by fuel
exhaustion, i.e. when the embedded run is not the run of the program.
Loops whose fuel-zero exit returns their (well-cached) entry state need
no flag; `skip_comment_loop` and `parse_data_string_loop`, whose entry
states carry a deliberately stale character cache, do. -/

/-- Fuel adequacy of `skip_comment_loop`: `false` when fuel ran out. -/
def skip_comment_loop_ok : Nat → parser_state → Bool
  | 0, _ => false
  | fuel + 1, s =>
    if eof_at s then true
    else
      let s := update_current_character_nocheck s
      if s.current_character = 42 ∧ peek_next_character s = 47 then true
      else skip_comment_loop_ok fuel (next_character s)

/-- Fuel adequacy of `skip_comment`. -/
def skip_comment_ok (fuel : Nat) (s : parser_state) : Bool :=
  let next_ch := peek_next_character s
  if next_ch = 42 then
    skip_comment_loop_ok fuel (next_character (next_character s))
  else true

/-- Fuel adequacy of `parse_data_string_loop` (owned parser). -/
def parse_data_string_loop_ok : Nat → parser_state → List Nat → Bool
  | 0, _, _ => false
  | fuel + 1, s, data =>
    if eof_at s then true
    else
      let s := update_current_character_nocheck s
      let r := read fuel string_text s
      let a := append_buffer_string owned_spec r.1 data r.2
      let s := a.1
      let data := a.2
      if s.current_character = 34 then true
      else if s.current_character = 92 then
        let e := read_escape_character owned_spec s data
        parse_data_string_loop_ok fuel e.1 e.2
      else true

/-- Fuel adequacy of `parse_data_string_context` (owned parser). -/
def parse_data_string_context_ok (fuel : Nat) (s : parser_state) : Bool :=
  let s := next_character s
  parse_data_string_loop_ok fuel s (owned_spec.make_data s.source s.buffer_position)

/-- Fuel adequacy of `parse_single_data` (owned parser): only the
string context contains a flagged loop. -/
def parse_single_data_ok (fuel : Nat) (s : parser_state)
    (t : parser_data_type) : Bool :=
  match t with
  | .string => parse_data_string_context_ok fuel s
  | _ => true

/-- Fuel adequacy of `parse_node_data_context` (owned parser). -/
def parse_node_data_context_ok : Nat → parser_state → document → Bool
  | 0, _, _ => true
  | fuel + 1, s, node =>
    let r := skip fuel whitespace s
    if r.2 ≠ .valid then true
    else
      let s0 := r.1
      let cr := if s0.current_character = 47 then skip_comment fuel s0
        else (s0, .not_a_comment)
      let cok := if s0.current_character = 47 then skip_comment_ok fuel s0
        else true
      let s := cr.1
      if cr.2 = .passed_to_next_line then cok
      else if cr.2 = .stayed_on_same_line then
        cok && parse_node_data_context_ok fuel s node
      else if s.current_character = 59 then true
      else if s.current_character = 92 then
        let s := update_current_character (next_character s)
        let s := skip_whitespace_until_newline fuel s
        parse_node_data_context_ok fuel s node
      else if is_newline s.current_character then true
      else
        let t := detect_data_type s.current_character
        if t = .not_a_data_type then
          let s := report_error s .illegal_character s.current_character
            s.buffer_position
          parse_node_data_context_ok fuel
            (update_current_character (next_character s)) node
        else
          let d := parse_single_data owned_spec fuel s t
          parse_single_data_ok fuel s t &&
            parse_node_data_context_ok fuel d.1 (node.add_data d.2)

/-- Fuel adequacy of `parse_node_header_context` (owned parser). -/
def parse_node_header_context_ok (fuel : Nat) (s : parser_state)
    (header_data_type : parser_data_type) : Bool :=
  let i := parse_single_data owned_spec fuel s header_data_type
  parse_single_data_ok fuel s header_data_type &&
    parse_node_data_context_ok fuel i.1 (basic_document.mk i.2 [] [])

mutual

/-- Fuel adequacy of `parse_node_body_context` (owned parser). -/
def parse_node_body_context_ok :
    Nat → parser_state → document → Nat → Nat → Bool
  | 0, _, _, _, _ => true
  | fuel + 1, s, node, current_recursion, start_pos =>
    let r := skip fuel whitespace_and_newlines s
    if r.2 ≠ .valid then true
    else
      let s0 := r.1
      let cr := if s0.current_character = 47 then skip_comment fuel s0
        else (s0, .not_a_comment)
      let cok := if s0.current_character = 47 then skip_comment_ok fuel s0
        else true
      if cr.2 ≠ comment_type.not_a_comment then
        cok && parse_node_body_context_ok fuel cr.1 node current_recursion
          start_pos
      else
        let it := parse_node_body_item owned_spec fuel cr.1 node
          current_recursion start_pos
        parse_node_body_item_ok fuel cr.1 node current_recursion start_pos &&
          (if it.2.2 then
            parse_node_body_context_ok fuel it.1 it.2.1 current_recursion
              start_pos
          else true)
termination_by structural fuel _ _ _ _ => fuel

/-- Fuel adequacy of `parse_node_body_item` (owned parser). -/
def parse_node_body_item_ok :
    Nat → parser_state → document → Nat → Nat → Bool
  | 0, _, _, _, _ => true
  | fuel + 1, s, node, current_recursion, _start_pos =>
    let nested_start_pos := s.buffer_position
    let is_nested := s.current_character = 35
    if is_nested then
      let s := update_current_character (next_character s)
      if eof_at s ∨ is_whitespace s.current_character ∨
          is_newline s.current_character then
        true
      else parse_node_body_header_ok fuel s node current_recursion
        nested_start_pos true
    else parse_node_body_header_ok fuel s node current_recursion
      nested_start_pos false
termination_by structural fuel _ _ _ _ => fuel

/-- Fuel adequacy of `parse_node_body_header` (owned parser). -/
def parse_node_body_header_ok :
    Nat → parser_state → document → Nat → Nat → Bool → Bool
  | 0, _, _, _, _, _ => true
  | fuel + 1, s, _node, current_recursion, nested_start_pos, is_nested =>
    let header_data_type := detect_data_type s.current_character
    if header_data_type = .string ∨ header_data_type = .identifier then
      let hok := parse_node_header_context_ok fuel s header_data_type
      let hc := parse_node_header_context owned_spec fuel s header_data_type
      let s := hc.1
      if s.recursion_limit ≤ current_recursion + 1 then hok
      else if is_nested then
        hok && parse_node_body_context_ok fuel s hc.2 (current_recursion + 1)
          nested_start_pos
      else hok
    else true
termination_by structural fuel _ _ _ _ => fuel

end

/-- Fuel adequacy of `nepeta::load` with explicit limits. -/
def load_custom_ok (fuel : Nat) (source : List Nat)
    (recursion_limit error_limit : Nat) : Bool :=
  parse_node_body_context_ok fuel
    (initial_parser_state source recursion_limit error_limit)
    (basic_document.mk [] [] []) 0 0

/-- Fuel adequacy of `nepeta::load`. -/
def load_ok (fuel : Nat) (source : List Nat) : Bool :=
  load_custom_ok fuel source default_recursion_limit default_maximum_error_limit

/-! ## Block-context fuel adequacy

A `parse_block_line` cut short by fuel leaves its newline unconsumed;
the next block-body iteration then appends its literal newline at the
read cursor, which in the view parser clobbers an unread byte of the
shared buffer.  The flags below mirror the owned run and return `false`
exactly when some block line of the run was cut short; every other
fuel-exhaustion exit of the parser leaves the two specialisations in
lockstep. -/

/-- Fuel adequacy of `parse_block_line` (owned parser): `false` when
fuel ran out or its text read was cut short (leaving a byte under the
cursor that is neither a newline nor an escape marker). -/
def parse_block_line_bok : Nat → parser_state → List Nat → Bool
  | 0, _, _ => false
  | fuel + 1, s, data =>
    if eof_at s then true
    else
      let r := read fuel block_text s
      let a := append_buffer_string owned_spec r.1 data r.2
      if eof_at a.1 then true
      else if is_newline a.1.current_character then true
      else if a.1.current_character = 92 then
        let e := read_escape_character owned_spec a.1 a.2
        parse_block_line_bok fuel e.1 e.2
      else false

/-- Fuel adequacy of the block-body loop (owned parser). -/
def parse_data_block_body_loop_bok :
    Nat → parser_state → List Nat → Nat → Nat → Bool → Bool → Nat → Bool
  | 0, _, _, _, _, _, _, _ => true
  | fuel + 1, s, data, column_depth, current_column_start, is_first_line,
      is_base64, _start_position =>
    if eof_at s then true
    else if s.current_character = 125 ∧
        (s.buffer_position - current_column_start < column_depth ∨
         is_first_line = true) then true
    else
      let s := if s.current_character = 125 then
          report_error s .bad_block_close 0 s.buffer_position
        else s
      let a := if is_first_line = false ∧ is_base64 = false then
          append_buffer_character owned_spec s data 10
        else (s, data)
      let p := parse_block_line owned_spec fuel a.1 a.2
      parse_block_line_bok fuel a.1 a.2 &&
        (let current_column_start := p.1.buffer_position
         let target := current_column_start + column_depth
         let r := skip fuel
           (fun st => decide (st.buffer_position < target) &&
             is_whitespace st.current_character) p.1
         parse_data_block_body_loop_bok fuel r.1 p.2 column_depth
           current_column_start false is_base64 _start_position)

/-- Fuel adequacy of `parse_data_block_body_context` (owned parser). -/
def parse_data_block_body_context_bok (fuel : Nat) (s : parser_state)
    (start_position : Nat) (is_base64 : Bool) : Bool :=
  let before_whitespace := s.buffer_position
  let s := (skip fuel whitespace s).1
  let column_depth := s.buffer_position - before_whitespace
  let data := owned_spec.make_data s.source s.buffer_position
  parse_data_block_body_loop_bok fuel s data column_depth before_whitespace
    true is_base64 start_position

/-- Fuel adequacy of `parse_data_block_context` (owned parser). -/
def parse_data_block_context_bok (fuel : Nat) (s : parser_state) : Bool :=
  let start_position := s.buffer_position
  let s := update_current_character (next_character s)
  let r := skip fuel whitespace s
  if r.2 = .eof then true
  else
    let s := r.1
    let c :=
      if is_identifier s.current_character then
        let cc := parse_data_block_codec_context fuel s
        (cc.1, decide (cc.2 = .base64))
      else (s, false)
    let s := skip_whitespace_until_newline fuel c.1
    parse_data_block_body_context_bok fuel s start_position c.2

/-- Fuel adequacy of `parse_single_data` (owned parser), block contexts
only. -/
def parse_single_data_bok (fuel : Nat) (s : parser_state)
    (t : parser_data_type) : Bool :=
  match t with
  | .block => parse_data_block_context_bok fuel s
  | _ => true

/-- Fuel adequacy of `parse_node_data_context` (owned parser), block
contexts only. -/
def parse_node_data_context_bok : Nat → parser_state → document → Bool
  | 0, _, _ => true
  | fuel + 1, s, node =>
    let r := skip fuel whitespace s
    if r.2 ≠ .valid then true
    else
      let s0 := r.1
      let cr := if s0.current_character = 47 then skip_comment fuel s0
        else (s0, .not_a_comment)
      let s := cr.1
      if cr.2 = .passed_to_next_line then true
      else if cr.2 = .stayed_on_same_line then
        parse_node_data_context_bok fuel s node
      else if s.current_character = 59 then true
      else if s.current_character = 92 then
        let s := update_current_character (next_character s)
        let s := skip_whitespace_until_newline fuel s
        parse_node_data_context_bok fuel s node
      else if is_newline s.current_character then true
      else
        let t := detect_data_type s.current_character
        if t = .not_a_data_type then
          let s := report_error s .illegal_character s.current_character
            s.buffer_position
          parse_node_data_context_bok fuel
            (update_current_character (next_character s)) node
        else
          let d := parse_single_data owned_spec fuel s t
          parse_single_data_bok fuel s t &&
            parse_node_data_context_bok fuel d.1 (node.add_data d.2)

/-- Fuel adequacy of `parse_node_header_context` (owned parser), block
contexts only. -/
def parse_node_header_context_bok (fuel : Nat) (s : parser_state)
    (header_data_type : parser_data_type) : Bool :=
  let i := parse_single_data owned_spec fuel s header_data_type
  parse_single_data_bok fuel s header_data_type &&
    parse_node_data_context_bok fuel i.1 (basic_document.mk i.2 [] [])

mutual

/-- Fuel adequacy of `parse_node_body_context` (owned parser), block
contexts only. -/
def parse_node_body_context_bok :
    Nat → parser_state → document → Nat → Nat → Bool
  | 0, _, _, _, _ => true
  | fuel + 1, s, node, current_recursion, start_pos =>
    let r := skip fuel whitespace_and_newlines s
    if r.2 ≠ .valid then true
    else
      let s0 := r.1
      let cr := if s0.current_character = 47 then skip_comment fuel s0
        else (s0, .not_a_comment)
      if cr.2 ≠ comment_type.not_a_comment then
        parse_node_body_context_bok fuel cr.1 node current_recursion start_pos
      else
        let it := parse_node_body_item owned_spec fuel cr.1 node
          current_recursion start_pos
        parse_node_body_item_bok fuel cr.1 node current_recursion start_pos &&
          (if it.2.2 then
            parse_node_body_context_bok fuel it.1 it.2.1 current_recursion
              start_pos
          else true)
termination_by structural fuel _ _ _ _ => fuel

/-- Fuel adequacy of `parse_node_body_item` (owned parser), block
contexts only. -/
def parse_node_body_item_bok :
    Nat → parser_state → document → Nat → Nat → Bool
  | 0, _, _, _, _ => true
  | fuel + 1, s, node, current_recursion, _start_pos =>
    let nested_start_pos := s.buffer_position
    let is_nested := s.current_character = 35
    if is_nested then
      let s := update_current_character (next_character s)
      if eof_at s ∨ is_whitespace s.current_character ∨
          is_newline s.current_character then
        true
      else parse_node_body_header_bok fuel s node current_recursion
        nested_start_pos true
    else parse_node_body_header_bok fuel s node current_recursion
      nested_start_pos false
termination_by structural fuel _ _ _ _ => fuel

/-- Fuel adequacy of `parse_node_body_header` (owned parser), block
contexts only. -/
def parse_node_body_header_bok :
    Nat → parser_state → document → Nat → Nat → Bool → Bool
  | 0, _, _, _, _, _ => true
  | fuel + 1, s, _node, current_recursion, nested_start_pos, is_nested =>
    let header_data_type := detect_data_type s.current_character
    if header_data_type = .string ∨ header_data_type = .identifier then
      let hok := parse_node_header_context_bok fuel s header_data_type
      let hc := parse_node_header_context owned_spec fuel s header_data_type
      let s := hc.1
      if s.recursion_limit ≤ current_recursion + 1 then hok
      else if is_nested then
        hok && parse_node_body_context_bok fuel s hc.2 (current_recursion + 1)
          nested_start_pos
      else hok
    else true
termination_by structural fuel _ _ _ _ => fuel

end

/-- Block-context fuel adequacy of `nepeta::load` with explicit
limits. -/
def load_custom_blocks_ok (fuel : Nat) (source : List Nat)
    (recursion_limit error_limit : Nat) : Bool :=
  parse_node_body_context_bok fuel
    (initial_parser_state source recursion_limit error_limit)
    (basic_document.mk [] [] []) 0 0

/-- Block-context fuel adequacy of `nepeta::load`. -/
def load_blocks_ok (fuel : Nat) (source : List Nat) : Bool :=
  load_custom_blocks_ok fuel source default_recursion_limit
    default_maximum_error_limit

/-! ## Owned/view correspondence

The two parser specialisations share their control flow; the view
variant reads the same bytes as the owned one because its in-place
writes always land strictly below the read cursor. -/

/-- Buffers agree at every position at or after `p`. -/
def agree_from (A B : List Nat) (p : Nat) : Prop :=
  ∀ i, p ≤ i → A.getD i 0 = B.getD i 0

/-- Buffers agree at every position strictly below `p`. -/
def agree_below (A B : List Nat) (p : Nat) : Prop :=
  ∀ i, i < p → A.getD i 0 = B.getD i 0

/-- Correspondence between a state of the owned run over `S` and a
state of the view run: equal cursor, character cache and limits, and a
view buffer of the original length that still holds the original bytes
from the read cursor on. -/
def view_rel (S : List Nat) (σo σv : parser_state) : Prop :=
  σo.source = S ∧
  σv.source.length = S.length ∧
  σv.buffer_position = σo.buffer_position ∧
  σv.current_character = σo.current_character ∧
  σv.recursion_limit = σo.recursion_limit ∧
  σv.error_limit = σo.error_limit ∧
  agree_from σv.source S σo.buffer_position

/-- One parsing step of the two runs in correspondence: the exit states
are related, the cursor moved forward, and the view buffer was written
only at or above the entry cursor. -/
def v_step (S : List Nat) (σo σv σo' σv' : parser_state) : Prop :=
  view_rel S σo' σv' ∧
  σo.buffer_position ≤ σo'.buffer_position ∧
  σv'.source.length = σv.source.length ∧
  agree_below σv'.source σv.source σo.buffer_position

/-- A completed view value materialises in buffer `B` to the owned
value `o`, its slice lying entirely below the bound `M`. -/
def val_rel (B : List Nat) (M : Nat) (v : Nat × Nat) (o : List Nat) :
    Prop :=
  v.1 + v.2 ≤ M ∧ (B.drop v.1).take v.2 = o

/-- Invariant of a value under construction at slice start `p`: the
runs are in correspondence, the `ℓ` bytes built so far sit below the
read cursor (and inside the buffer once non-empty) and materialise to
the owned bytes `o`. -/
def val_inv (S : List Nat) (σo σv : parser_state) (p ℓ : Nat)
    (o : List Nat) : Prop :=
  view_rel S σo σv ∧
  p + ℓ ≤ σo.buffer_position ∧
  (ℓ = 0 ∨ p + ℓ ≤ S.length) ∧
  (σv.source.drop p).take ℓ = o

/-- Pointwise `val_rel` over data sequences. -/
def data_rel (B : List Nat) (M : Nat) :
    List (Nat × Nat) → List (List Nat) → Prop
  | [], [] => True
  | v :: vs, o :: os => val_rel B M v o ∧ data_rel B M vs os
  | _, _ => False

mutual

/-- A view document materialises in `B` to the owned document, all its
slices lying below `M`. -/
def doc_rel (B : List Nat) (M : Nat) :
    basic_document (Nat × Nat) → document → Prop
  | .mk iv dvs cvs, .mk io os cos =>
    val_rel B M iv io ∧ data_rel B M dvs os ∧ kids_rel B M cvs cos

/-- Pointwise `doc_rel` over child sequences. -/
def kids_rel (B : List Nat) (M : Nat) :
    List (basic_document (Nat × Nat)) → List document → Prop
  | [], [] => True
  | c :: cs, d :: ds => doc_rel B M c d ∧ kids_rel B M cs ds
  | _, _ => False

end

/-- `nepeta::load_view`: parse a view document with the default
limits. -/
def load_view (fuel : Nat) (source : List Nat) :
    parser_state × basic_document (Nat × Nat) :=
  load_view_custom fuel source default_recursion_limit
    default_maximum_error_limit

/-! ## The writer (`nepeta_writer_detail.h`)

The writer emits a byte list; the C++ streams through a callback, which
concatenation models. -/

/-- The writer's indentation character (tab or space). -/
def indentation_char (p : writer_parameters) : Nat :=
  if p.indentation = .tabs then 9 else 32

/-- `write_indentation(depth)`: `indentation_characters * depth` copies
of the indentation character. -/
def write_indentation (p : writer_parameters) (depth : Nat) : List Nat :=
  List.replicate (p.indentation_characters * depth) (indentation_char p)

/-- `nepeta_writer::to_escaped_character`: the escape letter for a
control byte, or the byte itself. -/
def to_escaped_character (c : Nat) : Nat :=
  if c = 0 then 48
  else if c = 7 then 97
  else if c = 8 then 98
  else if c = 12 then 102
  else if c = 10 then 110
  else if c = 13 then 114
  else if c = 9 then 116
  else if c = 11 then 118
  else c

/-- `nepeta_writer::write_string`: a quoted string, escaping `\`, `"`
and newline bytes. -/
def write_string (data : List Nat) : List Nat :=
  [34] ++
  (data.flatMap fun ch =>
    if ch = 92 then [92, 92]
    else if ch = 34 then [92, 34]
    else if is_newline ch then [92, to_escaped_character ch]
    else [ch]) ++
  [34]

/-- `nepeta_writer::write_block`: a text block; a leading whitespace
byte is escaped, `\` doubled, LF becomes a newline plus body
indentation, CR becomes `\r`. -/
def write_block (p : writer_parameters) (data : List Nat) (current_depth : Nat) :
    List Nat :=
  [123, 10] ++
  (if data = [] then []
   else
    write_indentation p (current_depth + 1) ++
    (data.enum.flatMap fun ic =>
      if ic.1 = 0 ∧ is_whitespace ic.2 then [92, ic.2]
      else if ic.2 = 92 then [92, 92]
      else if ic.2 = 10 then 10 :: write_indentation p (current_depth + 1)
      else if ic.2 = 13 then [92, to_escaped_character 13]
      else [ic.2]) ++
    [10]) ++
  write_indentation p current_depth ++ [125]

/-- Split a byte list into the aligned 3-byte groups that the base64
writer's `for` loop visits (`i = 0, 3, ... < max_aligned`). -/
def chunks3 : List Nat → List (Nat × Nat × Nat)
  | a :: b :: c :: rest => (a, b, c) :: chunks3 rest
  | _ => []

/-- The aligned loop of `write_base64` over the 3-byte groups,
tracking `characters_written`.  The C++ folding condition is
`characters_written >= base64_per_line && i + 1 < max_aligned`; since
the loop runs while `i < max_aligned` in steps of 3, `i + 1 <
max_aligned` holds at every iterated group, so only the line-width
test remains. -/
def write_base64_loop (p : writer_parameters) (depth : Nat) :
    List (Nat × Nat × Nat) → Nat → List Nat
  | [], _ => []
  | t :: rest, characters_written =>
    let frag := convert_to_base64_fragment 3 t.1 t.2.1 t.2.2
    let characters_written := characters_written + 4
    if p.base64_per_line ≤ characters_written then
      frag ++ (10 :: write_indentation p (depth + 1)) ++
        write_base64_loop p depth rest 0
    else frag ++ write_base64_loop p depth rest characters_written

/-- `nepeta_writer::write_base64`: `{ base64`, the folded aligned
groups, the 1- or 2-byte tail fragment, and the closing `}`. -/
def write_base64 (p : writer_parameters) (data : List Nat) (current_depth : Nat) :
    List Nat :=
  [123, 32] ++ base64_codec ++ [10] ++
  (if data = [] then []
   else
    write_indentation p (current_depth + 1) ++
    write_base64_loop p current_depth (chunks3 data) 0 ++
    (let remainder := data.length % 3
     if remainder = 1 then
       convert_to_base64_fragment 1 (data.getD (data.length - 1) 0) 0 0
     else if remainder = 2 then
       convert_to_base64_fragment 2 (data.getD (data.length - 2) 0)
         (data.getD (data.length - 1) 0) 0
     else []) ++
    [10]) ++
  write_indentation p current_depth ++ [125]

/-- `nepeta_writer::write_data`: a leading space, then the value in its
classified representation. -/
def write_data (p : writer_parameters) (data : List Nat) (current_depth : Nat) :
    List Nat :=
  32 ::
  match determine_data_type p data with
  | .identifier => data
  | .string => write_string data
  | .block => write_block p data current_depth
  | .block_base64 => write_base64 p data current_depth

mutual

/-- `nepeta_writer::write_node`: emit a node at `current_depth` (the
root at depth 0 has no header of its own), its children one level
deeper, and the closing `#` line when the node has children. -/
def write_node (p : writer_parameters) : basic_document (List Nat) → Nat → List Nat
  | .mk id dat children, current_depth =>
    (if 0 < current_depth then
      write_indentation p (current_depth - 1) ++
      (if children.isEmpty then [] else [35]) ++
      (if determine_identifier_type id = .identifier then id
       else write_string id) ++
      dat.flatMap (fun d => write_data p d (current_depth - 1)) ++
      [10]
     else []) ++
    write_node_list p children (current_depth + 1) ++
    (if 0 < current_depth ∧ children.isEmpty = false then
      write_indentation p (current_depth - 1) ++ [35, 10]
     else [])

/-- The writer's recursion over a node's children. -/
def write_node_list (p : writer_parameters) :
    List (basic_document (List Nat)) → Nat → List Nat
  | [], _ => []
  | c :: rest, depth => write_node p c depth ++ write_node_list p rest depth

end

/-- `nepeta::write_to_string`: the full output for a document (the
`nepeta_writer` constructor starts `write_node` at depth 0). -/
def write_to_string (source : document) (p : writer_parameters) : List Nat :=
  write_node p source 0

/-! ## Specification-side descriptions

These definitions follow the specification's wording (not the code) and
are compared against the code-translated definitions above. -/

/-- Spec wording for the body of `opt_integer`'s grammar: every byte
after the optional sign is a decimal digit or the digit spacer `'`. -/
def integer_tail_ok (l : List Nat) : Bool :=
  l.all fun c => is_number c || c == 39

/-- Spec wording: the view matches the grammar `[-+]?[0-9']*`. -/
def integer_grammar_ok (v : List Nat) : Bool :=
  match v with
  | [] => true
  | c :: rest => if c = 45 ∨ c = 43 then integer_tail_ok rest else integer_tail_ok v

/-- Spec wording: accumulated base-10 value of the digits, ignoring
digit spacers. -/
def integer_digits_value (l : List Nat) : Int :=
  l.foldl (fun acc c => if c == 39 then acc else acc * 10 + (to_number c : Int)) 0

/-- Spec wording: the value of a grammar-conforming view: the
accumulated value, negated by a leading `-` and unchanged by a
leading `+`; the empty view yields `0`. -/
def integer_spec_value (v : List Nat) : Int :=
  match v with
  | [] => 0
  | c :: rest =>
    if c = 45 then -(integer_digits_value rest)
    else if c = 43 then integer_digits_value rest
    else integer_digits_value v

/-! ## Lemmas about the scanning loop of `determine_data_type` -/

/-! ## State invariants of the parser

Every parser operation preserves two facts about the state: the
configured recursion limit is never written, and each error-sink
invocation consumes one unit of the error quota, so the number of
reported errors plus the remaining quota (`err_budget`) is constant. -/

/-- Reported errors plus remaining error quota. -/
def err_budget (s : parser_state) : Nat := s.errors.length + s.error_limit

@[simp] theorem prod_fst_ite {A B : Type} (c : Prop) [Decidable c] (a b : A × B) :
    (if c then a else b).1 = if c then a.1 else b.1 := by split <;> rfl

@[simp] theorem recursion_limit_ite (c : Prop) [Decidable c] (a b : parser_state) :
    (if c then a else b).recursion_limit =
      if c then a.recursion_limit else b.recursion_limit := by split <;> rfl

@[simp] theorem err_budget_ite (c : Prop) [Decidable c] (a b : parser_state) :
    err_budget (if c then a else b) =
      if c then err_budget a else err_budget b := by split <;> rfl

@[simp] theorem report_error_rl (s : parser_state) (t : parser_error) (ch pos : Nat) :
    (report_error s t ch pos).recursion_limit = s.recursion_limit := by
  unfold report_error
  split <;> rfl

@[simp] theorem report_error_eb (s : parser_state) (t : parser_error) (ch pos : Nat) :
    err_budget (report_error s t ch pos) = err_budget s := by
  unfold report_error err_budget
  split
  · rfl
  · simp only [List.length_append, List.length_cons, List.length_nil]
    omega

@[simp] theorem spec_next_rl (s : parser_state) :
    (spec_next s).recursion_limit = s.recursion_limit := rfl

@[simp] theorem spec_next_eb (s : parser_state) :
    err_budget (spec_next s) = err_budget s := rfl

@[simp] theorem next_character_rl (s : parser_state) :
    (next_character s).recursion_limit = s.recursion_limit := by
  unfold next_character
  split <;> rfl

@[simp] theorem next_character_eb (s : parser_state) :
    err_budget (next_character s) = err_budget s := by
  unfold next_character
  split <;> rfl

@[simp] theorem update_current_character_nocheck_rl (s : parser_state) :
    (update_current_character_nocheck s).recursion_limit = s.recursion_limit := rfl

@[simp] theorem update_current_character_nocheck_eb (s : parser_state) :
    err_budget (update_current_character_nocheck s) = err_budget s := rfl

@[simp] theorem update_current_character_rl (s : parser_state) :
    (update_current_character s).recursion_limit = s.recursion_limit := rfl

@[simp] theorem update_current_character_eb (s : parser_state) :
    err_budget (update_current_character s) = err_budget s := rfl

@[simp] theorem skip_rl (fuel : Nat) (pred : parser_state → Bool) (s : parser_state) :
    (skip fuel pred s).1.recursion_limit = s.recursion_limit := by
  induction fuel generalizing s with
  | zero => rfl
  | succ fuel ih =>
    unfold skip
    dsimp only
    split
    · split <;> simp [ih]
    · rfl

@[simp] theorem skip_eb (fuel : Nat) (pred : parser_state → Bool) (s : parser_state) :
    err_budget (skip fuel pred s).1 = err_budget s := by
  induction fuel generalizing s with
  | zero => rfl
  | succ fuel ih =>
    unfold skip
    dsimp only
    split
    · split <;> simp [ih]
    · rfl

@[simp] theorem read_rl (fuel : Nat) (pred : parser_state → Bool) (s : parser_state) :
    (read fuel pred s).1.recursion_limit = s.recursion_limit := skip_rl fuel pred s

@[simp] theorem read_eb (fuel : Nat) (pred : parser_state → Bool) (s : parser_state) :
    err_budget (read fuel pred s).1 = err_budget s := skip_eb fuel pred s

@[simp] theorem skip_comment_loop_rl (fuel : Nat) (start : Nat) (t : comment_type)
    (s : parser_state) :
    (skip_comment_loop fuel start t s).1.recursion_limit = s.recursion_limit := by
  induction fuel generalizing t s with
  | zero => rfl
  | succ fuel ih =>
    unfold skip_comment_loop
    dsimp only
    split
    · simp
    · split <;> simp [ih]

@[simp] theorem skip_comment_loop_eb (fuel : Nat) (start : Nat) (t : comment_type)
    (s : parser_state) :
    err_budget (skip_comment_loop fuel start t s).1 = err_budget s := by
  induction fuel generalizing t s with
  | zero => rfl
  | succ fuel ih =>
    unfold skip_comment_loop
    dsimp only
    split
    · simp
    · split <;> simp [ih]

@[simp] theorem skip_comment_rl (fuel : Nat) (s : parser_state) :
    (skip_comment fuel s).1.recursion_limit = s.recursion_limit := by
  unfold skip_comment
  dsimp only
  split
  · simp
  · split <;> simp

@[simp] theorem skip_comment_eb (fuel : Nat) (s : parser_state) :
    err_budget (skip_comment fuel s).1 = err_budget s := by
  unfold skip_comment
  dsimp only
  split
  · simp
  · split <;> simp

@[simp] theorem skip_whitespace_until_newline_rl (fuel : Nat) (s : parser_state) :
    (skip_whitespace_until_newline fuel s).recursion_limit = s.recursion_limit := by
  unfold skip_whitespace_until_newline
  dsimp only
  split <;> split <;> simp

@[simp] theorem skip_whitespace_until_newline_eb (fuel : Nat) (s : parser_state) :
    err_budget (skip_whitespace_until_newline fuel s) = err_budget s := by
  unfold skip_whitespace_until_newline
  dsimp only
  split <;> split <;> simp

@[simp] theorem append_buffer_string_rl {D : Type} (m : specialization D)
    (s : parser_state) (data : D) (n : Nat) :
    (append_buffer_string m s data n).1.recursion_limit = s.recursion_limit := rfl

@[simp] theorem append_buffer_string_eb {D : Type} (m : specialization D)
    (s : parser_state) (data : D) (n : Nat) :
    err_budget (append_buffer_string m s data n).1 = err_budget s := rfl

@[simp] theorem append_buffer_character_rl {D : Type} (m : specialization D)
    (s : parser_state) (data : D) (ch : Nat) :
    (append_buffer_character m s data ch).1.recursion_limit = s.recursion_limit := rfl

@[simp] theorem append_buffer_character_eb {D : Type} (m : specialization D)
    (s : parser_state) (data : D) (ch : Nat) :
    err_budget (append_buffer_character m s data ch).1 = err_budget s := rfl

@[simp] theorem base64_convert_rl {D : Type} (m : specialization D)
    (s : parser_state) (data : D) :
    (base64_convert m s data).1.recursion_limit = s.recursion_limit := rfl

@[simp] theorem base64_convert_eb {D : Type} (m : specialization D)
    (s : parser_state) (data : D) :
    err_budget (base64_convert m s data).1 = err_budget s := rfl

@[simp] theorem read_escape_character_rl {D : Type} (m : specialization D)
    (s : parser_state) (data : D) :
    (read_escape_character m s data).1.recursion_limit = s.recursion_limit := by
  unfold read_escape_character
  dsimp only
  split <;> simp

@[simp] theorem read_escape_character_eb {D : Type} (m : specialization D)
    (s : parser_state) (data : D) :
    err_budget (read_escape_character m s data).1 = err_budget s := by
  unfold read_escape_character
  dsimp only
  split <;> simp

@[simp] theorem parse_data_identifier_context_rl {D : Type} (m : specialization D)
    (fuel : Nat) (s : parser_state) :
    (parse_data_identifier_context m fuel s).1.recursion_limit = s.recursion_limit := by
  unfold parse_data_identifier_context
  simp

@[simp] theorem parse_data_identifier_context_eb {D : Type} (m : specialization D)
    (fuel : Nat) (s : parser_state) :
    err_budget (parse_data_identifier_context m fuel s).1 = err_budget s := by
  unfold parse_data_identifier_context
  simp

@[simp] theorem parse_data_string_loop_rl {D : Type} (m : specialization D)
    (fuel : Nat) (s : parser_state) (data : D) (start : Nat) :
    (parse_data_string_loop m fuel s data start).1.recursion_limit =
      s.recursion_limit := by
  induction fuel generalizing s data with
  | zero => rfl
  | succ fuel ih =>
    unfold parse_data_string_loop
    dsimp only
    split
    · simp
    · split
      · simp
      · split <;> simp [ih]

@[simp] theorem parse_data_string_loop_eb {D : Type} (m : specialization D)
    (fuel : Nat) (s : parser_state) (data : D) (start : Nat) :
    err_budget (parse_data_string_loop m fuel s data start).1 = err_budget s := by
  induction fuel generalizing s data with
  | zero => rfl
  | succ fuel ih =>
    unfold parse_data_string_loop
    dsimp only
    split
    · simp
    · split
      · simp
      · split <;> simp [ih]

@[simp] theorem parse_data_string_context_rl {D : Type} (m : specialization D)
    (fuel : Nat) (s : parser_state) :
    (parse_data_string_context m fuel s).1.recursion_limit = s.recursion_limit := by
  unfold parse_data_string_context
  simp

@[simp] theorem parse_data_string_context_eb {D : Type} (m : specialization D)
    (fuel : Nat) (s : parser_state) :
    err_budget (parse_data_string_context m fuel s).1 = err_budget s := by
  unfold parse_data_string_context
  simp

@[simp] theorem parse_block_line_rl {D : Type} (m : specialization D)
    (fuel : Nat) (s : parser_state) (data : D) :
    (parse_block_line m fuel s data).1.recursion_limit = s.recursion_limit := by
  induction fuel generalizing s data with
  | zero => rfl
  | succ fuel ih =>
    unfold parse_block_line
    dsimp only
    split
    · rfl
    · split
      · simp
      · split
        · simp
        · split <;> simp [ih]

@[simp] theorem parse_block_line_eb {D : Type} (m : specialization D)
    (fuel : Nat) (s : parser_state) (data : D) :
    err_budget (parse_block_line m fuel s data).1 = err_budget s := by
  induction fuel generalizing s data with
  | zero => rfl
  | succ fuel ih =>
    unfold parse_block_line
    dsimp only
    split
    · rfl
    · split
      · simp
      · split
        · simp
        · split <;> simp [ih]

@[simp] theorem parse_data_block_body_loop_rl {D : Type} (m : specialization D)
    (fuel : Nat) (s : parser_state) (data : D) (cd ccs : Nat) (fl b64 : Bool)
    (sp : Nat) :
    (parse_data_block_body_loop m fuel s data cd ccs fl b64 sp).1.recursion_limit =
      s.recursion_limit := by
  induction fuel generalizing s data ccs fl with
  | zero => rfl
  | succ fuel ih =>
    unfold parse_data_block_body_loop
    dsimp only
    split
    · simp
    · split
      · simp
      · split <;> split <;> simp [ih]

@[simp] theorem parse_data_block_body_loop_eb {D : Type} (m : specialization D)
    (fuel : Nat) (s : parser_state) (data : D) (cd ccs : Nat) (fl b64 : Bool)
    (sp : Nat) :
    err_budget (parse_data_block_body_loop m fuel s data cd ccs fl b64 sp).1 =
      err_budget s := by
  induction fuel generalizing s data ccs fl with
  | zero => rfl
  | succ fuel ih =>
    unfold parse_data_block_body_loop
    dsimp only
    split
    · simp
    · split
      · simp
      · split <;> split <;> simp [ih]

@[simp] theorem parse_data_block_body_context_rl {D : Type} (m : specialization D)
    (fuel : Nat) (s : parser_state) (sp : Nat) (b64 : Bool) :
    (parse_data_block_body_context m fuel s sp b64).1.recursion_limit =
      s.recursion_limit := by
  unfold parse_data_block_body_context
  simp

@[simp] theorem parse_data_block_body_context_eb {D : Type} (m : specialization D)
    (fuel : Nat) (s : parser_state) (sp : Nat) (b64 : Bool) :
    err_budget (parse_data_block_body_context m fuel s sp b64).1 = err_budget s := by
  unfold parse_data_block_body_context
  simp

@[simp] theorem parse_data_block_codec_context_rl (fuel : Nat) (s : parser_state) :
    (parse_data_block_codec_context fuel s).1.recursion_limit =
      s.recursion_limit := by
  unfold parse_data_block_codec_context
  dsimp only
  split
  · simp
  · split <;> simp

@[simp] theorem parse_data_block_codec_context_eb (fuel : Nat) (s : parser_state) :
    err_budget (parse_data_block_codec_context fuel s).1 = err_budget s := by
  unfold parse_data_block_codec_context
  dsimp only
  split
  · simp
  · split <;> simp

@[simp] theorem parse_data_block_context_rl {D : Type} (m : specialization D)
    (fuel : Nat) (s : parser_state) :
    (parse_data_block_context m fuel s).1.recursion_limit = s.recursion_limit := by
  unfold parse_data_block_context
  dsimp only
  split
  · simp
  · split <;> split <;> simp

@[simp] theorem parse_data_block_context_eb {D : Type} (m : specialization D)
    (fuel : Nat) (s : parser_state) :
    err_budget (parse_data_block_context m fuel s).1 = err_budget s := by
  unfold parse_data_block_context
  dsimp only
  split
  · simp
  · split <;> split <;> simp

@[simp] theorem parse_single_data_rl {D : Type} (m : specialization D) (fuel : Nat)
    (s : parser_state) (t : parser_data_type) :
    (parse_single_data m fuel s t).1.recursion_limit = s.recursion_limit := by
  cases t <;> simp [parse_single_data]

@[simp] theorem parse_single_data_eb {D : Type} (m : specialization D) (fuel : Nat)
    (s : parser_state) (t : parser_data_type) :
    err_budget (parse_single_data m fuel s t).1 = err_budget s := by
  cases t <;> simp [parse_single_data]

@[simp] theorem parse_node_data_context_rl {D : Type} (m : specialization D)
    (fuel : Nat) (s : parser_state) (node : basic_document D) :
    (parse_node_data_context m fuel s node).1.recursion_limit =
      s.recursion_limit := by
  induction fuel generalizing s node with
  | zero => rfl
  | succ fuel ih =>
    unfold parse_node_data_context
    dsimp only
    simp [ih]

@[simp] theorem parse_node_data_context_eb {D : Type} (m : specialization D)
    (fuel : Nat) (s : parser_state) (node : basic_document D) :
    err_budget (parse_node_data_context m fuel s node).1 = err_budget s := by
  induction fuel generalizing s node with
  | zero => rfl
  | succ fuel ih =>
    unfold parse_node_data_context
    dsimp only
    simp [ih]

@[simp] theorem parse_node_header_context_rl {D : Type} (m : specialization D)
    (fuel : Nat) (s : parser_state) (t : parser_data_type) :
    (parse_node_header_context m fuel s t).1.recursion_limit = s.recursion_limit := by
  unfold parse_node_header_context
  simp

@[simp] theorem parse_node_header_context_eb {D : Type} (m : specialization D)
    (fuel : Nat) (s : parser_state) (t : parser_data_type) :
    err_budget (parse_node_header_context m fuel s t).1 = err_budget s := by
  unfold parse_node_header_context
  simp

theorem parse_node_body_mutual_inv {D : Type} (m : specialization D) :
    ∀ fuel : Nat,
      (∀ (s : parser_state) (node : basic_document D) (r p0 : Nat),
        (parse_node_body_context m fuel s node r p0).1.recursion_limit =
          s.recursion_limit ∧
        err_budget (parse_node_body_context m fuel s node r p0).1 = err_budget s) ∧
      (∀ (s : parser_state) (node : basic_document D) (r p0 : Nat),
        (parse_node_body_item m fuel s node r p0).1.recursion_limit =
          s.recursion_limit ∧
        err_budget (parse_node_body_item m fuel s node r p0).1 = err_budget s) ∧
      (∀ (s : parser_state) (node : basic_document D) (r nsp : Nat) (nested : Bool),
        (parse_node_body_header m fuel s node r nsp nested).1.recursion_limit =
          s.recursion_limit ∧
        err_budget (parse_node_body_header m fuel s node r nsp nested).1 =
          err_budget s) := by
  intro fuel
  induction fuel with
  | zero =>
    exact ⟨fun _ _ _ _ => ⟨rfl, rfl⟩, fun _ _ _ _ => ⟨rfl, rfl⟩,
      fun _ _ _ _ _ => ⟨rfl, rfl⟩⟩
  | succ fuel ih =>
    obtain ⟨ihb, ihi, ihh⟩ := ih
    have hb1 := fun s node r p0 => (ihb s node r p0).1
    have hb2 := fun s node r p0 => (ihb s node r p0).2
    have hi1 := fun s node r p0 => (ihi s node r p0).1
    have hi2 := fun s node r p0 => (ihi s node r p0).2
    have hh1 := fun s node r nsp nested => (ihh s node r nsp nested).1
    have hh2 := fun s node r nsp nested => (ihh s node r nsp nested).2
    refine ⟨fun s node r p0 => ?_, fun s node r p0 => ?_,
      fun s node r nsp nested => ?_⟩
    · unfold parse_node_body_context
      dsimp only
      constructor <;> simp [hb1, hb2, hi1, hi2]
    · unfold parse_node_body_item
      dsimp only
      constructor <;> simp [hh1, hh2]
    · unfold parse_node_body_header
      dsimp only
      constructor <;> simp [hb1, hb2]

@[simp] theorem parse_node_body_context_rl {D : Type} (m : specialization D)
    (fuel : Nat) (s : parser_state) (node : basic_document D) (r p0 : Nat) :
    (parse_node_body_context m fuel s node r p0).1.recursion_limit =
      s.recursion_limit :=
  ((parse_node_body_mutual_inv m fuel).1 s node r p0).1

@[simp] theorem parse_node_body_context_eb {D : Type} (m : specialization D)
    (fuel : Nat) (s : parser_state) (node : basic_document D) (r p0 : Nat) :
    err_budget (parse_node_body_context m fuel s node r p0).1 = err_budget s :=
  ((parse_node_body_mutual_inv m fuel).1 s node r p0).2

@[simp] theorem parse_node_body_item_rl {D : Type} (m : specialization D)
    (fuel : Nat) (s : parser_state) (node : basic_document D) (r p0 : Nat) :
    (parse_node_body_item m fuel s node r p0).1.recursion_limit =
      s.recursion_limit :=
  ((parse_node_body_mutual_inv m fuel).2.1 s node r p0).1

/-! ## Height of the parsed tree -/

@[simp] theorem prod_snd_ite {A B : Type} (c : Prop) [Decidable c] (a b : A × B) :
    (if c then a else b).2 = if c then a.2 else b.2 := by split <;> rfl

@[simp] theorem children_ite {D : Type} (c : Prop) [Decidable c]
    (a b : basic_document D) :
    (if c then a else b).children = if c then a.children else b.children := by
  split <;> rfl

@[simp] theorem add_data_children {D : Type} (n : basic_document D) (v : D) :
    (n.add_data v).children = n.children := by cases n; rfl

theorem doc_height_list_append {D : Type} (cs : List (basic_document D))
    (c : basic_document D) :
    doc_height_list (cs ++ [c]) = max (doc_height_list cs) (doc_height c + 1) := by
  induction cs with
  | nil => simp [doc_height_list]
  | cons a l ih => simp [doc_height_list, ih, Nat.max_assoc]

theorem doc_height_add_child {D : Type} (n c : basic_document D) :
    doc_height (n.add_child c) = max (doc_height n) (doc_height c + 1) := by
  cases n
  simp [basic_document.add_child, doc_height, doc_height_list_append]

theorem doc_height_of_children_nil {D : Type} (n : basic_document D)
    (h : n.children = []) : doc_height n = 0 := by
  cases n
  simp only [basic_document.children] at h
  subst h
  simp [doc_height, doc_height_list]

theorem parse_node_data_context_children {D : Type} (m : specialization D)
    (fuel : Nat) (s : parser_state) (node : basic_document D) :
    ((parse_node_data_context m fuel s node).2).children = node.children := by
  induction fuel generalizing s node with
  | zero => rfl
  | succ fuel ih =>
    unfold parse_node_data_context
    dsimp only
    simp [ih]

theorem parse_node_header_context_children {D : Type} (m : specialization D)
    (fuel : Nat) (s : parser_state) (t : parser_data_type) :
    ((parse_node_header_context m fuel s t).2).children = [] := by
  unfold parse_node_header_context
  rw [parse_node_data_context_children]
  rfl

theorem parse_node_body_height_bound {D : Type} (m : specialization D) :
    ∀ fuel : Nat,
      (∀ (s : parser_state) (node : basic_document D) (r p0 : Nat),
        r < s.recursion_limit →
        doc_height (parse_node_body_context m fuel s node r p0).2 ≤
          max (doc_height node) (s.recursion_limit - r)) ∧
      (∀ (s : parser_state) (node : basic_document D) (r p0 : Nat),
        r < s.recursion_limit →
        doc_height (parse_node_body_item m fuel s node r p0).2.1 ≤
          max (doc_height node) (s.recursion_limit - r)) ∧
      (∀ (s : parser_state) (node : basic_document D) (r nsp : Nat)
          (nested : Bool), r < s.recursion_limit →
        doc_height (parse_node_body_header m fuel s node r nsp nested).2.1 ≤
          max (doc_height node) (s.recursion_limit - r)) := by
  intro fuel
  induction fuel with
  | zero =>
    refine ⟨fun s node r p0 h => ?_, fun s node r p0 h => ?_,
      fun s node r nsp nested h => ?_⟩ <;>
      exact le_max_left _ _
  | succ fuel ih =>
    obtain ⟨ihb, ihi, ihh⟩ := ih
    refine ⟨fun s node r p0 hr => ?_, fun s node r p0 hr => ?_,
      fun s node r nsp nested hr => ?_⟩
    · unfold parse_node_body_context
      dsimp only
      split
      · split <;> exact le_max_left _ _
      · set s0 := (skip fuel whitespace_and_newlines s).1 with hs0
        have hrl0 : s0.recursion_limit = s.recursion_limit := by
          rw [hs0]
          exact skip_rl _ _ _
        set cr := (if s0.current_character = 47 then skip_comment fuel s0
          else (s0, comment_type.not_a_comment)) with hcr
        have hrl : cr.1.recursion_limit = s.recursion_limit := by
          rw [hcr]
          split
          · rw [skip_comment_rl]
            exact hrl0
          · exact hrl0
        clear_value cr
        clear hcr
        split
        · have := ihb cr.1 node r p0 (by rw [hrl]; exact hr)
          rw [hrl] at this
          exact this
        · set it := parse_node_body_item m fuel cr.1 node r p0 with hit
          have hitrl : it.1.recursion_limit = s.recursion_limit := by
            rw [hit, parse_node_body_item_rl, hrl]
          have hitb : doc_height it.2.1 ≤
              max (doc_height node) (s.recursion_limit - r) := by
            have := ihi cr.1 node r p0 (by rw [hrl]; exact hr)
            rw [hrl] at this
            rw [hit]
            exact this
          clear_value it
          split
          · have := ihb it.1 it.2.1 r p0 (by rw [hitrl]; exact hr)
            rw [hitrl] at this
            omega
          · exact hitb
    · unfold parse_node_body_item
      dsimp only
      split
      · split
        · split <;> exact le_max_left _ _
        · have := ihh (update_current_character (next_character s)) node r
            s.buffer_position true (by simpa using hr)
          simpa using this
      · exact ihh s node r s.buffer_position false hr
    · unfold parse_node_body_header
      dsimp only
      split
      · set hc := parse_node_header_context m fuel s
          (detect_data_type s.current_character) with hhc
        have hcrl : hc.1.recursion_limit = s.recursion_limit := by
          rw [hhc, parse_node_header_context_rl]
        have hch : doc_height hc.2 = 0 := by
          rw [hhc]
          exact doc_height_of_children_nil _
            (parse_node_header_context_children _ _ _ _)
        clear_value hc
        split
        · rw [doc_height_add_child, hch]
          omega
        · split
          · rename_i hlim hnested
            rw [hcrl] at hlim
            have := ihb hc.1 hc.2 (r + 1) nsp (by rw [hcrl]; omega)
            rw [hcrl, hch] at this
            rw [doc_height_add_child]
            omega
          · rw [doc_height_add_child, hch]
            omega
      · split <;> exact le_max_left _ _

/-- **C5 counterexample** — with a configured recursion limit of `0`,
parsing the one-byte source `a` still creates a node at depth 1 (and
reports `recursion_limit_reached`), so the nesting depth of the
produced tree exceeds the limit. -/
theorem recursion_limit_zero_counterexample :
    doc_height (load_custom 64 [97] 0 10).2 = 1 ∧ ¬doc_height (load_custom 64 [97] 0 10).2 ≤ 0 := by
  constructor
  · rfl
  · intro h
    rw [show doc_height (load_custom 64 [97] 0 10).2 = 1 from rfl] at h
    omega

/-- **C5 (amended)** — for every input, fuel and error limit, and every
recursion limit of at least 1, the nesting depth of the tree produced
by the parser (counting the node parsed into as depth 0) never exceeds
the recursion limit: a header parsed at recursion level `r` with
`r + 1 >= limit` reports `recursion_limit_reached` and is not recursed
into, so nodes appear at depth at most `limit`. -/
theorem recursion_depth_bound (fuel : Nat) (source : List Nat)
    (recursion_limit error_limit : Nat) (h : 1 ≤ recursion_limit) :
    doc_height (load_custom fuel source recursion_limit error_limit).2 ≤
      recursion_limit := by
  unfold load_custom
  have hb := (parse_node_body_height_bound owned_spec fuel).1
    (initial_parser_state source recursion_limit error_limit)
    (basic_document.mk [] [] []) 0 0
  have hrl : (initial_parser_state source recursion_limit error_limit).recursion_limit =
      recursion_limit := rfl
  rw [hrl] at hb
  have h0 : doc_height (basic_document.mk ([] : List Nat) [] []) = 0 := rfl
  have := hb (by omega)
  rw [h0] at this
  omega

/-- Witness for `recursion_depth_bound` at a concrete input. -/
theorem recursion_depth_bound_witness :
    1 ≤ 2000 ∧ doc_height (load_custom 64 [97] 2000 10).2 ≤ 2000 :=
  ⟨by omega, recursion_depth_bound 64 [97] 2000 10 (by omega)⟩

/-- **C6** — a single parse invokes the error sink at most
`default_maximum_error_limit` (10) times, and once the quota is
exhausted a detected error leaves the state unchanged (it is silently
dropped while parsing continues). -/
theorem error_sink_bounded :
    (∀ (fuel : Nat) (source : List Nat),
      ((load fuel source).1).errors.length ≤ default_maximum_error_limit) ∧
    (∀ (s : parser_state) (t : parser_error) (ch pos : Nat),
      s.error_limit = 0 → report_error s t ch pos = s) := by
  constructor
  · intro fuel source
    have h : err_budget (load fuel source).1 = default_maximum_error_limit := by
      unfold load load_custom
      rw [parse_node_body_context_eb]
      rfl
    unfold err_budget at h
    omega
  · intro s t ch pos h
    unfold report_error
    simp [h]

/-- Witness for `error_sink_bounded`: the second conjunct at an
exhausted-quota state. -/
theorem error_sink_bounded_witness :
    (⟨[], 0, 0, 5, 0, []⟩ : parser_state).error_limit = 0 ∧
    report_error (⟨[], 0, 0, 5, 0, []⟩ : parser_state)
      .illegal_character 0 0 = (⟨[], 0, 0, 5, 0, []⟩ : parser_state) :=
  ⟨rfl, error_sink_bounded.2 _ .illegal_character 0 0 rfl⟩

/-! ## The close-marker of a node-body context (C7) -/

theorem skip_of_pred_false (fuel : Nat) (pred : parser_state → Bool)
    (s : parser_state) (hp : pred s = false) (he : eof_at s = false) :
    skip fuel pred s = (s, .valid) := by
  cases fuel with
  | zero => simp [skip, he]
  | succ fuel => simp [skip, hp, he]

/-- **C7 counterexample** — parsing `a\n#\n`: the close-marker `#` on
line 2 is reported at its own position (line 2, column 1), not at the
node-body context's opening position `p0 = 0` (line 1, column 1) that
the claim specifies. -/
theorem close_marker_position_counterexample :
    (load 64 [97, 10, 35, 10]).1.errors =
      [(parser_error.too_may_node_closing_markers, 0, 2, 1)] ∧
    line_column_from_buffer_position [97, 10, 35, 10] 0 = (1, 1) ∧
    ((2 : Nat), (1 : Nat)) ≠ ((1 : Nat), (1 : Nat)) := by
  refine ⟨by decide, by decide, by decide⟩

/-- **C7 (amended)** — whenever the parser, in a node-body context at
recursion level 0, encounters a close-marker (a `#` whose following
byte is EOF, whitespace, or a newline), it reports
`too_many_node_closing_markers` at the position of the `#` marker
itself and returns to the caller with the node unchanged. -/
theorem close_marker_report {D : Type} (m : specialization D) (fuel : Nat)
    (s : parser_state) (node : basic_document D) (p0 : Nat)
    (he : eof_at s = false)
    (hm : s.current_character = 35)
    (hclose : eof_at (update_current_character (next_character s)) = true ∨
      is_whitespace
        (update_current_character (next_character s)).current_character = true ∨
      is_newline
        (update_current_character (next_character s)).current_character = true) :
    parse_node_body_context m (fuel + 2) s node 0 p0 =
      (report_error (update_current_character (next_character s))
        .too_may_node_closing_markers 0 s.buffer_position, node) := by
  have hwnl : whitespace_and_newlines s = false := by
    unfold whitespace_and_newlines
    rw [hm]
    rfl
  have hnc : ¬s.current_character = 47 := by rw [hm]; omega
  unfold parse_node_body_context
  dsimp only
  rw [skip_of_pred_false (fuel + 1) whitespace_and_newlines s hwnl he]
  simp only [hnc, if_false, ne_eq, not_true_eq_false, if_false,
    reduceCtorEq, not_false_eq_true, if_true]
  unfold parse_node_body_item
  dsimp only
  rw [hm]
  simp only [if_pos rfl, hclose, if_true, if_pos rfl]
  simp

/-- Witness for `close_marker_report`: the state of the `a\n#\n` parse
just before the stray `#`. -/
theorem close_marker_report_witness :
    eof_at (⟨[97, 10, 35, 10], 2, 35, 2000, 10, []⟩ : parser_state) = false ∧
    (⟨[97, 10, 35, 10], 2, 35, 2000, 10, []⟩ : parser_state).current_character
      = 35 ∧
    parse_node_body_context owned_spec 34
      (⟨[97, 10, 35, 10], 2, 35, 2000, 10, []⟩ : parser_state)
      (basic_document.mk ([] : List Nat) [] []) 0 0 =
      (report_error (update_current_character (next_character
          (⟨[97, 10, 35, 10], 2, 35, 2000, 10, []⟩ : parser_state)))
        .too_may_node_closing_markers 0 2,
       basic_document.mk ([] : List Nat) [] []) :=
  ⟨rfl, rfl,
    close_marker_report owned_spec 32 _ _ 0 rfl rfl (by right; right; decide)⟩

theorem determine_data_type_scan_fst (l : List Nat) (b : Bool) :
    (determine_data_type_scan l b).1 = l.any is_binary := by
  induction l generalizing b with
  | nil => simp [determine_data_type_scan]
  | cons c rest ih =>
    simp only [determine_data_type_scan, List.any_cons]
    by_cases hc : is_binary c = true
    · simp [hc]
    · simp only [Bool.not_eq_true] at hc
      simp [hc, ih]

theorem determine_data_type_scan_snd (l : List Nat) (b : Bool)
    (h : l.any is_binary = false) :
    (determine_data_type_scan l b).2 = (b && l.all is_identifier) := by
  induction l generalizing b with
  | nil => simp [determine_data_type_scan]
  | cons c rest ih =>
    simp only [List.any_cons, Bool.or_eq_false_iff] at h
    simp only [determine_data_type_scan, h.1, Bool.false_eq_true, if_false,
      List.all_cons]
    rw [ih _ h.2, Bool.and_assoc]

/-! ## Lemmas about the loop of `opt_integer` -/

theorem opt_integer_go_tail (l : List Nat) (i : Nat) (r : Int) (neg : Bool)
    (hi : i ≠ 0) :
    opt_integer_go l i r neg =
      (if integer_tail_ok l then
        some (neg, l.foldl (fun acc c => if c == 39 then acc else acc * 10 + (to_number c : Int)) r)
       else none) := by
  induction l generalizing i r with
  | nil => simp [opt_integer_go, integer_tail_ok]
  | cons c rest ih =>
    have h45 : ¬(i = 0 ∧ c = 45) := fun h => hi h.1
    have h43 : ¬(i = 0 ∧ c = 43) := fun h => hi h.1
    simp only [opt_integer_go, h45, h43, if_false]
    by_cases hnum : is_number c = true
    · have hc39 : (c == 39) = false := by
        simp only [is_number, decide_eq_true_eq, Bool.and_eq_true] at hnum
        simp only [beq_eq_false_iff_ne, ne_eq]
        omega
      simp only [hnum, if_true, integer_tail_ok, List.all_cons, hc39,
        Bool.false_or, List.foldl_cons]
      rw [ih _ _ (by omega)]
      simp [integer_tail_ok, hnum, hc39]
    · simp only [Bool.not_eq_true] at hnum
      simp only [hnum, Bool.false_eq_true, if_false]
      by_cases hc : c = 39
      · subst hc
        simp only [if_true, integer_tail_ok, List.all_cons, List.foldl_cons]
        rw [ih _ _ (by omega)]
        simp [integer_tail_ok, hnum]
      · simp [hc, integer_tail_ok, hnum, Ne.symm hc]

/-- **C9** — `opt_integer` accepts exactly the grammar `[-+]?[0-9']*`:
the empty view yields `0`, a leading `-` negates the accumulated
base-10 value, a leading `+` does not, digit-spacer `'` bytes are
ignored at any position, and any other byte (including a sign byte not
at position 0) makes it return absent. -/
theorem opt_integer_matches_grammar (v : List Nat) :
    opt_integer v =
      (if integer_grammar_ok v then some (integer_spec_value v) else none) := by
  cases v with
  | nil => simp [opt_integer, opt_integer_go, integer_grammar_ok, integer_spec_value]
  | cons c rest =>
    rcases eq_or_ne c 45 with rfl | hminus
    · have hstep : opt_integer_go (45 :: rest) 0 0 false =
          opt_integer_go rest 1 0 true := by
        simp [opt_integer_go]
      rw [opt_integer, hstep, opt_integer_go_tail rest 1 0 true one_ne_zero]
      cases ht : integer_tail_ok rest with
      | false => simp [integer_grammar_ok, ht]
      | true => simp [integer_grammar_ok, ht, integer_spec_value, integer_digits_value]
    · rcases eq_or_ne c 43 with rfl | hplus
      · have hstep : opt_integer_go (43 :: rest) 0 0 false =
            opt_integer_go rest 1 0 false := by
          simp [opt_integer_go]
        rw [opt_integer, hstep, opt_integer_go_tail rest 1 0 false one_ne_zero]
        cases ht : integer_tail_ok rest with
        | false => simp [integer_grammar_ok, ht]
        | true => simp [integer_grammar_ok, ht, integer_spec_value, integer_digits_value]
      · have hg : integer_grammar_ok (c :: rest) = integer_tail_ok (c :: rest) := by
          simp [integer_grammar_ok, hminus, hplus]
        by_cases hnum : is_number c = true
        · have hc39 : (c == 39) = false := by
            simp only [is_number, decide_eq_true_eq, Bool.and_eq_true] at hnum
            simp only [beq_eq_false_iff_ne, ne_eq]
            omega
          have hstep : opt_integer_go (c :: rest) 0 0 false =
              opt_integer_go rest 1 ((to_number c : Int)) false := by
            simp [opt_integer_go, hminus, hplus, hnum]
          have htail : integer_tail_ok (c :: rest) = integer_tail_ok rest := by
            simp [integer_tail_ok, hnum]
          have hcne : c ≠ 39 := by simpa using hc39
          have hval : integer_digits_value (c :: rest) =
              rest.foldl (fun acc x => if x == 39 then acc else acc * 10 + (to_number x : Int))
                ((to_number c : Int)) := by
            simp [integer_digits_value, hcne]
          rw [opt_integer, hstep,
            opt_integer_go_tail rest 1 ((to_number c : Int)) false one_ne_zero,
            hg, htail]
          cases ht : integer_tail_ok rest with
          | false => simp
          | true => simp [integer_spec_value, hminus, hplus, hval]
        · simp only [Bool.not_eq_true] at hnum
          rcases eq_or_ne c 39 with rfl | hc
          · have hstep : opt_integer_go (39 :: rest) 0 0 false =
                opt_integer_go rest 1 0 false := by
              simp [opt_integer_go, hnum]
            have htail : integer_tail_ok (39 :: rest) = integer_tail_ok rest := by
              simp [integer_tail_ok]
            have hval : integer_digits_value (39 :: rest) = integer_digits_value rest := by
              simp [integer_digits_value]
            rw [opt_integer, hstep, opt_integer_go_tail rest 1 0 false one_ne_zero,
              hg, htail]
            cases ht : integer_tail_ok rest with
            | false => simp
            | true =>
              simp [integer_spec_value, hval, integer_digits_value]
          · have hstep : opt_integer_go (c :: rest) 0 0 false = none := by
              simp [opt_integer_go, hminus, hplus, hnum, hc]
            have htail : integer_tail_ok (c :: rest) = false := by
              simp [integer_tail_ok, hnum, hc]
            rw [opt_integer, hstep, hg, htail]
            simp

/-- **C4** — the writer's data-value classifier returns: string for the
empty value; `block_base64` if any byte among the first
`min(len, max(binary_check_limit, block_threshold))` bytes is binary;
otherwise `block` if the value's length is `>= block_threshold`;
otherwise `identifier` if every scanned byte is identifier-safe;
otherwise `string`.  In particular, a value containing any byte that is
not identifier-safe is never classified as an identifier. -/
theorem determine_data_type_spec :
    (∀ (p : writer_parameters) (d : List Nat),
      determine_data_type p d =
        (if d = [] then .string
         else if (d.take (min d.length
             (max p.limit_for_checking_binary p.limit_for_block_enforcement))).any
             is_binary then .block_base64
         else if p.limit_for_block_enforcement ≤ d.length then .block
         else if (d.take (min d.length
             (max p.limit_for_checking_binary p.limit_for_block_enforcement))).all
             is_identifier then .identifier
         else .string)) ∧
    (∀ (p : writer_parameters) (d : List Nat) (c : Nat),
      determine_data_type p d = .identifier → c ∈ d → is_identifier c = true) := by
  have hmain : ∀ (p : writer_parameters) (d : List Nat),
      determine_data_type p d =
        (if d = [] then .string
         else if (d.take (min d.length
             (max p.limit_for_checking_binary p.limit_for_block_enforcement))).any
             is_binary then .block_base64
         else if p.limit_for_block_enforcement ≤ d.length then .block
         else if (d.take (min d.length
             (max p.limit_for_checking_binary p.limit_for_block_enforcement))).all
             is_identifier then .identifier
         else .string) := by
    intro p d
    by_cases hd : d = []
    · simp [determine_data_type, hd]
    · simp only [determine_data_type, hd, if_false]
      set pre := d.take (min d.length
        (max p.limit_for_checking_binary p.limit_for_block_enforcement)) with hpre
      by_cases hb : pre.any is_binary = true
      · simp [determine_data_type_scan_fst, ← hpre, hb]
      · simp only [Bool.not_eq_true] at hb
        simp [determine_data_type_scan_fst, ← hpre, hb,
          determine_data_type_scan_snd _ _ hb]
  refine ⟨hmain, fun p d c hid hc => ?_⟩
  rw [hmain] at hid
  by_cases hd : d = []
  · subst hd; simp at hc
  · simp only [hd, if_false] at hid
    split at hid
    · exact absurd hid (by simp)
    · split at hid
      · exact absurd hid (by simp)
      · rename_i hblock
        split at hid
        · rename_i hall
          have hlen : d.length < p.limit_for_block_enforcement := by omega
          have hminlen : min d.length
              (max p.limit_for_checking_binary p.limit_for_block_enforcement)
              = d.length := by omega
          rw [hminlen, List.take_length] at hall
          exact List.all_eq_true.mp hall c hc
        · exact absurd hid (by simp)

/-- Witness for `determine_data_type_spec`: instantiating the second
conjunct at a concrete classification. -/
theorem determine_data_type_spec_witness :
    determine_data_type {} [97] = .identifier ∧ is_identifier 97 = true :=
  ⟨by decide, determine_data_type_spec.2 {} [97] 97 (by decide) (by simp)⟩

/-- **C3** — evaluating `convert_from_base64` at the failing input
`"QQ=="` (bytes `81 81 61 61`): the aligned block is decoded first, so
the check for the second trailing `=` reads the already-overwritten
byte at position 2 and misses it.  The function returns `2`, while the
claimed (and intended) length is `3·(4/4) − 2 = 1`. -/
theorem convert_from_base64_quad_padding_bug :
    (convert_from_base64 [81, 81, 61, 61]).2 = 2 ∧
    (convert_from_base64 [81, 81, 61, 61]).2 ≠
      3 * (([81, 81, 61, 61] : List Nat).length / 4) - 2 := by
  constructor
  · rfl
  · decide

/-- **C10** — all index-based helpers return absent (and the `doc_as_*`
variants return the supplied default) for an out-of-bounds index. -/
theorem out_of_bounds_helpers (doc : document) (i : Nat)
    (h : doc.data.length ≤ i) :
    opt_data doc i = none ∧ doc_opt_bool doc i = none ∧
    doc_opt_integer doc i = none ∧
    (∀ b : Bool, doc_as_bool doc i b = b) ∧
    (∀ z : Int, doc_as_integer doc i z = z) := by
  have hlt : ¬(i < doc.data.length) := by omega
  simp [opt_data, doc_opt_bool, doc_opt_integer, doc_as_bool, doc_as_integer, hlt]

/-- Witness for `out_of_bounds_helpers` at the empty document and
index 0. -/
theorem out_of_bounds_helpers_witness :
    (basic_document.mk [] [] [] : document).data.length ≤ 0 ∧
    (opt_data (basic_document.mk [] [] []) 0 = none ∧
     doc_opt_bool (basic_document.mk [] [] []) 0 = none ∧
     doc_opt_integer (basic_document.mk [] [] []) 0 = none ∧
     (∀ b : Bool, doc_as_bool (basic_document.mk [] [] []) 0 b = b) ∧
     (∀ z : Int, doc_as_integer (basic_document.mk [] [] []) 0 z = z)) :=
  ⟨by decide, out_of_bounds_helpers (basic_document.mk [] [] []) 0 (by decide)⟩

/-- **C1** — the writer's round-trip guarantee fails at a concrete
tree whose root `id` and root `data` are empty: for the tree with one
child having empty id, no data and no children, the writer (default
configuration) classifies the empty id as an identifier and emits only
a newline, so parsing the output yields a tree with no children at all
instead of a tree equal to the original. -/
theorem writer_roundtrip_failure :
    write_to_string
      (basic_document.mk [] [] [basic_document.mk [] [] []]) {} = [10] ∧
    (load 64 (write_to_string
      (basic_document.mk [] [] [basic_document.mk [] [] []]) {})).2 =
      basic_document.mk [] [] [] ∧
    ((load 64 (write_to_string
      (basic_document.mk [] [] [basic_document.mk [] [] []]) {})).2).children.length
      = 0 ∧
    (basic_document.mk ([] : List Nat) []
      [basic_document.mk [] [] []]).children.length = 1 :=
  ⟨rfl, rfl, rfl, rfl⟩

/-! ## CRLF expansion: positional lemmas -/

theorem crlf_variant_nil : crlf_variant [] = [] := rfl

theorem crlf_variant_cons (c : Nat) (S : List Nat) :
    crlf_variant (c :: S) =
      (if c = 10 then [13, 10] else [c]) ++ crlf_variant S := rfl

theorem crlf_variant_append (a b : List Nat) :
    crlf_variant (a ++ b) = crlf_variant a ++ crlf_variant b := by
  simp [crlf_variant]

theorem length_crlf_variant (S : List Nat) :
    (crlf_variant S).length = S.length + S.count 10 := by
  induction S with
  | nil => rfl
  | cons c S ih =>
    by_cases hc : c = 10 <;>
      simp [crlf_variant_cons, hc, ih, List.count_cons] <;> omega

theorem crlf_variant_of_no_nl (L : List Nat) (h : ∀ c ∈ L, c ≠ 10) :
    crlf_variant L = L := by
  induction L with
  | nil => rfl
  | cons c L ih =>
    rw [crlf_variant_cons, if_neg (h c (by simp)), List.singleton_append,
      ih fun x hx => h x (by simp [hx])]

theorem count_eq_zero_of_no_nl (L : List Nat) (h : ∀ c ∈ L, c ≠ 10) :
    L.count 10 = 0 := by
  rw [List.count_eq_zero]
  intro hmem
  exact h 10 hmem rfl

theorem crlf_pos_zero (S : List Nat) : crlf_pos S 0 = 0 := by
  simp [crlf_pos]

theorem crlf_pos_of_ge (S : List Nat) (p : Nat) (h : S.length ≤ p) :
    crlf_pos S p = p + S.count 10 := by
  simp [crlf_pos, List.take_of_length_le h]

theorem crlf_pos_length (S : List Nat) :
    crlf_pos S S.length = (crlf_variant S).length := by
  rw [crlf_pos_of_ge S S.length le_rfl, length_crlf_variant]

theorem take_length_crlf (S : List Nat) (p : Nat) (h : p ≤ S.length) :
    (crlf_variant (S.take p)).length = crlf_pos S p := by
  rw [length_crlf_variant, crlf_pos]
  simp [List.length_take, Nat.min_eq_left h]

theorem crlf_split (S : List Nat) (p : Nat) :
    crlf_variant S = crlf_variant (S.take p) ++ crlf_variant (S.drop p) := by
  rw [← crlf_variant_append, List.take_append_drop]

theorem crlf_take (S : List Nat) (p : Nat) (h : p ≤ S.length) :
    (crlf_variant S).take (crlf_pos S p) = crlf_variant (S.take p) := by
  rw [crlf_split S p, ← take_length_crlf S p h, List.take_left]

theorem crlf_drop (S : List Nat) (p : Nat) (h : p ≤ S.length) :
    (crlf_variant S).drop (crlf_pos S p) = crlf_variant (S.drop p) := by
  rw [crlf_split S p, ← take_length_crlf S p h, List.drop_left]

theorem getD_eq_drop_head (l : List Nat) (n : Nat) :
    l.getD n 0 = (l.drop n).getD 0 0 := by
  induction n generalizing l with
  | zero => simp
  | succ n ih =>
    cases l with
    | nil => simp
    | cons c l => simp [ih l]

theorem crlf_pos_succ (S : List Nat) (p : Nat) :
    crlf_pos S (p + 1) =
      crlf_pos S p + (if p < S.length ∧ S.getD p 0 = 10 then 2 else 1) := by
  by_cases hp : p < S.length
  · have hg : S.getD p 0 = S[p] := by
      rw [List.getD_eq_getElem?_getD, List.getElem?_eq_getElem hp]
      rfl
    rw [crlf_pos, crlf_pos, List.take_succ, List.getElem?_eq_getElem hp,
      Option.toList_some, List.count_append]
    by_cases hv : S[p] = 10
    · rw [if_pos ⟨hp, by rw [hg]; exact hv⟩, hv]
      have hone : List.count 10 [10] = 1 := by simp
      omega
    · rw [if_neg (by rw [hg]; tauto)]
      have hzero : List.count 10 [S[p]] = 0 := by
        rw [List.count_eq_zero]
        intro hmem
        exact hv (List.mem_singleton.mp hmem).symm
      omega
  · rw [if_neg (by tauto), crlf_pos_of_ge S p (by omega),
      crlf_pos_of_ge S (p + 1) (by omega)]
    omega

theorem crlf_pos_succ_le (S : List Nat) (p : Nat) :
    crlf_pos S p + 1 ≤ crlf_pos S (p + 1) := by
  rw [crlf_pos_succ]
  split <;> omega

theorem crlf_pos_mono (S : List Nat) {p q : Nat} (h : p ≤ q) :
    crlf_pos S p ≤ crlf_pos S q := by
  unfold crlf_pos
  have hpref : (S.take q).take p = S.take p := by
    rw [List.take_take, Nat.min_eq_left h]
  have hs : List.Sublist (S.take p) (S.take q) := by
    have h1 := (List.take_prefix p (S.take q)).sublist
    rwa [hpref] at h1
  have hc := hs.count_le 10
  omega

theorem crlf_pos_strict_mono (S : List Nat) {p q : Nat} (h : p < q) :
    crlf_pos S p < crlf_pos S q := by
  have h1 := crlf_pos_succ_le S p
  have h2 := crlf_pos_mono S (show p + 1 ≤ q from h)
  omega

theorem crlf_eof_iff (S : List Nat) (p : Nat) :
    (crlf_variant S).length ≤ crlf_pos S p ↔ S.length ≤ p := by
  constructor
  · intro h
    by_contra hlt
    have := crlf_pos_strict_mono S (lt_of_not_le hlt)
    rw [crlf_pos_length] at this
    omega
  · intro h
    rw [crlf_pos_of_ge S p h, length_crlf_variant]
    omega

theorem crlf_getD (S : List Nat) (p : Nat) :
    (crlf_variant S).getD (crlf_pos S p) 0 = crlf_char (S.getD p 0) := by
  by_cases hp : p < S.length
  · rw [getD_eq_drop_head, crlf_drop S p (le_of_lt hp),
      getD_eq_drop_head S p]
    rcases hd : S.drop p with _ | ⟨c, rest⟩
    · have : S.length - p = 0 := by
        have := congrArg List.length hd
        simpa using this
      omega
    · rw [crlf_variant_cons]
      by_cases hc : c = 10 <;> simp [hc, crlf_char]
  · have h1 : S.length ≤ p := by omega
    have h2 : (crlf_variant S).length ≤ crlf_pos S p := (crlf_eof_iff S p).mpr h1
    rw [List.getD_eq_getElem?_getD, List.getElem?_eq_none h2,
      List.getD_eq_getElem?_getD, List.getElem?_eq_none h1]
    rfl

theorem crlf_char_ne_10 (c : Nat) : crlf_char c ≠ 10 := by
  unfold crlf_char
  split <;> omega

theorem getD_succ_of_drop (l : List Nat) (n a b : Nat) (t : List Nat)
    (h : l.drop n = a :: b :: t) : l.getD (n + 1) 0 = b := by
  have h3 : (l.drop n).drop 1 = b :: t := by
    rw [h]
    rfl
  rw [List.drop_drop] at h3
  rw [getD_eq_drop_head, h3]
  rfl

theorem crlf_getD_pair (S : List Nat) (p : Nat) (hp : p < S.length)
    (h10 : S.getD p 0 = 10) :
    (crlf_variant S).getD (crlf_pos S p + 1) 0 = 10 := by
  have hd := crlf_drop S p (le_of_lt hp)
  rcases he : S.drop p with _ | ⟨c, rest⟩
  · have : S.length - p = 0 := by
      have := congrArg List.length he
      simpa using this
    omega
  · have hc : c = 10 := by
      rw [getD_eq_drop_head, he] at h10
      simpa using h10
    have hexp : (crlf_variant S).drop (crlf_pos S p) =
        13 :: 10 :: crlf_variant rest := by
      rw [hd, he, hc, crlf_variant_cons]
      rfl
    exact getD_succ_of_drop _ _ 13 10 _ hexp

theorem crlf_take_of_no_nl (S : List Nat) (a n : Nat) (ha : a + n ≤ S.length)
    (h : ∀ i, a ≤ i → i < a + n → S.getD i 0 ≠ 10) :
    ((crlf_variant S).drop (crlf_pos S a)).take n = (S.drop a).take n := by
  rw [crlf_drop S a (by omega)]
  have hnn : ∀ c ∈ (S.drop a).take n, c ≠ 10 := by
    intro c hc
    obtain ⟨i, hi, hv⟩ := List.getElem_of_mem hc
    have hlen : i < n := by
      have := List.length_take_le n (S.drop a)
      have h2 : i < (List.take n (S.drop a)).length := hi
      have h3 : (List.take n (S.drop a)).length ≤ n := List.length_take_le _ _
      omega
    have : c = S.getD (a + i) 0 := by
      rw [← hv, List.getElem_take, List.getElem_drop]
      rw [List.getD_eq_getElem?_getD, List.getElem?_eq_getElem (by omega)]
      rfl
    rw [this]
    exact h (a + i) (by omega) (by omega)
  conv_lhs => rw [← List.take_append_drop n (S.drop a), crlf_variant_append,
    crlf_variant_of_no_nl _ hnn]
  have hxlen : ((S.drop a).take n).length = n := by
    rw [List.length_take, List.length_drop]
    omega
  rw [List.take_append_eq_append_take, hxlen, Nat.sub_self, List.take_zero,
    List.append_nil, List.take_of_length_le (le_of_eq hxlen)]

/-! ## CRLF expansion: state-level simulation lemmas -/

theorem crlf_pos_add_of_no_nl (S : List Nat) (a k : Nat)
    (h : ∀ i, a ≤ i → i < a + k → S.getD i 0 ≠ 10) :
    crlf_pos S (a + k) = crlf_pos S a + k := by
  induction k with
  | zero => rfl
  | succ k ih =>
    have h1 : crlf_pos S (a + k) = crlf_pos S a + k :=
      ih (fun i h1 h2 => h i h1 (by omega))
    have h2 := crlf_pos_succ S (a + k)
    rw [if_neg (fun hx => h (a + k) (by omega) (by omega) hx.2)] at h2
    have h3 : a + (k + 1) = (a + k) + 1 := rfl
    rw [h3]
    omega

theorem crlf_take_of_no_nl' (S : List Nat) (a n : Nat)
    (h : ∀ i, a ≤ i → i < a + n → S.getD i 0 ≠ 10) :
    ((crlf_variant S).drop (crlf_pos S a)).take n = (S.drop a).take n := by
  by_cases ha : a + n ≤ S.length
  · exact crlf_take_of_no_nl S a n ha h
  · by_cases ha2 : a ≤ S.length
    · have hnn : ∀ c ∈ S.drop a, c ≠ 10 := by
        intro c hc
        obtain ⟨i, hi, hv⟩ := List.getElem_of_mem hc
        have hlen : i < S.length - a := by
          have := List.length_drop a S
          omega
        have hcv : c = S.getD (a + i) 0 := by
          rw [← hv, List.getElem_drop]
          rw [List.getD_eq_getElem?_getD, List.getElem?_eq_getElem (by omega)]
          rfl
        rw [hcv]
        exact h (a + i) (by omega) (by omega)
      rw [crlf_drop S a ha2, crlf_variant_of_no_nl _ hnn]
    · have h1 : S.length ≤ a := by omega
      have h2 : (crlf_variant S).length ≤ crlf_pos S a := (crlf_eof_iff S a).mpr h1
      rw [List.drop_of_length_le h1, List.drop_of_length_le h2]

theorem line_column_foldl_crlf (L : List Nat) (lc : Nat × Nat) :
    (crlf_variant L).foldl
      (fun lc c => if c = 10 then (lc.1 + 1, 1) else (lc.1, lc.2 + 1)) lc =
    L.foldl
      (fun lc c => if c = 10 then (lc.1 + 1, 1) else (lc.1, lc.2 + 1)) lc := by
  induction L generalizing lc with
  | nil => rfl
  | cons c L ih =>
    by_cases hc : c = 10
    · subst hc
      have h1 : crlf_variant (10 :: L) = 13 :: 10 :: crlf_variant L := by
        rw [crlf_variant_cons]
        rfl
      rw [h1]
      simp only [List.foldl_cons]
      rw [ih]
      norm_num
    · have h1 : crlf_variant (c :: L) = c :: crlf_variant L := by
        rw [crlf_variant_cons, if_neg hc]
        rfl
      rw [h1]
      simp only [List.foldl_cons]
      rw [ih]

theorem line_column_crlf (S : List Nat) (p : Nat) :
    line_column_from_buffer_position (crlf_variant S) (crlf_pos S p) =
      line_column_from_buffer_position S p := by
  unfold line_column_from_buffer_position
  have ht : (crlf_variant S).take (crlf_pos S p) = crlf_variant (S.take p) := by
    by_cases hp : p ≤ S.length
    · exact crlf_take S p hp
    · rw [List.take_of_length_le (by rw [← crlf_pos_length]; exact crlf_pos_mono S (by omega)),
        List.take_of_length_le (by omega)]
  rw [ht, line_column_foldl_crlf]

theorem crlf_source (S : List Nat) (σ : parser_state) :
    (crlf_state S σ).source = crlf_variant S := rfl

theorem crlf_bp (S : List Nat) (σ : parser_state) :
    (crlf_state S σ).buffer_position = crlf_pos S σ.buffer_position := rfl

theorem crlf_cc (S : List Nat) (σ : parser_state) :
    (crlf_state S σ).current_character = crlf_char σ.current_character := rfl

theorem crlf_rl (S : List Nat) (σ : parser_state) :
    (crlf_state S σ).recursion_limit = σ.recursion_limit := rfl

theorem crlf_el (S : List Nat) (σ : parser_state) :
    (crlf_state S σ).error_limit = σ.error_limit := rfl

theorem crlf_errs (S : List Nat) (σ : parser_state) :
    (crlf_state S σ).errors =
      σ.errors.map (fun e => (e.1, crlf_char e.2.1, e.2.2)) := rfl

attribute [ext] parser_state

theorem no_cr_getD (S : List Nat) (hcr : no_cr S) (i : Nat) :
    S.getD i 0 ≠ 13 := by
  by_cases h : i < S.length
  · rw [List.getD_eq_getElem?_getD, List.getElem?_eq_getElem h]
    exact hcr _ (List.getElem_mem h)
  · rw [List.getD_eq_getElem?_getD, List.getElem?_eq_none (by omega)]
    simp

theorem eof_at_crlf (S : List Nat) (σ : parser_state) (hS : σ.source = S) :
    eof_at (crlf_state S σ) = eof_at σ := by
  unfold eof_at
  rw [hS, crlf_source, crlf_bp]
  exact decide_eq_decide.mpr (crlf_eof_iff S σ.buffer_position)

theorem spec_current_crlf (S : List Nat) (σ : parser_state) (hS : σ.source = S) :
    spec_current (crlf_state S σ) = crlf_char (spec_current σ) := by
  unfold spec_current
  rw [hS, crlf_source, crlf_bp]
  exact crlf_getD S σ.buffer_position

theorem update_nocheck_crlf (S : List Nat) (σ : parser_state) (hS : σ.source = S) :
    update_current_character_nocheck (crlf_state S σ) =
      crlf_state S (update_current_character_nocheck σ) := by
  apply parser_state.ext
  all_goals
    simp only [update_current_character_nocheck, crlf_source, crlf_bp, crlf_cc,
      crlf_rl, crlf_el, crlf_errs]
  exact spec_current_crlf S σ hS

theorem update_crlf (S : List Nat) (σ : parser_state) (hS : σ.source = S) :
    update_current_character (crlf_state S σ) =
      crlf_state S (update_current_character σ) := by
  apply parser_state.ext
  all_goals
    simp only [update_current_character, crlf_source, crlf_bp, crlf_cc,
      crlf_rl, crlf_el, crlf_errs]
  rw [eof_at_crlf S σ hS, spec_current_crlf S σ hS]
  cases he : eof_at σ
  · simp
  · simp [crlf_char]

theorem report_error_crlf (S : List Nat) (σ : parser_state) (hS : σ.source = S)
    (t : parser_error) (ch p : Nat) :
    report_error (crlf_state S σ) t (crlf_char ch) (crlf_pos S p) =
      crlf_state S (report_error σ t ch p) := by
  have hlc : line_column_from_buffer_position (crlf_variant S) (crlf_pos S p) =
      line_column_from_buffer_position σ.source p := by
    rw [hS]
    exact line_column_crlf S p
  unfold report_error
  rw [crlf_el]
  by_cases h0 : σ.error_limit = 0
  · rw [if_pos h0, if_pos h0]
  · rw [if_neg h0, if_neg h0]
    apply parser_state.ext
    all_goals
      simp only [crlf_source, crlf_bp, crlf_cc, crlf_rl, crlf_el, crlf_errs]
    rw [List.map_append, hlc]
    simp

theorem sim_src_nocheck (S : List Nat) (σ : parser_state) (hcr : no_cr S)
    (hS : σ.source = S) : sim_src S (update_current_character_nocheck σ) := by
  refine ⟨hS, ?_, ?_⟩
  · show spec_current σ ≠ 13
    unfold spec_current
    rw [hS]
    exact no_cr_getD S hcr _
  · intro h1 h2
    show spec_current σ = 10
    unfold spec_current
    rw [hS]
    exact h2

theorem sim_src_update (S : List Nat) (σ : parser_state) (hcr : no_cr S)
    (hS : σ.source = S) : sim_src S (update_current_character σ) := by
  refine ⟨hS, ?_, ?_⟩
  · show (if eof_at σ then 0 else spec_current σ) ≠ 13
    split
    · omega
    · unfold spec_current
      rw [hS]
      exact no_cr_getD S hcr _
  · intro h1 h2
    have h1' : σ.buffer_position < S.length := h1
    have h2' : S.getD σ.buffer_position 0 = 10 := h2
    show (if eof_at σ then 0 else spec_current σ) = 10
    have hne : eof_at σ = false := by
      unfold eof_at
      rw [hS]
      simp only [decide_eq_false_iff_not]
      omega
    rw [hne]
    simp only [Bool.false_eq_true, if_false]
    unfold spec_current
    rw [hS]
    exact h2'

theorem sim_src_report (S : List Nat) (σ : parser_state) (t : parser_error)
    (ch p : Nat) (hσ : sim_src S σ) : sim_src S (report_error σ t ch p) := by
  obtain ⟨hS, h13, hok⟩ := hσ
  unfold report_error
  split
  · exact ⟨hS, h13, hok⟩
  · exact ⟨hS, h13, hok⟩

theorem next_eof_at_crlf (S : List Nat) (σ : parser_state) (hσ : sim_src S σ)
    (h10 : σ.current_character ≠ 10) :
    next_eof_at (crlf_state S σ) = next_eof_at σ := by
  obtain ⟨hS, h13, hok⟩ := hσ
  have hLF : ¬ (σ.buffer_position < S.length ∧
      S.getD σ.buffer_position 0 = 10) := fun h => h10 (hok h.1 h.2)
  have hstep : crlf_pos S (σ.buffer_position + 1) =
      crlf_pos S σ.buffer_position + 1 := by
    have h1 := crlf_pos_succ S σ.buffer_position
    rw [if_neg hLF] at h1
    omega
  unfold next_eof_at
  rw [hS, crlf_source, crlf_bp, ← hstep]
  exact decide_eq_decide.mpr (crlf_eof_iff S (σ.buffer_position + 1))

theorem peek_crlf (S : List Nat) (σ : parser_state) (hσ : sim_src S σ)
    (h10 : σ.current_character ≠ 10) :
    peek_next_character (crlf_state S σ) = crlf_char (peek_next_character σ) := by
  have hne := next_eof_at_crlf S σ hσ h10
  obtain ⟨hS, h13, hok⟩ := hσ
  have hLF : ¬ (σ.buffer_position < S.length ∧
      S.getD σ.buffer_position 0 = 10) := fun h => h10 (hok h.1 h.2)
  have hstep : crlf_pos S (σ.buffer_position + 1) =
      crlf_pos S σ.buffer_position + 1 := by
    have h1 := crlf_pos_succ S σ.buffer_position
    rw [if_neg hLF] at h1
    omega
  unfold peek_next_character
  rw [hne]
  cases he : next_eof_at σ
  · simp only [Bool.false_eq_true, if_false]
    rw [hS, crlf_source, crlf_bp, ← hstep]
    exact crlf_getD S (σ.buffer_position + 1)
  · simp only [if_true]
    rfl

theorem next_character_crlf (S : List Nat) (σ : parser_state)
    (hσ : sim_src S σ) :
    next_character (crlf_state S σ) = crlf_state S (next_character σ) := by
  obtain ⟨hS, h13, hok⟩ := hσ
  have hplain : next_character σ = spec_next σ := by
    unfold next_character
    rw [if_neg (fun h => h13 h.1)]
  rw [hplain]
  by_cases hLF : σ.buffer_position < S.length ∧ S.getD σ.buffer_position 0 = 10
  · have hcur : σ.current_character = 10 := hok hLF.1 hLF.2
    have hcc' : (crlf_state S σ).current_character = 13 := by
      rw [crlf_cc, hcur]
      rfl
    have hsucc : crlf_pos S (σ.buffer_position + 1) =
        crlf_pos S σ.buffer_position + 2 := by
      have h1 := crlf_pos_succ S σ.buffer_position
      rw [if_pos hLF] at h1
      omega
    have hinr : ¬ (crlf_variant S).length ≤ crlf_pos S σ.buffer_position + 1 := by
      have h2 : crlf_pos S (σ.buffer_position + 1) ≤ (crlf_variant S).length := by
        rw [← crlf_pos_length]
        exact crlf_pos_mono S (by omega)
      omega
    have hpeek : peek_next_character (crlf_state S σ) = 10 := by
      unfold peek_next_character
      have hnef : next_eof_at (crlf_state S σ) = false := by
        unfold next_eof_at
        rw [crlf_source, crlf_bp]
        simp only [decide_eq_false_iff_not]
        exact hinr
      rw [hnef]
      simp only [Bool.false_eq_true, if_false]
      rw [crlf_source, crlf_bp]
      exact crlf_getD_pair S σ.buffer_position hLF.1 hLF.2
    unfold next_character
    rw [if_pos ⟨hcc', hpeek⟩]
    apply parser_state.ext
    all_goals
      simp only [spec_next, crlf_source, crlf_bp, crlf_cc, crlf_rl, crlf_el,
        crlf_errs]
    omega
  · have hstep : crlf_pos S (σ.buffer_position + 1) =
        crlf_pos S σ.buffer_position + 1 := by
      have h1 := crlf_pos_succ S σ.buffer_position
      rw [if_neg hLF] at h1
      omega
    have hcond : ¬ ((crlf_state S σ).current_character = 13 ∧
        peek_next_character (crlf_state S σ) = 10) := by
      rintro ⟨hc, hp⟩
      unfold peek_next_character at hp
      cases he : next_eof_at (crlf_state S σ)
      · rw [he] at hp
        simp only [Bool.false_eq_true, if_false] at hp
        rw [crlf_source, crlf_bp, ← hstep, crlf_getD S (σ.buffer_position + 1)] at hp
        exact crlf_char_ne_10 _ hp
      · rw [he] at hp
        simp only [if_true] at hp
        omega
    unfold next_character
    rw [if_neg hcond]
    apply parser_state.ext
    all_goals
      simp only [spec_next, crlf_source, crlf_bp, crlf_cc, crlf_rl, crlf_el,
        crlf_errs]
    omega

theorem next_character_fields (σ : parser_state) (h13 : σ.current_character ≠ 13) :
    (next_character σ).source = σ.source ∧
    (next_character σ).buffer_position = σ.buffer_position + 1 ∧
    (next_character σ).current_character = σ.current_character ∧
    (next_character σ).recursion_limit = σ.recursion_limit ∧
    (next_character σ).error_limit = σ.error_limit ∧
    (next_character σ).errors = σ.errors := by
  unfold next_character
  rw [if_neg (fun h => h13 h.1)]
  exact ⟨rfl, rfl, rfl, rfl, rfl, rfl⟩

theorem w_crlf_char (w : Nat → Bool) (hw : w 13 = w 10) (c : Nat)
    (_h13 : c ≠ 13) : w (crlf_char c) = w c := by
  unfold crlf_char
  split
  · rename_i hc
    rw [hc]
    exact hw
  · rfl

theorem crlf_char_eq_iff (c k : Nat) (hk10 : k ≠ 10) (hk13 : k ≠ 13)
    (h13 : c ≠ 13) : crlf_char c = k ↔ c = k := by
  unfold crlf_char
  split
  · rename_i hc
    constructor
    · intro h
      omega
    · intro h
      omega
  · exact Iff.rfl

theorem eof_at_len (σ : parser_state) (h : eof_at σ = true) :
    σ.source.length ≤ σ.buffer_position := of_decide_eq_true h

theorem eof_at_false_lt (σ : parser_state) (h : eof_at σ = false) :
    σ.buffer_position < σ.source.length := by
  unfold eof_at at h
  simp only [decide_eq_false_iff_not] at h
  omega

theorem skip_sim_general (S : List Nat) (hcr : no_cr S)
    (J : parser_state → Prop) (q q' : parser_state → Bool)
    (hq : ∀ τ, sim_src S τ → J τ → q' (crlf_state S τ) = q τ)
    (hJ1 : ∀ τ, sim_src S τ → J τ → q τ = true → J (next_character τ))
    (hJ2 : ∀ τ, J τ → J (update_current_character_nocheck τ)) :
    ∀ (fuel : Nat) (σ : parser_state), sim_src S σ → J σ →
      skip fuel q' (crlf_state S σ) =
        (crlf_state S (skip fuel q σ).1, (skip fuel q σ).2) ∧
      sim_src S (skip fuel q σ).1 ∧ J (skip fuel q σ).1 := by
  intro fuel
  induction fuel with
  | zero =>
    intro σ hσ hJ
    refine ⟨?_, hσ, hJ⟩
    show (crlf_state S σ, if eof_at (crlf_state S σ) then parsing_position.eof
      else parsing_position.valid) = _
    rw [eof_at_crlf S σ hσ.1]
    rfl
  | succ fuel ih =>
    intro σ hσ hJ
    have hqq : q' (crlf_state S σ) = q σ := hq σ hσ hJ
    have hS := hσ.1
    have h13 := hσ.2.1
    cases hcase : q σ with
    | false =>
      have hplain : skip (fuel + 1) q σ =
          (σ, if eof_at σ then parsing_position.eof else parsing_position.valid) := by
        simp [skip, hcase]
      have hprimed : skip (fuel + 1) q' (crlf_state S σ) =
          (crlf_state S σ, if eof_at (crlf_state S σ) then parsing_position.eof
            else parsing_position.valid) := by
        simp [skip, hqq, hcase]
      rw [hplain, hprimed, eof_at_crlf S σ hS]
      exact ⟨rfl, hσ, hJ⟩
    | true =>
      have hJn : J (next_character σ) := hJ1 σ hσ hJ hcase
      have hnc := next_character_crlf S σ hσ
      have hf := next_character_fields σ h13
      have hSn : (next_character σ).source = S := by
        rw [hf.1]
        exact hS
      cases heof : eof_at (next_character σ) with
      | true =>
        have heof' : eof_at (next_character (crlf_state S σ)) = true := by
          rw [hnc, eof_at_crlf S (next_character σ) hSn]
          exact heof
        have hplain : skip (fuel + 1) q σ =
            (next_character σ, parsing_position.eof) := by
          simp [skip, hcase, heof]
        have hprimed : skip (fuel + 1) q' (crlf_state S σ) =
            (next_character (crlf_state S σ), parsing_position.eof) := by
          simp [skip, hqq, hcase, heof']
        rw [hplain, hprimed, hnc]
        refine ⟨rfl, ⟨hSn, by rw [hf.2.2.1]; exact h13, ?_⟩, hJn⟩
        intro hlt h10
        exfalso
        have hlt' : (next_character σ).buffer_position < S.length := hlt
        have hlen := eof_at_len _ heof
        rw [hSn] at hlen
        omega
      | false =>
        have heof' : eof_at (next_character (crlf_state S σ)) = false := by
          rw [hnc, eof_at_crlf S (next_character σ) hSn]
          exact heof
        have hplain : skip (fuel + 1) q σ =
            skip fuel q (update_current_character_nocheck (next_character σ)) := by
          simp [skip, hcase, heof]
        have hprimed : skip (fuel + 1) q' (crlf_state S σ) =
            skip fuel q' (update_current_character_nocheck
              (next_character (crlf_state S σ))) := by
          simp [skip, hqq, hcase, heof']
        rw [hplain, hprimed, hnc,
          update_nocheck_crlf S (next_character σ) hSn]
        exact ih (update_current_character_nocheck (next_character σ))
          (sim_src_nocheck S _ hcr hSn) (hJ2 _ hJn)

theorem skip_curpred_sim (S : List Nat) (hcr : no_cr S) (w : Nat → Bool)
    (hw : w 13 = w 10) (fuel : Nat) (σ : parser_state) (hσ : sim_src S σ) :
    skip fuel (fun s => w s.current_character) (crlf_state S σ) =
      (crlf_state S (skip fuel (fun s => w s.current_character) σ).1,
        (skip fuel (fun s => w s.current_character) σ).2) ∧
    sim_src S (skip fuel (fun s => w s.current_character) σ).1 := by
  have h := skip_sim_general S hcr (fun _ => True)
    (fun s => w s.current_character) (fun s => w s.current_character)
    (fun τ hτ _ => by
      show w (crlf_state S τ).current_character = w τ.current_character
      rw [crlf_cc]
      exact w_crlf_char w hw τ.current_character hτ.2.1)
    (fun _ _ _ _ => trivial) (fun _ _ => trivial) fuel σ hσ trivial
  exact ⟨h.1, h.2.1⟩

theorem skip_read_sim (S : List Nat) (hcr : no_cr S) (w : Nat → Bool)
    (hw : w 13 = w 10) (hw10 : w 10 = false) (fuel : Nat) (σ : parser_state)
    (hσ : sim_src S σ) :
    skip fuel (fun s => w s.current_character) (crlf_state S σ) =
      (crlf_state S (skip fuel (fun s => w s.current_character) σ).1,
        (skip fuel (fun s => w s.current_character) σ).2) ∧
    sim_src S (skip fuel (fun s => w s.current_character) σ).1 ∧
    σ.buffer_position ≤
      (skip fuel (fun s => w s.current_character) σ).1.buffer_position ∧
    (∀ i, σ.buffer_position ≤ i →
      i < (skip fuel (fun s => w s.current_character) σ).1.buffer_position →
      S.getD i 0 ≠ 10) := by
  have h := skip_sim_general S hcr
    (fun τ => σ.buffer_position ≤ τ.buffer_position ∧
      ∀ i, σ.buffer_position ≤ i → i < τ.buffer_position → S.getD i 0 ≠ 10)
    (fun s => w s.current_character) (fun s => w s.current_character)
    (fun τ hτ _ => by
      show w (crlf_state S τ).current_character = w τ.current_character
      rw [crlf_cc]
      exact w_crlf_char w hw τ.current_character hτ.2.1)
    (fun τ hτ hJτ hqt => by
      have hbp := (next_character_fields τ hτ.2.1).2.1
      refine ⟨by omega, ?_⟩
      intro i h1 h2
      rw [hbp] at h2
      by_cases hi : i < τ.buffer_position
      · exact hJτ.2 i h1 hi
      · have hieq : i = τ.buffer_position := by omega
        subst hieq
        intro hcontra
        by_cases hlen : τ.buffer_position < S.length
        · have hc10 := hτ.2.2 hlen hcontra
          have hqt' : w τ.current_character = true := hqt
          rw [hc10, hw10] at hqt'
          exact Bool.false_ne_true hqt'
        · rw [List.getD_eq_getElem?_getD, List.getElem?_eq_none (by omega)]
            at hcontra
          simp at hcontra)
    (fun τ hJτ => hJτ) fuel σ hσ
    ⟨le_refl _, fun i h1 h2 => absurd h1 (by omega)⟩
  exact ⟨h.1, h.2.1, h.2.2⟩

theorem read_sim (S : List Nat) (hcr : no_cr S) (w : Nat → Bool)
    (hw : w 13 = w 10) (hw10 : w 10 = false) (fuel : Nat) (σ : parser_state)
    (hσ : sim_src S σ) :
    read fuel (fun s => w s.current_character) (crlf_state S σ) =
      (crlf_state S (read fuel (fun s => w s.current_character) σ).1,
        (read fuel (fun s => w s.current_character) σ).2) ∧
    sim_src S (read fuel (fun s => w s.current_character) σ).1 ∧
    σ.buffer_position ≤
      (read fuel (fun s => w s.current_character) σ).1.buffer_position ∧
    (∀ i, σ.buffer_position ≤ i →
      i < (read fuel (fun s => w s.current_character) σ).1.buffer_position →
      S.getD i 0 ≠ 10) := by
  obtain ⟨hc, hs, hm, hr⟩ := skip_read_sim S hcr w hw hw10 fuel σ hσ
  have haff := crlf_pos_add_of_no_nl S σ.buffer_position
    ((skip fuel (fun s => w s.current_character) σ).1.buffer_position -
      σ.buffer_position)
    (fun i h1 h2 => hr i h1 (by omega))
  have h2 : σ.buffer_position +
      ((skip fuel (fun s => w s.current_character) σ).1.buffer_position -
        σ.buffer_position) =
      (skip fuel (fun s => w s.current_character) σ).1.buffer_position := by
    omega
  rw [h2] at haff
  have key : crlf_pos S
      (skip fuel (fun s => w s.current_character) σ).1.buffer_position -
      crlf_pos S σ.buffer_position =
      (skip fuel (fun s => w s.current_character) σ).1.buffer_position -
      σ.buffer_position := by
    omega
  unfold read
  dsimp only
  rw [hc]
  dsimp only
  rw [crlf_bp, crlf_bp, key]
  exact ⟨rfl, hs, hm, hr⟩

theorem skip_indent_sim (S : List Nat) (hcr : no_cr S) (ccs d : Nat)
    (fuel : Nat) (σ : parser_state) (hσ : sim_src S σ)
    (hle : ccs ≤ σ.buffer_position)
    (hreg : ∀ i, ccs ≤ i → i < σ.buffer_position → S.getD i 0 ≠ 10) :
    skip fuel
        (fun st => decide (st.buffer_position < crlf_pos S ccs + d) &&
          is_whitespace st.current_character) (crlf_state S σ) =
      (crlf_state S (skip fuel
          (fun st => decide (st.buffer_position < ccs + d) &&
            is_whitespace st.current_character) σ).1,
        (skip fuel
          (fun st => decide (st.buffer_position < ccs + d) &&
            is_whitespace st.current_character) σ).2) ∧
    sim_src S (skip fuel
        (fun st => decide (st.buffer_position < ccs + d) &&
          is_whitespace st.current_character) σ).1 ∧
    ccs ≤ (skip fuel
        (fun st => decide (st.buffer_position < ccs + d) &&
          is_whitespace st.current_character) σ).1.buffer_position ∧
    (∀ i, ccs ≤ i →
      i < (skip fuel
        (fun st => decide (st.buffer_position < ccs + d) &&
          is_whitespace st.current_character) σ).1.buffer_position →
      S.getD i 0 ≠ 10) := by
  have h := skip_sim_general S hcr
    (fun τ => ccs ≤ τ.buffer_position ∧
      ∀ i, ccs ≤ i → i < τ.buffer_position → S.getD i 0 ≠ 10)
    (fun st => decide (st.buffer_position < ccs + d) &&
      is_whitespace st.current_character)
    (fun st => decide (st.buffer_position < crlf_pos S ccs + d) &&
      is_whitespace st.current_character)
    (fun τ hτ hJτ => by
      show (decide ((crlf_state S τ).buffer_position < crlf_pos S ccs + d) &&
        is_whitespace (crlf_state S τ).current_character) = _
      rw [crlf_bp, crlf_cc,
        w_crlf_char is_whitespace rfl τ.current_character hτ.2.1]
      have haff := crlf_pos_add_of_no_nl S ccs (τ.buffer_position - ccs)
        (fun i h1 h2 => hJτ.2 i h1 (by omega))
      have h2 : ccs + (τ.buffer_position - ccs) = τ.buffer_position := by
        omega
      rw [h2] at haff
      congr 1
      exact decide_eq_decide.mpr (by omega))
    (fun τ hτ hJτ hqt => by
      have hbp := (next_character_fields τ hτ.2.1).2.1
      refine ⟨by omega, ?_⟩
      intro i h1 h2
      rw [hbp] at h2
      by_cases hi : i < τ.buffer_position
      · exact hJτ.2 i h1 hi
      · have hieq : i = τ.buffer_position := by omega
        subst hieq
        intro hcontra
        have hws : is_whitespace τ.current_character = true := by
          have hqt' : (decide (τ.buffer_position < ccs + d) &&
              is_whitespace τ.current_character) = true := hqt
          simp only [Bool.and_eq_true] at hqt'
          exact hqt'.2
        by_cases hlen : τ.buffer_position < S.length
        · have hc10 := hτ.2.2 hlen hcontra
          rw [hc10] at hws
          exact Bool.false_ne_true hws
        · rw [List.getD_eq_getElem?_getD, List.getElem?_eq_none (by omega)]
            at hcontra
          simp at hcontra)
    (fun τ hJτ => hJτ) fuel σ hσ ⟨hle, hreg⟩
  exact ⟨h.1, h.2.1, h.2.2⟩

theorem whitespace_eta :
    whitespace = fun s => is_whitespace s.current_character := rfl

theorem whitespace_and_newlines_eta :
    whitespace_and_newlines =
      fun s => is_whitespace s.current_character ||
        is_newline s.current_character := rfl

theorem identifier_eta :
    identifier = fun s => is_identifier s.current_character := rfl

theorem until_newline_eta :
    until_newline = fun s => !is_newline s.current_character := rfl

theorem string_text_eta :
    string_text = fun s =>
      !(s.current_character == 34 || is_newline s.current_character ||
        s.current_character == 92) := rfl

theorem block_text_eta :
    block_text = fun s =>
      !is_newline s.current_character && !(s.current_character == 92) := rfl

theorem append_string_owned (s : parser_state) (data : List Nat) (n : Nat) :
    append_buffer_string owned_spec s data n =
      (s, data ++ ((s.source.drop (s.buffer_position - n)).take n)) := rfl

theorem append_char_owned (s : parser_state) (data : List Nat) (ch : Nat) :
    append_buffer_character owned_spec s data ch = (s, data ++ [ch]) := rfl

theorem make_data_owned (buf : List Nat) (pos : Nat) :
    owned_spec.make_data buf pos = [] := rfl

theorem base64_convert_owned (s : parser_state) (data : List Nat) :
    base64_convert owned_spec s data =
      (s, owned_spec.resize_string (convert_from_base64 data).1
        (convert_from_base64 data).2) := rfl

theorem report_error_crlf0 (S : List Nat) (σ : parser_state) (hS : σ.source = S)
    (t : parser_error) (p : Nat) :
    report_error (crlf_state S σ) t 0 (crlf_pos S p) =
      crlf_state S (report_error σ t 0 p) :=
  report_error_crlf S σ hS t 0 p

theorem escape_map_crlf_char (c : Nat) :
    escape_map (crlf_char c) = escape_map c := by
  unfold crlf_char
  split
  · rename_i h
    rw [h]
    rfl
  · rfl

theorem append_slice_crlf (S : List Nat) (τ : parser_state) (hS : τ.source = S)
    (n : Nat) (hn : n ≤ τ.buffer_position)
    (hreg : ∀ i, τ.buffer_position - n ≤ i → i < τ.buffer_position →
      S.getD i 0 ≠ 10) :
    (((crlf_state S τ).source.drop
        ((crlf_state S τ).buffer_position - n)).take n) =
      ((τ.source.drop (τ.buffer_position - n)).take n) := by
  rw [crlf_source, crlf_bp, hS]
  have haff := crlf_pos_add_of_no_nl S (τ.buffer_position - n) n
    (fun i h1 h2 => hreg i h1 (by omega))
  have h2 : τ.buffer_position - n + n = τ.buffer_position := by omega
  rw [h2] at haff
  have h3 : crlf_pos S τ.buffer_position - n =
      crlf_pos S (τ.buffer_position - n) := by omega
  rw [h3]
  exact crlf_take_of_no_nl' S (τ.buffer_position - n) n
    (fun i h1 h2 => hreg i h1 (by omega))

theorem skip_comment_loop_t (fuel p0 : Nat) (t : comment_type)
    (σ : parser_state) (ht : t ≠ comment_type.not_a_comment) :
    (skip_comment_loop fuel p0 t σ).2 ≠ comment_type.not_a_comment := by
  induction fuel generalizing t σ with
  | zero => exact ht
  | succ fuel ih =>
    rw [skip_comment_loop]
    by_cases heof : eof_at σ = true
    · rw [if_pos heof]
      exact ht
    · rw [if_neg heof]
      dsimp only
      split
      · exact ht
      · split
        · exact ih _ _ (by simp)
        · exact ih _ _ ht

theorem skip_comment_loop_sim (S : List Nat) (hcr : no_cr S) :
    ∀ (fuel p0 : Nat) (t : comment_type) (σ : parser_state), σ.source = S →
      σ.current_character ≠ 13 →
      skip_comment_loop fuel (crlf_pos S p0) t (crlf_state S σ) =
        (crlf_state S (skip_comment_loop fuel p0 t σ).1,
          (skip_comment_loop fuel p0 t σ).2) ∧
      (skip_comment_loop_ok fuel σ = true →
        sim_src S (skip_comment_loop fuel p0 t σ).1) := by
  intro fuel
  induction fuel with
  | zero =>
    intro p0 t σ hS h13
    refine ⟨rfl, ?_⟩
    intro hok
    exact absurd hok (by simp [skip_comment_loop_ok])
  | succ fuel ih =>
    intro p0 t σ hS h13
    by_cases heof : eof_at σ = true
    · have heof' : eof_at (crlf_state S σ) = true := by
        rw [eof_at_crlf S σ hS]
        exact heof
      have hplain : skip_comment_loop (fuel + 1) p0 t σ =
          (report_error σ .comment_not_closed 0 p0, t) := by
        simp [skip_comment_loop, heof]
      have hprimed : skip_comment_loop (fuel + 1) (crlf_pos S p0) t
          (crlf_state S σ) =
          (report_error (crlf_state S σ) .comment_not_closed 0
            (crlf_pos S p0), t) := by
        simp [skip_comment_loop, heof']
      rw [hplain, hprimed, report_error_crlf0 S σ hS]
      refine ⟨rfl, ?_⟩
      intro _
      apply sim_src_report
      refine ⟨hS, h13, ?_⟩
      intro hlt h10
      exfalso
      have hlen := eof_at_len _ heof
      rw [hS] at hlen
      omega
    · have heof' : eof_at (crlf_state S σ) = false := by
        rw [eof_at_crlf S σ hS]
        simpa using heof
      have hnk := update_nocheck_crlf S σ hS
      have hsim1 : sim_src S (update_current_character_nocheck σ) :=
        sim_src_nocheck S σ hcr hS
      by_cases hmatch : (update_current_character_nocheck σ).current_character
          = 42 ∧
          peek_next_character (update_current_character_nocheck σ) = 47
      · have hc42 : (crlf_state S
            (update_current_character_nocheck σ)).current_character = 42 := by
          rw [crlf_cc,
            crlf_char_eq_iff _ 42 (by omega) (by omega) hsim1.2.1]
          exact hmatch.1
        have hp47 : peek_next_character (crlf_state S
            (update_current_character_nocheck σ)) = 47 := by
          rw [peek_crlf S _ hsim1 (by rw [hmatch.1]; omega), hmatch.2]
          rfl
        have hplain : skip_comment_loop (fuel + 1) p0 t σ =
            (update_current_character (next_character (next_character
              (update_current_character_nocheck σ))), t) := by
          rw [skip_comment_loop, if_neg heof]
          dsimp only
          rw [if_pos hmatch]
        have hprimed : skip_comment_loop (fuel + 1) (crlf_pos S p0) t
            (crlf_state S σ) =
            (update_current_character (next_character (next_character
              (crlf_state S (update_current_character_nocheck σ)))), t) := by
          rw [skip_comment_loop, if_neg (by rw [heof']; simp)]
          dsimp only
          rw [hnk, if_pos ⟨hc42, hp47⟩]
        have hbyte47 : S.getD
            ((update_current_character_nocheck σ).buffer_position + 1) 0 = 47 ∨
            S.length ≤ (update_current_character_nocheck σ).buffer_position
              + 1 := by
          have hpk := hmatch.2
          unfold peek_next_character at hpk
          cases hne : next_eof_at (update_current_character_nocheck σ)
          · rw [hne] at hpk
            simp only [Bool.false_eq_true, if_false] at hpk
            rw [hsim1.1] at hpk
            exact Or.inl hpk
          · rw [hne] at hpk
            simp only [if_true] at hpk
            omega
        have hsim2 : sim_src S
            (next_character (update_current_character_nocheck σ)) := by
          have hf := next_character_fields _ hsim1.2.1
          refine ⟨by rw [hf.1]; exact hsim1.1, by rw [hf.2.2.1]; exact hsim1.2.1, ?_⟩
          intro hlt h10
          exfalso
          have hbp := hf.2.1
          rw [hbp] at hlt h10
          rcases hbyte47 with h | h
          · omega
          · omega
        have hcomm : next_character (crlf_state S
            (update_current_character_nocheck σ)) =
            crlf_state S (next_character (update_current_character_nocheck σ)) :=
          next_character_crlf S _ hsim1
        have hcomm2 := next_character_crlf S _ hsim2
        have hSn2 : (next_character (next_character
            (update_current_character_nocheck σ))).source = S := by
          rw [(next_character_fields _ hsim2.2.1).1]
          exact hsim2.1
        rw [hplain, hprimed, hcomm, hcomm2, update_crlf S _ hSn2]
        refine ⟨rfl, fun _ => sim_src_update S _ hcr hSn2⟩
      · have ht' : ∀ τ : parser_state,
            (if is_newline τ.current_character then
              comment_type.passed_to_next_line else t) =
            (if is_newline τ.current_character = true then
              comment_type.passed_to_next_line else t) := fun τ => rfl
        have hmatch' : ¬ ((crlf_state S
            (update_current_character_nocheck σ)).current_character = 42 ∧
            peek_next_character (crlf_state S
              (update_current_character_nocheck σ)) = 47) := by
          intro hcon
          apply hmatch
          constructor
          · rw [crlf_cc,
              crlf_char_eq_iff _ 42 (by omega) (by omega) hsim1.2.1] at hcon
            exact hcon.1
          · have h42 : (update_current_character_nocheck σ).current_character
                = 42 := by
              have := hcon.1
              rw [crlf_cc,
                crlf_char_eq_iff _ 42 (by omega) (by omega) hsim1.2.1] at this
              exact this
            have := hcon.2
            rw [peek_crlf S _ hsim1 (by rw [h42]; omega)] at this
            have hp13 : peek_next_character
                (update_current_character_nocheck σ) ≠ 13 := by
              unfold peek_next_character
              split
              · omega
              · rw [hsim1.1]
                exact no_cr_getD S hcr _
            rw [crlf_char_eq_iff _ 47 (by omega) (by omega) hp13] at this
            exact this
        have htnew : (if is_newline (crlf_state S
              (update_current_character_nocheck σ)).current_character then
              comment_type.passed_to_next_line else t) =
            (if is_newline (update_current_character_nocheck
              σ).current_character then
              comment_type.passed_to_next_line else t) := by
          rw [crlf_cc, w_crlf_char is_newline rfl _ hsim1.2.1]
        have hplain : skip_comment_loop (fuel + 1) p0 t σ =
            skip_comment_loop fuel p0
              (if is_newline (update_current_character_nocheck
                σ).current_character then
                comment_type.passed_to_next_line else t)
              (next_character (update_current_character_nocheck σ)) := by
          rw [skip_comment_loop, if_neg heof]
          dsimp only
          rw [if_neg hmatch]
        have hprimed : skip_comment_loop (fuel + 1) (crlf_pos S p0) t
            (crlf_state S σ) =
            skip_comment_loop fuel (crlf_pos S p0)
              (if is_newline (update_current_character_nocheck
                σ).current_character then
                comment_type.passed_to_next_line else t)
              (next_character (crlf_state S
                (update_current_character_nocheck σ))) := by
          rw [skip_comment_loop, if_neg (by rw [heof']; simp)]
          dsimp only
          rw [hnk, if_neg hmatch', htnew]
        have hcomm := next_character_crlf S _ hsim1
        have hSn : (next_character
            (update_current_character_nocheck σ)).source = S := by
          rw [(next_character_fields _ hsim1.2.1).1]
          exact hsim1.1
        rw [hplain, hprimed, hcomm]
        have h13n : (next_character
            (update_current_character_nocheck σ)).current_character ≠ 13 := by
          rw [(next_character_fields _ hsim1.2.1).2.2.1]
          exact hsim1.2.1
        have hrec := ih p0
          (if is_newline (update_current_character_nocheck
            σ).current_character then
            comment_type.passed_to_next_line else t)
          (next_character (update_current_character_nocheck σ)) hSn h13n
        refine ⟨hrec.1, ?_⟩
        intro hok
        apply hrec.2
        have hok' : skip_comment_loop_ok (fuel + 1) σ = true := hok
        rw [skip_comment_loop_ok, if_neg heof] at hok'
        dsimp only at hok'
        rw [if_neg hmatch] at hok'
        exact hok'

theorem advance_sim (S : List Nat) (hcr : no_cr S) (τ : parser_state)
    (hτ : sim_src S τ) :
    update_current_character (next_character (crlf_state S τ)) =
      crlf_state S (update_current_character (next_character τ)) ∧
    sim_src S (update_current_character (next_character τ)) := by
  have hSn : (next_character τ).source = S := by
    rw [(next_character_fields τ hτ.2.1).1]
    exact hτ.1
  exact ⟨by rw [next_character_crlf S τ hτ, update_crlf S _ hSn],
    sim_src_update S _ hcr hSn⟩

theorem skip_comment_sim (S : List Nat) (hcr : no_cr S) (fuel : Nat)
    (σ : parser_state) (hσ : sim_src S σ) (h47 : σ.current_character = 47) :
    skip_comment fuel (crlf_state S σ) =
      (crlf_state S (skip_comment fuel σ).1, (skip_comment fuel σ).2) ∧
    (skip_comment_ok fuel σ = true → sim_src S (skip_comment fuel σ).1) ∧
    ((skip_comment fuel σ).2 = comment_type.not_a_comment →
      (skip_comment fuel σ).1 = σ) := by
  have hpeek := peek_crlf S σ hσ (by rw [h47]; omega)
  have hp13 : peek_next_character σ ≠ 13 := by
    unfold peek_next_character
    split
    · omega
    · rw [hσ.1]
      exact no_cr_getD S hcr _
  unfold skip_comment skip_comment_ok
  dsimp only
  rw [hpeek]
  by_cases h42 : peek_next_character σ = 42
  · rw [h42, show crlf_char 42 = 42 from rfl, if_pos rfl, if_pos rfl]
    have hbyte : S.getD (σ.buffer_position + 1) 0 = 42 ∨
        S.length ≤ σ.buffer_position + 1 := by
      have hpk := h42
      unfold peek_next_character at hpk
      cases hne : next_eof_at σ
      · rw [hne] at hpk
        simp only [Bool.false_eq_true, if_false] at hpk
        rw [hσ.1] at hpk
        exact Or.inl hpk
      · rw [hne] at hpk
        simp only [if_true] at hpk
        omega
    have hsim2 : sim_src S (next_character σ) := by
      have hf := next_character_fields σ hσ.2.1
      refine ⟨by rw [hf.1]; exact hσ.1, by rw [hf.2.2.1, h47]; omega, ?_⟩
      intro hlt h10
      rw [hf.2.1] at hlt h10
      rcases hbyte with h | h
      · omega
      · unfold next_eof_at at h
        omega
    have hSnn : (next_character (next_character σ)).source = S := by
      rw [(next_character_fields _ hsim2.2.1).1]
      exact hsim2.1
    have h13nn : (next_character
        (next_character σ)).current_character ≠ 13 := by
      rw [(next_character_fields _ hsim2.2.1).2.2.1]
      exact hsim2.2.1
    rw [next_character_crlf S σ hσ, next_character_crlf S _ hsim2, crlf_bp]
    have hrec := skip_comment_loop_sim S hcr fuel σ.buffer_position
      .stayed_on_same_line (next_character (next_character σ)) hSnn h13nn
    refine ⟨hrec.1, fun hok => hrec.2 hok, ?_⟩
    intro h
    exact absurd h (skip_comment_loop_t fuel σ.buffer_position _ _ (by simp))
  · rw [if_neg (fun hx => h42
      ((crlf_char_eq_iff _ 42 (by omega) (by omega) hp13).mp hx)),
      if_neg h42]
    by_cases h47p : peek_next_character σ = 47
    · have hcp : crlf_char (peek_next_character σ) = 47 := by
        rw [h47p]
        rfl
      rw [if_pos hcp, if_pos h47p]
      rw [until_newline_eta]
      obtain ⟨hc, hs⟩ := skip_curpred_sim S hcr (fun c => !is_newline c) rfl
        fuel σ hσ
      rw [hc]
      exact ⟨rfl, fun _ => hs, fun h => nomatch h⟩
    · rw [if_neg (fun hx => h47p
        ((crlf_char_eq_iff _ 47 (by omega) (by omega) hp13).mp hx)),
        if_neg h47p]
      exact ⟨rfl, fun _ => hσ, fun _ => rfl⟩

theorem swun_sim (S : List Nat) (hcr : no_cr S) (fuel : Nat)
    (σ : parser_state) (hσ : sim_src S σ) :
    skip_whitespace_until_newline fuel (crlf_state S σ) =
      crlf_state S (skip_whitespace_until_newline fuel σ) ∧
    sim_src S (skip_whitespace_until_newline fuel σ) := by
  unfold skip_whitespace_until_newline
  rw [whitespace_eta]
  obtain ⟨hc1, hsim1⟩ := skip_curpred_sim S hcr is_whitespace rfl fuel σ hσ
  dsimp only
  rw [hc1]
  rw [crlf_cc, w_crlf_char is_newline rfl _ hsim1.2.1]
  by_cases hnl : (!is_newline (skip fuel
      (fun s => is_whitespace s.current_character) σ).1.current_character)
      = true
  · rw [if_pos hnl, if_pos hnl, crlf_bp,
      report_error_crlf S _ hsim1.1, until_newline_eta]
    obtain ⟨hc2, hsim2⟩ := skip_curpred_sim S hcr (fun c => !is_newline c) rfl
      fuel _ (sim_src_report S _ _ _ _ hsim1)
    rw [hc2]
    rw [eof_at_crlf S _ hsim2.1]
    by_cases hef : (!eof_at (skip fuel (fun s => !is_newline s.current_character)
        (report_error (skip fuel (fun s => is_whitespace s.current_character)
          σ).1 .require_newline (skip fuel
            (fun s => is_whitespace s.current_character)
            σ).1.current_character (skip fuel
            (fun s => is_whitespace s.current_character)
            σ).1.buffer_position)).1) = true
    · rw [if_pos hef, if_pos hef]
      obtain ⟨ha, hsa⟩ := advance_sim S hcr _ hsim2
      rw [ha]
      exact ⟨rfl, hsa⟩
    · rw [if_neg hef, if_neg hef]
      exact ⟨rfl, hsim2⟩
  · rw [if_neg hnl, if_neg hnl]
    rw [eof_at_crlf S _ hsim1.1]
    by_cases hef : (!eof_at (skip fuel
        (fun s => is_whitespace s.current_character) σ).1) = true
    · rw [if_pos hef, if_pos hef]
      obtain ⟨ha, hsa⟩ := advance_sim S hcr _ hsim1
      rw [ha]
      exact ⟨rfl, hsa⟩
    · rw [if_neg hef, if_neg hef]
      exact ⟨rfl, hsim1⟩

theorem read_escape_sim (S : List Nat) (hcr : no_cr S) (σ : parser_state)
    (data : List Nat) (hσ : sim_src S σ) :
    read_escape_character owned_spec (crlf_state S σ) data =
      (crlf_state S (read_escape_character owned_spec σ data).1,
        (read_escape_character owned_spec σ data).2) ∧
    sim_src S (read_escape_character owned_spec σ data).1 := by
  obtain ⟨hadv, hsadv⟩ := advance_sim S hcr σ hσ
  unfold read_escape_character
  dsimp only
  rw [hadv, crlf_cc, escape_map_crlf_char]
  cases hE : escape_map (update_current_character
      (next_character σ)).current_character with
  | none =>
    simp only [hE]
    rw [crlf_bp, report_error_crlf S _ hsadv.1]
    exact ⟨rfl, sim_src_report S _ _ _ _ hsadv⟩
  | some ch =>
    simp only [hE]
    rw [append_char_owned, append_char_owned]
    dsimp only
    obtain ⟨hadv2, hsadv2⟩ := advance_sim S hcr _ hsadv
    rw [hadv2]
    exact ⟨rfl, hsadv2⟩

theorem parse_data_identifier_context_sim (S : List Nat) (hcr : no_cr S)
    (fuel : Nat) (σ : parser_state) (hσ : sim_src S σ) :
    parse_data_identifier_context owned_spec fuel (crlf_state S σ) =
      (crlf_state S (parse_data_identifier_context owned_spec fuel σ).1,
        (parse_data_identifier_context owned_spec fuel σ).2) ∧
    sim_src S (parse_data_identifier_context owned_spec fuel σ).1 := by
  obtain ⟨hc, hs, hm, hr⟩ := read_sim S hcr is_identifier rfl rfl fuel σ hσ
  have hr2 : (read fuel (fun s => is_identifier s.current_character) σ).2 =
      (read fuel (fun s => is_identifier s.current_character)
        σ).1.buffer_position - σ.buffer_position := rfl
  unfold parse_data_identifier_context
  rw [identifier_eta]
  dsimp only
  rw [hc]
  dsimp only
  rw [make_data_owned, make_data_owned, append_string_owned,
    append_string_owned]
  refine ⟨?_, hs⟩
  rw [append_slice_crlf S _ hs.1 _ (by rw [hr2]; omega) ?_]
  intro i h1 h2
  refine hr i ?_ h2
  rw [hr2] at h1
  omega
theorem skip_pred_sim (S : List Nat) (hcr : no_cr S) (w : Nat → Bool)
    (hw : w 13 = w 10) (fuel : Nat) (σ : parser_state) (hσ : sim_src S σ)
    (p : parser_state → Bool)
    (hp : p = fun s => w s.current_character) :
    skip fuel p (crlf_state S σ) =
      (crlf_state S (skip fuel p σ).1, (skip fuel p σ).2) ∧
    sim_src S (skip fuel p σ).1 := by
  subst hp
  exact skip_curpred_sim S hcr w hw fuel σ hσ

theorem skip_pred_region_sim (S : List Nat) (hcr : no_cr S) (w : Nat → Bool)
    (hw : w 13 = w 10) (hw10 : w 10 = false) (fuel : Nat) (σ : parser_state)
    (hσ : sim_src S σ) (p : parser_state → Bool)
    (hp : p = fun s => w s.current_character) :
    skip fuel p (crlf_state S σ) =
      (crlf_state S (skip fuel p σ).1, (skip fuel p σ).2) ∧
    sim_src S (skip fuel p σ).1 ∧
    σ.buffer_position ≤ (skip fuel p σ).1.buffer_position ∧
    (∀ i, σ.buffer_position ≤ i →
      i < (skip fuel p σ).1.buffer_position → S.getD i 0 ≠ 10) := by
  subst hp
  exact skip_read_sim S hcr w hw hw10 fuel σ hσ

theorem read_slice_sim (S : List Nat) (hcr : no_cr S) (w : Nat → Bool)
    (hw : w 13 = w 10) (hw10 : w 10 = false) (fuel : Nat) (σ : parser_state)
    (hσ : sim_src S σ) (p : parser_state → Bool)
    (hp : p = fun s => w s.current_character) :
    read fuel p (crlf_state S σ) =
      (crlf_state S (read fuel p σ).1, (read fuel p σ).2) ∧
    sim_src S (read fuel p σ).1 ∧
    σ.buffer_position ≤ (read fuel p σ).1.buffer_position ∧
    (((crlf_state S (read fuel p σ).1).source.drop
        ((crlf_state S (read fuel p σ).1).buffer_position -
          (read fuel p σ).2)).take (read fuel p σ).2) =
      (((read fuel p σ).1.source.drop
        ((read fuel p σ).1.buffer_position -
          (read fuel p σ).2)).take (read fuel p σ).2) := by
  subst hp
  obtain ⟨hc, hs, hm, hr⟩ := read_sim S hcr w hw hw10 fuel σ hσ
  have hr2 : (read fuel (fun s => w s.current_character) σ).2 =
      (read fuel (fun s => w s.current_character) σ).1.buffer_position -
        σ.buffer_position := rfl
  refine ⟨hc, hs, ?_, ?_⟩
  · exact hm
  · refine append_slice_crlf S _ hs.1 _ (by rw [hr2]; omega) ?_
    intro i h1 h2
    refine hr i ?_ h2
    rw [hr2] at h1
    omega

theorem parse_data_string_loop_succ (fuel : Nat) (s : parser_state)
    (data : List Nat) (p0 : Nat) :
    parse_data_string_loop owned_spec (fuel + 1) s data p0 =
      if eof_at s then (report_error s .string_not_closed 0 p0, data)
      else
        let r := read fuel string_text (update_current_character_nocheck s)
        let data2 := data ++
          ((r.1.source.drop (r.1.buffer_position - r.2)).take r.2)
        if r.1.current_character = 34 then
          (update_current_character (next_character r.1), data2)
        else if r.1.current_character = 92 then
          let e := read_escape_character owned_spec r.1 data2
          parse_data_string_loop owned_spec fuel e.1 e.2 p0
        else (report_error r.1 .string_not_closed 0 p0, data2) := by
  rw [parse_data_string_loop]
  simp only [append_string_owned]

theorem parse_data_string_loop_ok_succ (fuel : Nat) (s : parser_state)
    (data : List Nat) :
    parse_data_string_loop_ok (fuel + 1) s data =
      if eof_at s then true
      else
        let r := read fuel string_text (update_current_character_nocheck s)
        let data2 := data ++
          ((r.1.source.drop (r.1.buffer_position - r.2)).take r.2)
        if r.1.current_character = 34 then true
        else if r.1.current_character = 92 then
          let e := read_escape_character owned_spec r.1 data2
          parse_data_string_loop_ok fuel e.1 e.2
        else true := by
  rw [parse_data_string_loop_ok]
  simp only [append_string_owned]

theorem parse_data_string_loop_sim (S : List Nat) (hcr : no_cr S) :
    ∀ (fuel : Nat) (σ : parser_state) (data : List Nat) (p0 : Nat),
      σ.source = S → σ.current_character ≠ 13 →
      parse_data_string_loop owned_spec fuel (crlf_state S σ) data
          (crlf_pos S p0) =
        (crlf_state S (parse_data_string_loop owned_spec fuel σ data p0).1,
          (parse_data_string_loop owned_spec fuel σ data p0).2) ∧
      (parse_data_string_loop_ok fuel σ data = true →
        sim_src S (parse_data_string_loop owned_spec fuel σ data p0).1) := by
  intro fuel
  induction fuel with
  | zero =>
    intro σ data p0 hS h13
    refine ⟨rfl, ?_⟩
    intro hok
    exact absurd hok (by simp [parse_data_string_loop_ok])
  | succ fuel ih =>
    intro σ data p0 hS h13
    rw [parse_data_string_loop_succ, parse_data_string_loop_succ,
      parse_data_string_loop_ok_succ, eof_at_crlf S σ hS]
    by_cases heof : eof_at σ = true
    · simp only [if_pos heof]
      rw [report_error_crlf0 S σ hS]
      refine ⟨rfl, ?_⟩
      intro _
      apply sim_src_report
      refine ⟨hS, h13, ?_⟩
      intro hlt h10
      exfalso
      have hlen := eof_at_len _ heof
      rw [hS] at hlen
      omega
    · simp only [if_neg heof]
      have hnk := update_nocheck_crlf S σ hS
      have hsim1 := sim_src_nocheck S σ hcr hS
      rw [hnk]
      obtain ⟨hcr1, hs1, hm1, hslice⟩ := read_slice_sim S hcr
        (fun c => !(c == 34 || is_newline c || c == 92)) rfl rfl fuel
        (update_current_character_nocheck σ) hsim1 string_text string_text_eta
      rw [hcr1]
      dsimp only
      rw [hslice, crlf_cc]
      by_cases h34 : (read fuel string_text
          (update_current_character_nocheck σ)).1.current_character = 34
      · have h34' : crlf_char (read fuel string_text
            (update_current_character_nocheck σ)).1.current_character = 34 := by
          rw [h34]
          rfl
        simp only [if_pos h34, if_pos h34']
        obtain ⟨ha, hsa⟩ := advance_sim S hcr _ hs1
        rw [ha]
        exact ⟨rfl, fun _ => hsa⟩
      · have h34' : ¬ crlf_char (read fuel string_text
            (update_current_character_nocheck σ)).1.current_character = 34 :=
          fun hx => h34
            ((crlf_char_eq_iff _ 34 (by omega) (by omega) hs1.2.1).mp hx)
        simp only [if_neg h34, if_neg h34']
        by_cases h92 : (read fuel string_text
            (update_current_character_nocheck σ)).1.current_character = 92
        · have h92' : crlf_char (read fuel string_text
              (update_current_character_nocheck σ)).1.current_character
              = 92 := by
            rw [h92]
            rfl
          simp only [if_pos h92, if_pos h92']
          obtain ⟨hesc, hse⟩ := read_escape_sim S hcr _ _ hs1
          rw [hesc]
          have hrec := ih (read_escape_character owned_spec
            (read fuel string_text (update_current_character_nocheck σ)).1
            (data ++ (((read fuel string_text
                (update_current_character_nocheck σ)).1.source.drop
              ((read fuel string_text
                (update_current_character_nocheck σ)).1.buffer_position -
                (read fuel string_text
                  (update_current_character_nocheck σ)).2)).take
              (read fuel string_text
                (update_current_character_nocheck σ)).2))).1 (read_escape_character owned_spec
            (read fuel string_text (update_current_character_nocheck σ)).1
            (data ++ (((read fuel string_text
                (update_current_character_nocheck σ)).1.source.drop
              ((read fuel string_text
                (update_current_character_nocheck σ)).1.buffer_position -
                (read fuel string_text
                  (update_current_character_nocheck σ)).2)).take
              (read fuel string_text
                (update_current_character_nocheck σ)).2))).2 p0 hse.1 hse.2.1
          refine ⟨hrec.1, fun hok => hrec.2 hok⟩
        · have h92' : ¬ crlf_char (read fuel string_text
              (update_current_character_nocheck σ)).1.current_character = 92 :=
            fun hx => h92
              ((crlf_char_eq_iff _ 92 (by omega) (by omega) hs1.2.1).mp hx)
          simp only [if_neg h92, if_neg h92']
          rw [report_error_crlf0 S _ hs1.1]
          exact ⟨rfl, fun _ => sim_src_report S _ _ _ _ hs1⟩

theorem parse_data_string_context_sim (S : List Nat) (hcr : no_cr S)
    (fuel : Nat) (σ : parser_state) (hσ : sim_src S σ) :
    parse_data_string_context owned_spec fuel (crlf_state S σ) =
      (crlf_state S (parse_data_string_context owned_spec fuel σ).1,
        (parse_data_string_context owned_spec fuel σ).2) ∧
    (parse_data_string_context_ok fuel σ = true →
      sim_src S (parse_data_string_context owned_spec fuel σ).1) := by
  have hSn : (next_character σ).source = S := by
    rw [(next_character_fields σ hσ.2.1).1]
    exact hσ.1
  have h13n : (next_character σ).current_character ≠ 13 := by
    rw [(next_character_fields σ hσ.2.1).2.2.1]
    exact hσ.2.1
  unfold parse_data_string_context parse_data_string_context_ok
  dsimp only
  rw [next_character_crlf S σ hσ, crlf_bp]
  simp only [make_data_owned]
  exact parse_data_string_loop_sim S hcr fuel (next_character σ) []
    σ.buffer_position hSn h13n

theorem parse_data_block_codec_context_sim (S : List Nat) (hcr : no_cr S)
    (fuel : Nat) (σ : parser_state) (hσ : sim_src S σ) :
    parse_data_block_codec_context fuel (crlf_state S σ) =
      (crlf_state S (parse_data_block_codec_context fuel σ).1,
        (parse_data_block_codec_context fuel σ).2) ∧
    sim_src S (parse_data_block_codec_context fuel σ).1 := by
  obtain ⟨hc, hs, hm, hslice⟩ := read_slice_sim S hcr is_identifier rfl rfl
    fuel σ hσ identifier identifier_eta
  unfold parse_data_block_codec_context
  dsimp only
  rw [hc]
  dsimp only
  rw [hslice, crlf_bp]
  by_cases hb : ((read fuel identifier σ).1.source.drop
      ((read fuel identifier σ).1.buffer_position -
        (read fuel identifier σ).2)).take (read fuel identifier σ).2 =
      base64_codec
  · simp only [if_pos hb]
    exact ⟨by trivial, hs⟩
  · simp only [if_neg hb]
    by_cases ht : ((read fuel identifier σ).1.source.drop
        ((read fuel identifier σ).1.buffer_position -
          (read fuel identifier σ).2)).take (read fuel identifier σ).2 ≠
        text_codec
    · simp only [if_pos ht]
      rw [report_error_crlf0 S _ hs.1]
      exact ⟨by trivial, sim_src_report S _ _ _ _ hs⟩
    · simp only [if_neg ht]
      exact ⟨by trivial, hs⟩

theorem parse_block_line_succ (fuel : Nat) (s : parser_state)
    (data : List Nat) :
    parse_block_line owned_spec (fuel + 1) s data =
      if eof_at s then (s, data)
      else
        let r := read fuel block_text s
        let data2 := data ++
          ((r.1.source.drop (r.1.buffer_position - r.2)).take r.2)
        if eof_at r.1 then (r.1, data2)
        else if is_newline r.1.current_character then
          (update_current_character (next_character r.1), data2)
        else if r.1.current_character = 92 then
          let e := read_escape_character owned_spec r.1 data2
          parse_block_line owned_spec fuel e.1 e.2
        else (r.1, data2) := by
  rw [parse_block_line]
  simp only [append_string_owned]

theorem parse_block_line_sim (S : List Nat) (hcr : no_cr S) :
    ∀ (fuel : Nat) (σ : parser_state) (data : List Nat), sim_src S σ →
      parse_block_line owned_spec fuel (crlf_state S σ) data =
        (crlf_state S (parse_block_line owned_spec fuel σ data).1,
          (parse_block_line owned_spec fuel σ data).2) ∧
      sim_src S (parse_block_line owned_spec fuel σ data).1 := by
  intro fuel
  induction fuel with
  | zero =>
    intro σ data hσ
    exact ⟨rfl, hσ⟩
  | succ fuel ih =>
    intro σ data hσ
    rw [parse_block_line_succ, parse_block_line_succ, eof_at_crlf S σ hσ.1]
    by_cases heof : eof_at σ = true
    · simp only [if_pos heof]
      exact ⟨by trivial, hσ⟩
    · simp only [if_neg heof]
      obtain ⟨hcr1, hs1, hm1, hslice⟩ := read_slice_sim S hcr
        (fun c => !is_newline c && !(c == 92)) rfl rfl fuel σ hσ
        block_text block_text_eta
      rw [hcr1]
      dsimp only
      rw [hslice, eof_at_crlf S _ hs1.1]
      by_cases heof2 : eof_at (read fuel block_text σ).1 = true
      · simp only [if_pos heof2]
        exact ⟨by trivial, hs1⟩
      · simp only [if_neg heof2]
        rw [crlf_cc, w_crlf_char is_newline rfl _ hs1.2.1]
        by_cases hnl : is_newline
            (read fuel block_text σ).1.current_character = true
        · simp only [if_pos hnl]
          obtain ⟨ha, hsa⟩ := advance_sim S hcr _ hs1
          rw [ha]
          exact ⟨by trivial, hsa⟩
        · simp only [if_neg hnl]
          by_cases h92 : (read fuel block_text σ).1.current_character = 92
          · have h92' : crlf_char
                (read fuel block_text σ).1.current_character = 92 := by
              rw [h92]
              rfl
            simp only [if_pos h92, if_pos h92']
            obtain ⟨hesc, hse⟩ := read_escape_sim S hcr _ _ hs1
            rw [hesc]
            exact ih (read_escape_character owned_spec
                (read fuel block_text σ).1
                (data ++ (((read fuel block_text σ).1.source.drop
                  ((read fuel block_text σ).1.buffer_position -
                    (read fuel block_text σ).2)).take
                  (read fuel block_text σ).2))).1
              (read_escape_character owned_spec
                (read fuel block_text σ).1
                (data ++ (((read fuel block_text σ).1.source.drop
                  ((read fuel block_text σ).1.buffer_position -
                    (read fuel block_text σ).2)).take
                  (read fuel block_text σ).2))).2 hse
          · have h92' : ¬ crlf_char
                (read fuel block_text σ).1.current_character = 92 :=
              fun hx => h92
                ((crlf_char_eq_iff _ 92 (by omega) (by omega) hs1.2.1).mp hx)
            simp only [if_neg h92, if_neg h92']
            exact ⟨by trivial, hs1⟩

theorem parse_data_block_body_loop_succ (fuel : Nat) (s : parser_state)
    (data : List Nat) (cd ccs : Nat) (first b64 : Bool) (sp : Nat) :
    parse_data_block_body_loop owned_spec (fuel + 1) s data cd ccs first b64
        sp =
      if eof_at s then (report_error s .block_not_closed 0 sp, data)
      else if s.current_character = 125 ∧
          (s.buffer_position - ccs < cd ∨ first = true) then
        (update_current_character (next_character s), data)
      else
        let s1 := if s.current_character = 125 then
            report_error s .bad_block_close 0 s.buffer_position
          else s
        let a := if first = false ∧ b64 = false then
            (s1, data ++ [10])
          else (s1, data)
        let p := parse_block_line owned_spec fuel a.1 a.2
        let r := skip fuel
          (fun st => decide (st.buffer_position <
            p.1.buffer_position + cd) &&
            is_whitespace st.current_character) p.1
        parse_data_block_body_loop owned_spec fuel r.1 p.2 cd
          p.1.buffer_position false b64 sp := by
  rw [parse_data_block_body_loop]
  simp only [append_char_owned]

theorem parse_data_block_body_loop_sim (S : List Nat) (hcr : no_cr S) :
    ∀ (fuel : Nat) (σ : parser_state) (data : List Nat) (cd ccs : Nat)
      (first b64 : Bool) (sp : Nat), sim_src S σ →
      ccs ≤ σ.buffer_position →
      (∀ i, ccs ≤ i → i < σ.buffer_position → S.getD i 0 ≠ 10) →
      parse_data_block_body_loop owned_spec fuel (crlf_state S σ) data cd
          (crlf_pos S ccs) first b64 (crlf_pos S sp) =
        (crlf_state S (parse_data_block_body_loop owned_spec fuel σ data cd
          ccs first b64 sp).1,
         (parse_data_block_body_loop owned_spec fuel σ data cd
          ccs first b64 sp).2) ∧
      sim_src S (parse_data_block_body_loop owned_spec fuel σ data cd
        ccs first b64 sp).1 := by
  intro fuel
  induction fuel with
  | zero =>
    intro σ data cd ccs first b64 sp hσ hle hreg
    exact ⟨rfl, hσ⟩
  | succ fuel ih =>
    intro σ data cd ccs first b64 sp hσ hle hreg
    have haff : crlf_pos S σ.buffer_position =
        crlf_pos S ccs + (σ.buffer_position - ccs) := by
      have h1 := crlf_pos_add_of_no_nl S ccs (σ.buffer_position - ccs)
        (fun i hi1 hi2 => hreg i hi1 (by omega))
      rw [show ccs + (σ.buffer_position - ccs) = σ.buffer_position from
        by omega] at h1
      exact h1
    rw [parse_data_block_body_loop_succ, parse_data_block_body_loop_succ,
      eof_at_crlf S σ hσ.1]
    by_cases heof : eof_at σ = true
    · simp only [if_pos heof]
      rw [report_error_crlf0 S σ hσ.1]
      exact ⟨by trivial, sim_src_report S _ _ _ _ hσ⟩
    · simp only [if_neg heof]
      by_cases hclose : σ.current_character = 125 ∧
          (σ.buffer_position - ccs < cd ∨ first = true)
      · have hclose' : (crlf_state S σ).current_character = 125 ∧
            ((crlf_state S σ).buffer_position - crlf_pos S ccs < cd ∨
              first = true) := by
          refine ⟨by rw [crlf_cc, hclose.1]; rfl, ?_⟩
          rcases hclose.2 with h | h
          · left
            rw [crlf_bp]
            omega
          · right
            exact h
        simp only [if_pos hclose, if_pos hclose']
        obtain ⟨ha, hsa⟩ := advance_sim S hcr σ hσ
        rw [ha]
        exact ⟨by trivial, hsa⟩
      · have hclose' : ¬ ((crlf_state S σ).current_character = 125 ∧
            ((crlf_state S σ).buffer_position - crlf_pos S ccs < cd ∨
              first = true)) := by
          rintro ⟨h1, h2⟩
          apply hclose
          refine ⟨(crlf_char_eq_iff _ 125 (by omega) (by omega)
            hσ.2.1).mp (by rw [← crlf_cc]; exact h1), ?_⟩
          rcases h2 with h | h
          · left
            rw [crlf_bp] at h
            omega
          · right
            exact h
        simp only [if_neg hclose, if_neg hclose']
        have hs1 : (if (crlf_state S σ).current_character = 125 then
              report_error (crlf_state S σ) .bad_block_close 0
                (crlf_state S σ).buffer_position
            else crlf_state S σ) =
            crlf_state S (if σ.current_character = 125 then
              report_error σ .bad_block_close 0 σ.buffer_position
            else σ) := by
          by_cases h125 : σ.current_character = 125
          · rw [if_pos (by rw [crlf_cc, h125]; rfl), if_pos h125, crlf_bp,
              report_error_crlf0 S σ hσ.1]
          · rw [if_neg (fun hx => h125 ((crlf_char_eq_iff _ 125 (by omega)
                (by omega) hσ.2.1).mp (by rw [← crlf_cc]; exact hx))),
              if_neg h125]
        have hs1sim : sim_src S (if σ.current_character = 125 then
            report_error σ .bad_block_close 0 σ.buffer_position else σ) := by
          split
          · exact sim_src_report S _ _ _ _ hσ
          · exact hσ
        rw [hs1]
        generalize hgen : (if σ.current_character = 125 then
            report_error σ .bad_block_close 0 σ.buffer_position else σ) =
          s1p at hs1sim ⊢
        by_cases hfb : first = false ∧ b64 = false
        · simp only [if_pos hfb]
          obtain ⟨hp, hps⟩ := parse_block_line_sim S hcr fuel s1p
            (data ++ [10]) hs1sim
          rw [hp]
          dsimp only
          rw [crlf_bp]
          obtain ⟨hsk, hsks, hskm, hskr⟩ := skip_indent_sim S hcr
            (parse_block_line owned_spec fuel s1p
              (data ++ [10])).1.buffer_position cd fuel
            (parse_block_line owned_spec fuel s1p (data ++ [10])).1 hps
            (le_refl _) (fun i h1 h2 => absurd h1 (by omega))
          rw [hsk]
          exact ih _ (parse_block_line owned_spec fuel s1p (data ++ [10])).2
            cd _ false b64 sp hsks hskm hskr
        · simp only [if_neg hfb]
          obtain ⟨hp, hps⟩ := parse_block_line_sim S hcr fuel s1p data hs1sim
          rw [hp]
          dsimp only
          rw [crlf_bp]
          obtain ⟨hsk, hsks, hskm, hskr⟩ := skip_indent_sim S hcr
            (parse_block_line owned_spec fuel s1p data).1.buffer_position cd
            fuel (parse_block_line owned_spec fuel s1p data).1 hps
            (le_refl _) (fun i h1 h2 => absurd h1 (by omega))
          rw [hsk]
          exact ih _ (parse_block_line owned_spec fuel s1p data).2
            cd _ false b64 sp hsks hskm hskr

theorem parse_data_block_body_context_sim (S : List Nat) (hcr : no_cr S)
    (fuel : Nat) (σ : parser_state) (hσ : sim_src S σ) (sp : Nat)
    (b64 : Bool) :
    parse_data_block_body_context owned_spec fuel (crlf_state S σ)
        (crlf_pos S sp) b64 =
      (crlf_state S (parse_data_block_body_context owned_spec fuel σ sp
        b64).1,
       (parse_data_block_body_context owned_spec fuel σ sp b64).2) ∧
    sim_src S (parse_data_block_body_context owned_spec fuel σ sp b64).1 := by
  unfold parse_data_block_body_context
  dsimp only
  obtain ⟨hsk, hsks, hskm, hskr⟩ := skip_pred_region_sim S hcr is_whitespace
    rfl rfl fuel σ hσ whitespace whitespace_eta
  rw [hsk]
  dsimp only
  have hd : crlf_pos S (skip fuel whitespace σ).1.buffer_position -
      crlf_pos S σ.buffer_position =
      (skip fuel whitespace σ).1.buffer_position - σ.buffer_position := by
    have h1 := crlf_pos_add_of_no_nl S σ.buffer_position
      ((skip fuel whitespace σ).1.buffer_position - σ.buffer_position)
      (fun i hi1 hi2 => hskr i hi1 (by omega))
    rw [show σ.buffer_position + ((skip fuel whitespace
        σ).1.buffer_position - σ.buffer_position) =
      (skip fuel whitespace σ).1.buffer_position from by omega] at h1
    omega
  rw [crlf_bp, crlf_bp, hd]
  simp only [make_data_owned]
  exact parse_data_block_body_loop_sim S hcr fuel
    (skip fuel whitespace σ).1 []
    ((skip fuel whitespace σ).1.buffer_position - σ.buffer_position)
    σ.buffer_position true b64 sp hsks hskm hskr

theorem parse_data_block_context_sim (S : List Nat) (hcr : no_cr S)
    (fuel : Nat) (σ : parser_state) (hσ : sim_src S σ) :
    parse_data_block_context owned_spec fuel (crlf_state S σ) =
      (crlf_state S (parse_data_block_context owned_spec fuel σ).1,
       (parse_data_block_context owned_spec fuel σ).2) ∧
    sim_src S (parse_data_block_context owned_spec fuel σ).1 := by
  unfold parse_data_block_context
  dsimp only
  obtain ⟨hadv, hsadv⟩ := advance_sim S hcr σ hσ
  rw [hadv, crlf_bp]
  obtain ⟨hsk, hsks⟩ := skip_pred_sim S hcr is_whitespace rfl fuel _ hsadv
    whitespace whitespace_eta
  rw [hsk]
  dsimp only
  by_cases he : (skip fuel whitespace (update_current_character
      (next_character σ))).2 = parsing_position.eof
  · simp only [if_pos he]
    rw [report_error_crlf0 S _ hsks.1]
    simp only [make_data_owned]
    exact ⟨by trivial, sim_src_report S _ _ _ _ hsks⟩
  · simp only [if_neg he]
    rw [crlf_cc, w_crlf_char is_identifier rfl _ hsks.2.1]
    by_cases hid : is_identifier (skip fuel whitespace
        (update_current_character
          (next_character σ))).1.current_character = true
    · simp only [if_pos hid]
      obtain ⟨hcc, hccs⟩ := parse_data_block_codec_context_sim S hcr fuel _
        hsks
      rw [hcc]
      dsimp only
      obtain ⟨hsw, hsws⟩ := swun_sim S hcr fuel _ hccs
      rw [hsw]
      obtain ⟨hb, hbs⟩ := parse_data_block_body_context_sim S hcr fuel _
        hsws σ.buffer_position
        (decide ((parse_data_block_codec_context fuel (skip fuel whitespace
          (update_current_character (next_character σ))).1).2 =
          block_codec_type.base64))
      rw [hb]
      by_cases hc2 : decide ((parse_data_block_codec_context fuel
          (skip fuel whitespace (update_current_character
            (next_character σ))).1).2 = block_codec_type.base64) = true
      · simp only [if_pos hc2]
        rw [base64_convert_owned, base64_convert_owned]
        exact ⟨by trivial, hbs⟩
      · simp only [if_neg hc2]
        exact ⟨by trivial, hbs⟩
    · simp only [if_neg hid]
      obtain ⟨hsw, hsws⟩ := swun_sim S hcr fuel _ hsks
      rw [hsw]
      obtain ⟨hb, hbs⟩ := parse_data_block_body_context_sim S hcr fuel _
        hsws σ.buffer_position false
      rw [hb]
      simp only [Bool.false_eq_true, if_false]
      exact ⟨by trivial, hbs⟩

theorem parse_single_data_sim (S : List Nat) (hcr : no_cr S) (fuel : Nat)
    (σ : parser_state) (t : parser_data_type) (hσ : sim_src S σ) :
    parse_single_data owned_spec fuel (crlf_state S σ) t =
      (crlf_state S (parse_single_data owned_spec fuel σ t).1,
       (parse_single_data owned_spec fuel σ t).2) ∧
    (parse_single_data_ok fuel σ t = true →
      sim_src S (parse_single_data owned_spec fuel σ t).1) := by
  cases t with
  | block =>
    have h := parse_data_block_context_sim S hcr fuel σ hσ
    exact ⟨h.1, fun _ => h.2⟩
  | string =>
    exact parse_data_string_context_sim S hcr fuel σ hσ
  | identifier =>
    have h := parse_data_identifier_context_sim S hcr fuel σ hσ
    exact ⟨h.1, fun _ => h.2⟩
  | not_a_data_type =>
    show (let s := update_current_character (next_character (report_error
        (crlf_state S σ) .illegal_character
        (crlf_state S σ).current_character
        (crlf_state S σ).buffer_position));
      (s, owned_spec.make_data s.source s.buffer_position)) = _ ∧ _
    dsimp only
    rw [crlf_cc, crlf_bp, report_error_crlf S σ hσ.1]
    obtain ⟨hadv, hsadv⟩ := advance_sim S hcr _
      (sim_src_report S σ _ _ _ hσ)
    rw [hadv]
    simp only [make_data_owned]
    exact ⟨by trivial, fun _ => hsadv⟩

theorem detect_data_type_crlf_char (c : Nat) :
    detect_data_type (crlf_char c) = detect_data_type c := by
  unfold crlf_char
  split
  · rename_i h
    rw [h]
    rfl
  · rfl

theorem parse_node_data_context_sim (S : List Nat) (hcr : no_cr S) :
    ∀ (fuel : Nat) (σ : parser_state) (node : document), sim_src S σ →
      parse_node_data_context_ok fuel σ node = true →
      parse_node_data_context owned_spec fuel (crlf_state S σ) node =
        (crlf_state S (parse_node_data_context owned_spec fuel σ node).1,
          (parse_node_data_context owned_spec fuel σ node).2) ∧
      sim_src S (parse_node_data_context owned_spec fuel σ node).1 := by
  intro fuel
  induction fuel with
  | zero =>
    intro σ node hσ hok
    exact ⟨rfl, hσ⟩
  | succ fuel ih =>
    intro σ node hσ hok
    rw [parse_node_data_context_ok] at hok
    rw [parse_node_data_context, parse_node_data_context]
    dsimp only
    dsimp only at hok
    obtain ⟨hsk, hsks⟩ := skip_pred_sim S hcr is_whitespace rfl fuel σ hσ
      whitespace whitespace_eta
    rw [hsk]
    dsimp only
    by_cases hv : (skip fuel whitespace σ).2 ≠ parsing_position.valid
    · simp only [if_pos hv]
      exact ⟨by trivial, hsks⟩
    · simp only [if_neg hv]
      simp only [if_neg hv] at hok
      have hcomm : (if (crlf_state S
            (skip fuel whitespace σ).1).current_character = 47 then
            skip_comment fuel (crlf_state S (skip fuel whitespace σ).1)
          else (crlf_state S (skip fuel whitespace σ).1,
            comment_type.not_a_comment)) =
          (crlf_state S (if (skip fuel whitespace σ).1.current_character = 47
            then skip_comment fuel (skip fuel whitespace σ).1
            else ((skip fuel whitespace σ).1,
              comment_type.not_a_comment)).1,
           (if (skip fuel whitespace σ).1.current_character = 47
            then skip_comment fuel (skip fuel whitespace σ).1
            else ((skip fuel whitespace σ).1,
              comment_type.not_a_comment)).2) := by
        by_cases h47 : (skip fuel whitespace σ).1.current_character = 47
        · rw [if_pos (by rw [crlf_cc, h47]; rfl), if_pos h47]
          exact (skip_comment_sim S hcr fuel _ hsks h47).1
        · rw [if_neg (fun hx => h47 ((crlf_char_eq_iff _ 47 (by omega)
              (by omega) hsks.2.1).mp (by rw [← crlf_cc]; exact hx))),
            if_neg h47]
      have hcsim : ((if (skip fuel whitespace σ).1.current_character = 47
            then skip_comment_ok fuel (skip fuel whitespace σ).1
            else true) = true) →
          sim_src S (if (skip fuel whitespace σ).1.current_character = 47
            then skip_comment fuel (skip fuel whitespace σ).1
            else ((skip fuel whitespace σ).1,
              comment_type.not_a_comment)).1 := by
        by_cases h47 : (skip fuel whitespace σ).1.current_character = 47
        · rw [if_pos h47, if_pos h47]
          exact (skip_comment_sim S hcr fuel _ hsks h47).2.1
        · rw [if_neg h47, if_neg h47]
          exact fun _ => hsks
      have hcnc : (if (skip fuel whitespace σ).1.current_character = 47
            then skip_comment fuel (skip fuel whitespace σ).1
            else ((skip fuel whitespace σ).1,
              comment_type.not_a_comment)).2 = comment_type.not_a_comment →
          (if (skip fuel whitespace σ).1.current_character = 47
            then skip_comment fuel (skip fuel whitespace σ).1
            else ((skip fuel whitespace σ).1,
              comment_type.not_a_comment)).1 = (skip fuel whitespace σ).1 := by
        by_cases h47 : (skip fuel whitespace σ).1.current_character = 47
        · rw [if_pos h47]
          exact (skip_comment_sim S hcr fuel _ hsks h47).2.2
        · rw [if_neg h47]
          exact fun _ => rfl
      rw [hcomm]
      generalize hgen : (if (skip fuel whitespace σ).1.current_character = 47
          then skip_comment fuel (skip fuel whitespace σ).1
          else ((skip fuel whitespace σ).1,
            comment_type.not_a_comment)) = crp at hcsim hcnc hok ⊢
      generalize hgen2 : (if (skip fuel whitespace σ).1.current_character = 47
          then skip_comment_ok fuel (skip fuel whitespace σ).1
          else true) = cokv at hcsim hok
      cases hcr2 : crp.2 with
      | passed_to_next_line =>
        simp only [hcr2, if_true] at hok ⊢
        exact ⟨by trivial, hcsim hok⟩
      | stayed_on_same_line =>
        simp only [hcr2, if_true,
          if_neg (fun h => (nomatch h :
            (comment_type.stayed_on_same_line =
              comment_type.passed_to_next_line) → False) h)] at hok ⊢
        rw [Bool.and_eq_true] at hok
        exact ih crp.1 node (hcsim hok.1) hok.2
      | not_a_comment =>
        rw [hcnc hcr2] at hok ⊢
        simp only [hcr2,
          if_neg (fun h => (nomatch h :
            (comment_type.not_a_comment =
              comment_type.passed_to_next_line) → False) h),
          if_neg (fun h => (nomatch h :
            (comment_type.not_a_comment =
              comment_type.stayed_on_same_line) → False) h)] at hok ⊢
        by_cases h59 : (skip fuel whitespace σ).1.current_character = 59
        · simp only [if_pos h59,
            if_pos (show (crlf_state S
              (skip fuel whitespace σ).1).current_character = 59 from by
              rw [crlf_cc, h59]; rfl)]
          obtain ⟨ha, hsa⟩ := advance_sim S hcr _ hsks
          rw [ha]
          exact ⟨by trivial, hsa⟩
        · simp only [if_neg h59,
            if_neg (show ¬ (crlf_state S
              (skip fuel whitespace σ).1).current_character = 59 from
              fun hx => h59 ((crlf_char_eq_iff _ 59 (by omega) (by omega)
                hsks.2.1).mp (by rw [← crlf_cc]; exact hx)))]
          simp only [if_neg h59] at hok
          by_cases h92 : (skip fuel whitespace σ).1.current_character = 92
          · simp only [if_pos h92,
              if_pos (show (crlf_state S
                (skip fuel whitespace σ).1).current_character = 92 from by
                rw [crlf_cc, h92]; rfl)]
            simp only [if_pos h92] at hok
            obtain ⟨ha, hsa⟩ := advance_sim S hcr _ hsks
            rw [ha]
            obtain ⟨hsw, hsws⟩ := swun_sim S hcr fuel _ hsa
            rw [hsw]
            exact ih _ node hsws hok
          · simp only [if_neg h92,
              if_neg (show ¬ (crlf_state S
                (skip fuel whitespace σ).1).current_character = 92 from
                fun hx => h92 ((crlf_char_eq_iff _ 92 (by omega) (by omega)
                  hsks.2.1).mp (by rw [← crlf_cc]; exact hx)))]
            simp only [if_neg h92] at hok
            rw [crlf_cc, w_crlf_char is_newline rfl _ hsks.2.1]
            by_cases hnl : is_newline
                (skip fuel whitespace σ).1.current_character = true
            · simp only [if_pos hnl]
              exact ⟨by trivial, hsks⟩
            · simp only [if_neg hnl]
              simp only [if_neg hnl] at hok
              rw [detect_data_type_crlf_char]
              by_cases hdt : detect_data_type
                  (skip fuel whitespace σ).1.current_character =
                  parser_data_type.not_a_data_type
              · simp only [if_pos hdt]
                simp only [if_pos hdt] at hok
                rw [crlf_bp, report_error_crlf S _ hsks.1]
                obtain ⟨ha, hsa⟩ := advance_sim S hcr _
                  (sim_src_report S _ _ _ _ hsks)
                rw [ha]
                exact ih _ node hsa hok
              · simp only [if_neg hdt]
                simp only [if_neg hdt] at hok
                rw [Bool.and_eq_true] at hok
                obtain ⟨hsd, hsds⟩ := parse_single_data_sim S hcr fuel _
                  (detect_data_type
                    (skip fuel whitespace σ).1.current_character) hsks
                rw [hsd]
                exact ih _ _ (hsds hok.1) hok.2

theorem report_error_cc (s : parser_state) (t : parser_error) (ch p : Nat) :
    (report_error s t ch p).current_character = s.current_character := by
  unfold report_error
  split
  · rfl
  · rfl

theorem parse_node_header_context_sim (S : List Nat) (hcr : no_cr S)
    (fuel : Nat) (σ : parser_state) (t : parser_data_type)
    (hσ : sim_src S σ)
    (hok : parse_node_header_context_ok fuel σ t = true) :
    parse_node_header_context owned_spec fuel (crlf_state S σ) t =
      (crlf_state S (parse_node_header_context owned_spec fuel σ t).1,
        (parse_node_header_context owned_spec fuel σ t).2) ∧
    sim_src S (parse_node_header_context owned_spec fuel σ t).1 := by
  unfold parse_node_header_context_ok at hok
  dsimp only at hok
  rw [Bool.and_eq_true] at hok
  unfold parse_node_header_context
  dsimp only
  obtain ⟨hsd, hsds⟩ := parse_single_data_sim S hcr fuel σ t hσ
  rw [hsd]
  dsimp only
  exact parse_node_data_context_sim S hcr fuel
    (parse_single_data owned_spec fuel σ t).1
    (basic_document.mk (parse_single_data owned_spec fuel σ t).2 [] [])
    (hsds hok.1) hok.2

theorem parse_node_body_sim_mutual (S : List Nat) (hcr : no_cr S) :
    ∀ fuel : Nat,
      (∀ (σ : parser_state) (node : document) (curr sp : Nat), sim_src S σ →
        parse_node_body_context_ok fuel σ node curr sp = true →
        parse_node_body_context owned_spec fuel (crlf_state S σ) node curr
            (crlf_pos S sp) =
          (crlf_state S
            (parse_node_body_context owned_spec fuel σ node curr sp).1,
           (parse_node_body_context owned_spec fuel σ node curr sp).2) ∧
        sim_src S (parse_node_body_context owned_spec fuel σ node curr
          sp).1) ∧
      (∀ (σ : parser_state) (node : document) (curr sp : Nat), sim_src S σ →
        parse_node_body_item_ok fuel σ node curr sp = true →
        parse_node_body_item owned_spec fuel (crlf_state S σ) node curr
            (crlf_pos S sp) =
          (crlf_state S
            (parse_node_body_item owned_spec fuel σ node curr sp).1,
           (parse_node_body_item owned_spec fuel σ node curr sp).2.1,
           (parse_node_body_item owned_spec fuel σ node curr sp).2.2) ∧
        sim_src S (parse_node_body_item owned_spec fuel σ node curr sp).1) ∧
      (∀ (σ : parser_state) (node : document) (curr nsp : Nat)
          (nested : Bool), sim_src S σ →
        parse_node_body_header_ok fuel σ node curr nsp nested = true →
        parse_node_body_header owned_spec fuel (crlf_state S σ) node curr
            (crlf_pos S nsp) nested =
          (crlf_state S
            (parse_node_body_header owned_spec fuel σ node curr nsp
              nested).1,
           (parse_node_body_header owned_spec fuel σ node curr nsp
              nested).2.1,
           (parse_node_body_header owned_spec fuel σ node curr nsp
              nested).2.2) ∧
        sim_src S (parse_node_body_header owned_spec fuel σ node curr nsp
          nested).1) := by
  intro fuel
  induction fuel with
  | zero =>
    exact ⟨fun σ node curr sp hσ _ => ⟨rfl, hσ⟩,
      fun σ node curr sp hσ _ => ⟨rfl, hσ⟩,
      fun σ node curr nsp nested hσ _ => ⟨rfl, hσ⟩⟩
  | succ fuel ih =>
    obtain ⟨ihb, ihi, ihh⟩ := ih
    refine ⟨fun σ node curr sp hσ hok => ?_,
      fun σ node curr sp hσ hok => ?_,
      fun σ node curr nsp nested hσ hok => ?_⟩
    · unfold parse_node_body_context_ok at hok
      dsimp only at hok
      unfold parse_node_body_context
      dsimp only
      obtain ⟨hsk, hsks⟩ := skip_pred_sim S hcr
        (fun c => is_whitespace c || is_newline c) rfl fuel σ hσ
        whitespace_and_newlines whitespace_and_newlines_eta
      rw [hsk]
      dsimp only
      by_cases hv : (skip fuel whitespace_and_newlines σ).2 ≠
          parsing_position.valid
      · simp only [if_pos hv]
        by_cases hrec : 0 < curr
        · simp only [if_pos hrec]
          rw [report_error_crlf0 S _ hsks.1]
          exact ⟨by trivial, sim_src_report S _ _ _ _ hsks⟩
        · simp only [if_neg hrec]
          exact ⟨by trivial, hsks⟩
      · simp only [if_neg hv]
        simp only [if_neg hv] at hok
        have hcomm : (if (crlf_state S
              (skip fuel whitespace_and_newlines σ).1).current_character = 47
            then skip_comment fuel (crlf_state S
              (skip fuel whitespace_and_newlines σ).1)
            else (crlf_state S (skip fuel whitespace_and_newlines σ).1,
              comment_type.not_a_comment)) =
            (crlf_state S (if (skip fuel
                whitespace_and_newlines σ).1.current_character = 47
              then skip_comment fuel (skip fuel whitespace_and_newlines σ).1
              else ((skip fuel whitespace_and_newlines σ).1,
                comment_type.not_a_comment)).1,
             (if (skip fuel whitespace_and_newlines σ).1.current_character
                = 47
              then skip_comment fuel (skip fuel whitespace_and_newlines σ).1
              else ((skip fuel whitespace_and_newlines σ).1,
                comment_type.not_a_comment)).2) := by
          by_cases h47 : (skip fuel
              whitespace_and_newlines σ).1.current_character = 47
          · rw [if_pos (by rw [crlf_cc, h47]; rfl), if_pos h47]
            exact (skip_comment_sim S hcr fuel _ hsks h47).1
          · rw [if_neg (fun hx => h47 ((crlf_char_eq_iff _ 47 (by omega)
                (by omega) hsks.2.1).mp (by rw [← crlf_cc]; exact hx))),
              if_neg h47]
        have hcsim : ((if (skip fuel
              whitespace_and_newlines σ).1.current_character = 47
              then skip_comment_ok fuel (skip fuel
                whitespace_and_newlines σ).1
              else true) = true) →
            sim_src S (if (skip fuel
                whitespace_and_newlines σ).1.current_character = 47
              then skip_comment fuel (skip fuel whitespace_and_newlines σ).1
              else ((skip fuel whitespace_and_newlines σ).1,
                comment_type.not_a_comment)).1 := by
          by_cases h47 : (skip fuel
              whitespace_and_newlines σ).1.current_character = 47
          · rw [if_pos h47, if_pos h47]
            exact (skip_comment_sim S hcr fuel _ hsks h47).2.1
          · rw [if_neg h47, if_neg h47]
            exact fun _ => hsks
        have hcnc : (if (skip fuel
              whitespace_and_newlines σ).1.current_character = 47
              then skip_comment fuel (skip fuel whitespace_and_newlines σ).1
              else ((skip fuel whitespace_and_newlines σ).1,
                comment_type.not_a_comment)).2 =
            comment_type.not_a_comment →
            (if (skip fuel whitespace_and_newlines σ).1.current_character
                = 47
              then skip_comment fuel (skip fuel whitespace_and_newlines σ).1
              else ((skip fuel whitespace_and_newlines σ).1,
                comment_type.not_a_comment)).1 =
              (skip fuel whitespace_and_newlines σ).1 := by
          by_cases h47 : (skip fuel
              whitespace_and_newlines σ).1.current_character = 47
          · rw [if_pos h47]
            exact (skip_comment_sim S hcr fuel _ hsks h47).2.2
          · rw [if_neg h47]
            exact fun _ => rfl
        rw [hcomm]
        generalize hgen : (if (skip fuel
            whitespace_and_newlines σ).1.current_character = 47
            then skip_comment fuel (skip fuel whitespace_and_newlines σ).1
            else ((skip fuel whitespace_and_newlines σ).1,
              comment_type.not_a_comment)) = crp at hcsim hcnc hok ⊢
        generalize hgen2 : (if (skip fuel
            whitespace_and_newlines σ).1.current_character = 47
            then skip_comment_ok fuel (skip fuel whitespace_and_newlines σ).1
            else true) = cokv at hcsim hok
        cases hcr2 : crp.2 with
        | passed_to_next_line =>
          simp only [hcr2] at hok ⊢
          simp only [if_pos (show comment_type.passed_to_next_line ≠
            comment_type.not_a_comment from fun h => nomatch h)] at hok ⊢
          rw [Bool.and_eq_true] at hok
          exact ihb crp.1 node curr sp (hcsim hok.1) hok.2
        | stayed_on_same_line =>
          simp only [hcr2] at hok ⊢
          simp only [if_pos (show comment_type.stayed_on_same_line ≠
            comment_type.not_a_comment from fun h => nomatch h)] at hok ⊢
          rw [Bool.and_eq_true] at hok
          exact ihb crp.1 node curr sp (hcsim hok.1) hok.2
        | not_a_comment =>
          rw [hcnc hcr2] at hok ⊢
          simp only [hcr2] at hok ⊢
          simp only [if_neg (show ¬ (comment_type.not_a_comment ≠
            comment_type.not_a_comment) from fun h => h rfl)] at hok ⊢
          rw [Bool.and_eq_true] at hok
          have hi := ihi (skip fuel whitespace_and_newlines σ).1 node curr sp
            hsks hok.1
          rw [hi.1]
          dsimp only
          by_cases hflag : (parse_node_body_item owned_spec fuel
              (skip fuel whitespace_and_newlines σ).1 node curr sp).2.2 = true
          · simp only [if_pos hflag]
            have hok2 := hok.2
            rw [if_pos hflag] at hok2
            exact ihb _ _ curr sp hi.2 hok2
          · simp only [if_neg hflag]
            exact ⟨by trivial, hi.2⟩
    · unfold parse_node_body_item_ok at hok
      dsimp only at hok
      unfold parse_node_body_item
      dsimp only
      rw [crlf_bp]
      by_cases h35 : σ.current_character = 35
      · simp only [if_pos h35,
          if_pos (show (crlf_state S σ).current_character = 35 from by
            rw [crlf_cc, h35]; rfl)]
        simp only [if_pos h35] at hok
        obtain ⟨ha, hsa⟩ := advance_sim S hcr σ hσ
        rw [ha, eof_at_crlf S _ hsa.1, crlf_cc,
          w_crlf_char is_whitespace rfl _ hsa.2.1,
          w_crlf_char is_newline rfl _ hsa.2.1]
        by_cases hstop : eof_at (update_current_character
            (next_character σ)) = true ∨
            is_whitespace (update_current_character
              (next_character σ)).current_character = true ∨
            is_newline (update_current_character
              (next_character σ)).current_character = true
        · simp only [if_pos hstop]
          by_cases hr0 : curr = 0
          · simp only [if_pos hr0]
            rw [report_error_crlf0 S _ hsa.1]
            exact ⟨by trivial, sim_src_report S _ _ _ _ hsa⟩
          · simp only [if_neg hr0]
            exact ⟨by trivial, hsa⟩
        · simp only [if_neg hstop]
          simp only [if_neg hstop] at hok
          exact ihh _ node curr σ.buffer_position true hsa hok
      · simp only [if_neg h35,
          if_neg (show ¬ (crlf_state S σ).current_character = 35 from
            fun hx => h35 ((crlf_char_eq_iff _ 35 (by omega) (by omega)
              hσ.2.1).mp (by rw [← crlf_cc]; exact hx)))]
        simp only [if_neg h35] at hok
        exact ihh σ node curr σ.buffer_position false hσ hok
    · unfold parse_node_body_header_ok at hok
      dsimp only at hok
      unfold parse_node_body_header
      dsimp only
      rw [crlf_cc, detect_data_type_crlf_char]
      by_cases hd : detect_data_type σ.current_character =
          parser_data_type.string ∨
          detect_data_type σ.current_character = parser_data_type.identifier
      · simp only [if_pos hd]
        simp only [if_pos hd] at hok
        have hok1 : parse_node_header_context_ok fuel σ
            (detect_data_type σ.current_character) = true := by
          by_cases hc1 : (parse_node_header_context owned_spec fuel σ
              (detect_data_type σ.current_character)).1.recursion_limit ≤
              curr + 1
          · rwa [if_pos hc1] at hok
          · rw [if_neg hc1] at hok
            by_cases hn : nested = true
            · rw [if_pos hn, Bool.and_eq_true] at hok
              exact hok.1
            · rwa [if_neg hn] at hok
        obtain ⟨hhc, hhcs⟩ := parse_node_header_context_sim S hcr fuel σ _
          hσ hok1
        rw [hhc]
        dsimp only
        rw [crlf_rl]
        by_cases hrl : (parse_node_header_context owned_spec fuel σ
            (detect_data_type σ.current_character)).1.recursion_limit ≤
            curr + 1
        · simp only [if_pos hrl]
          rw [report_error_crlf0 S _ hhcs.1]
          obtain ⟨hsk2, hsk2s⟩ := skip_pred_sim S hcr
            (fun c => !is_newline c) rfl fuel _
            (sim_src_report S _ _ _ _ hhcs) until_newline until_newline_eta
          rw [hsk2]
          exact ⟨by trivial, hsk2s⟩
        · simp only [if_neg hrl]
          simp only [if_neg hrl] at hok
          by_cases hn : nested = true
          · simp only [if_pos hn]
            simp only [if_pos hn] at hok
            rw [Bool.and_eq_true] at hok
            have hb := ihb (parse_node_header_context owned_spec fuel σ
                (detect_data_type σ.current_character)).1
              (parse_node_header_context owned_spec fuel σ
                (detect_data_type σ.current_character)).2
              (curr + 1) nsp hhcs hok.2
            rw [hb.1]
            exact ⟨by trivial, hb.2⟩
          · simp only [if_neg hn]
            exact ⟨by trivial, hhcs⟩
      · simp only [if_neg hd]
        rw [crlf_bp, report_error_crlf S σ hσ.1]
        rw [crlf_cc, report_error_cc]
        by_cases h35 : ¬ σ.current_character = 35
        · simp only [if_pos h35,
            if_pos (show ¬ crlf_char σ.current_character = 35 from
              fun hx => h35 ((crlf_char_eq_iff _ 35 (by omega) (by omega)
                hσ.2.1).mp hx))]
          obtain ⟨ha, hsa⟩ := advance_sim S hcr _
            (sim_src_report S σ _ _ _ hσ)
          rw [ha]
          exact ⟨by trivial, hsa⟩
        · simp only [if_neg h35,
            if_neg (show ¬ ¬ crlf_char σ.current_character = 35 from by
              intro hx
              apply hx
              have h35' : σ.current_character = 35 := by
                by_contra hxx
                exact h35 hxx
              rw [h35']
              rfl)]
          exact ⟨by trivial, sim_src_report S σ _ _ _ hσ⟩

theorem initial_crlf (S : List Nat) (rl el : Nat) :
    initial_parser_state (crlf_variant S) rl el =
      crlf_state S (initial_parser_state S rl el) := by
  have hbase : (parser_state.mk (crlf_variant S) 0 0 rl el []) =
      crlf_state S (parser_state.mk S 0 0 rl el []) := by
    apply parser_state.ext
    all_goals
      simp only [crlf_source, crlf_bp, crlf_cc, crlf_rl, crlf_el, crlf_errs,
        List.map_nil]
    · exact (crlf_pos_zero S).symm
    · rfl
  show update_current_character (parser_state.mk (crlf_variant S) 0 0 rl el
      []) = crlf_state S (update_current_character (parser_state.mk S 0 0 rl
      el []))
  rw [hbase, update_crlf S _ rfl]

theorem initial_sim (S : List Nat) (hcr : no_cr S) (rl el : Nat) :
    sim_src S (initial_parser_state S rl el) :=
  sim_src_update S (parser_state.mk S 0 0 rl el []) hcr rfl

/-- C8: for every source containing no carriage-return byte, and every
fuel adequate for it (`load_ok`, which holds exactly when no loop of the
embedded run was cut short by fuel, i.e. when the embedded run is the
program's run), parsing the CRLF variant of the source (every LF
replaced by CR LF) produces exactly the same tree as parsing the source
itself. -/
theorem crlf_equal_trees (fuel : Nat) (S : List Nat) (hcr : no_cr S)
    (hok : load_ok fuel S = true) :
    (load fuel (crlf_variant S)).2 = (load fuel S).2 := by
  unfold load load_custom
  unfold load_ok load_custom_ok at hok
  rw [initial_crlf S default_recursion_limit default_maximum_error_limit]
  have h := (parse_node_body_sim_mutual S hcr fuel).1
    (initial_parser_state S default_recursion_limit
      default_maximum_error_limit)
    (basic_document.mk [] [] []) 0 0
    (initial_sim S hcr default_recursion_limit default_maximum_error_limit)
    hok
  rw [crlf_pos_zero] at h
  rw [h.1]

/-- Witness for C8 at the concrete source `"a\nb c\n"` with fuel 64. -/
theorem crlf_equal_trees_witness :
    no_cr [97, 10, 98, 32, 99, 10] ∧
    load_ok 64 [97, 10, 98, 32, 99, 10] = true ∧
    (load 64 (crlf_variant [97, 10, 98, 32, 99, 10])).2 =
      (load 64 [97, 10, 98, 32, 99, 10]).2 :=
  ⟨by unfold no_cr; decide, by decide,
    crlf_equal_trees 64 [97, 10, 98, 32, 99, 10]
      (by unfold no_cr; decide) (by decide)⟩

/-! ## Owned/view correspondence: buffer lemmas -/

theorem getD_set (B : List Nat) (i j c : Nat) :
    (B.set i c).getD j 0 =
      if i = j ∧ j < B.length then c else B.getD j 0 := by
  rw [List.getD_eq_getElem?_getD, List.getD_eq_getElem?_getD,
    List.getElem?_set]
  by_cases hij : i = j
  · subst hij
    by_cases hl : i < B.length
    · simp [hl]
    · rw [List.getElem?_eq_none (by omega), if_pos rfl, if_neg hl,
        if_neg (fun h => hl h.2)]
  · simp [hij]

theorem list_overwrite_length (src : List Nat) :
    ∀ (B : List Nat) (i : Nat), (list_overwrite B i src).length = B.length := by
  induction src with
  | nil => intro B i; rfl
  | cons c rest ih =>
    intro B i
    show (list_overwrite (B.set i c) (i + 1) rest).length = B.length
    rw [ih]
    exact List.length_set B i c

theorem list_overwrite_getD (src : List Nat) :
    ∀ (B : List Nat) (i j : Nat),
      (list_overwrite B i src).getD j 0 =
        if i ≤ j ∧ j < i + src.length ∧ j < B.length then
          src.getD (j - i) 0
        else B.getD j 0 := by
  induction src with
  | nil =>
    intro B i j
    simp only [List.length_nil]
    rw [if_neg (by omega)]
    rfl
  | cons c rest ih =>
    intro B i j
    show (list_overwrite (B.set i c) (i + 1) rest).getD j 0 = _
    rw [ih, List.length_set]
    by_cases h1 : i + 1 ≤ j ∧ j < i + 1 + rest.length ∧ j < B.length
    · rw [if_pos h1, if_pos (by simp only [List.length_cons]; omega)]
      have : j - i = (j - (i + 1)) + 1 := by omega
      rw [this]
      rfl
    · rw [if_neg h1, getD_set]
      by_cases h2 : i = j ∧ j < B.length
      · rw [if_pos h2, if_pos (by simp only [List.length_cons]; omega)]
        have : j - i = 0 := by omega
        rw [this]
        rfl
      · rw [if_neg h2, if_neg (by simp only [List.length_cons]; omega)]

theorem copy_forward_length (len : Nat) :
    ∀ (B : List Nat) (dst src : Nat),
      (copy_forward B dst src len).length = B.length := by
  induction len with
  | zero => intro B dst src; rfl
  | succ len ih =>
    intro B dst src
    show (copy_forward (B.set dst (B.getD src 0)) (dst + 1) (src + 1)
      len).length = B.length
    rw [ih]
    exact List.length_set B dst _

theorem copy_forward_getD (len : Nat) :
    ∀ (B : List Nat) (dst src : Nat), dst ≤ src → ∀ j,
      (copy_forward B dst src len).getD j 0 =
        if dst ≤ j ∧ j < dst + len then B.getD (src + (j - dst)) 0
        else B.getD j 0 := by
  induction len with
  | zero =>
    intro B dst src h j
    rw [if_neg (by omega)]
    rfl
  | succ len ih =>
    intro B dst src h j
    show (copy_forward (B.set dst (B.getD src 0)) (dst + 1) (src + 1)
      len).getD j 0 = _
    rw [ih _ (dst + 1) (src + 1) (by omega) j]
    by_cases h1 : dst + 1 ≤ j ∧ j < dst + 1 + len
    · rw [if_pos h1, if_pos (by omega)]
      rw [getD_set]
      rw [if_neg (by omega)]
      have : src + (j - dst) = src + 1 + (j - (dst + 1)) := by omega
      rw [this]
    · rw [if_neg h1, getD_set]
      by_cases h2 : dst = j ∧ j < B.length
      · rw [if_pos h2, if_pos (by omega)]
        have h3 : j - dst = 0 := by omega
        rw [h3]
        rfl
      · rw [if_neg h2]
        by_cases h3 : dst ≤ j ∧ j < dst + (len + 1)
        · have hj : j = dst := by omega
          subst hj
          have hl : ¬ j < B.length := fun hx => h2 ⟨rfl, hx⟩
          rw [if_pos ⟨le_refl _, by omega⟩]
          have h4 : j - j = 0 := by omega
          rw [h4, List.getD_eq_getElem?_getD, List.getElem?_eq_none (by omega),
            List.getD_eq_getElem?_getD,
            List.getElem?_eq_none (by omega)]
        · rw [if_neg h3]

theorem slice_eq_of_agree (A B : List Nat) (p n : Nat)
    (hlen : A.length = B.length)
    (h : ∀ i, p ≤ i → i < p + n → A.getD i 0 = B.getD i 0) :
    (A.drop p).take n = (B.drop p).take n := by
  apply List.ext_getElem
  · simp only [List.length_take, List.length_drop, hlen]
  · intro i h1 h2
    simp only [List.getElem_take, List.getElem_drop]
    have hiA : p + i < A.length := by
      simp only [List.length_take, List.length_drop] at h1
      omega
    have hin : i < n := by
      simp only [List.length_take, List.length_drop] at h1
      omega
    have := h (p + i) (by omega) (by omega)
    rw [List.getD_eq_getElem?_getD, List.getElem?_eq_getElem hiA,
      List.getD_eq_getElem?_getD,
      List.getElem?_eq_getElem (by omega : p + i < B.length)] at this
    exact this

theorem slice_eq_list (A : List Nat) (p n : Nat) (o : List Nat)
    (hlen : p + n ≤ A.length) (hn : o.length = n)
    (h : ∀ k, k < n → A.getD (p + k) 0 = o.getD k 0) :
    (A.drop p).take n = o := by
  apply List.ext_getElem
  · simp only [List.length_take, List.length_drop]
    omega
  · intro i h1 h2
    simp only [List.getElem_take, List.getElem_drop]
    have hin : i < n := by omega
    have := h i hin
    rw [List.getD_eq_getElem?_getD,
      List.getElem?_eq_getElem (by omega : p + i < A.length),
      List.getD_eq_getElem?_getD,
      List.getElem?_eq_getElem (by omega : i < o.length)] at this
    exact this

theorem slice_getD (B : List Nat) (p n k : Nat) (hk : k < n)
    (hlen : p + n ≤ B.length) :
    ((B.drop p).take n).getD k 0 = B.getD (p + k) 0 := by
  have h1 : k < ((B.drop p).take n).length := by
    simp only [List.length_take, List.length_drop]
    omega
  have h2 : p + k < B.length := by omega
  rw [List.getD_eq_getElem?_getD, List.getElem?_eq_getElem h1,
    List.getD_eq_getElem?_getD, List.getElem?_eq_getElem h2]
  simp only [List.getElem_take, List.getElem_drop, Option.getD_some]

theorem slice_length (B : List Nat) (p n : Nat) (hlen : p + n ≤ B.length) :
    ((B.drop p).take n).length = n := by
  simp only [List.length_take, List.length_drop]
  omega

theorem take_set_append (B : List Nat) (off ℓ ch : Nat)
    (h : off + ℓ < B.length) :
    ((B.set (off + ℓ) ch).drop off).take (ℓ + 1) =
      ((B.drop off).take ℓ) ++ [ch] := by
  apply slice_eq_list
  · rw [List.length_set]
    omega
  · rw [List.length_append, slice_length B off ℓ (by omega)]
    rfl
  · intro k hk
    rw [getD_set]
    by_cases hkl : k < ℓ
    · rw [if_neg (by omega)]
      rw [List.getD_append _ _ _ _ (by rw [slice_length B off ℓ (by omega)]; omega)]
      rw [slice_getD B off ℓ k hkl (by omega)]
    · have hke : k = ℓ := by omega
      subst hke
      rw [if_pos ⟨rfl, by omega⟩]
      rw [List.getD_append_right _ _ _ _ (by rw [slice_length B off k (by omega)])]
      rw [slice_length B off k (by omega)]
      simp

theorem copy_append (B : List Nat) (off ℓ src n : Nat)
    (hd : off + ℓ ≤ src) (hs : src + n ≤ B.length) :
    (((copy_forward B (off + ℓ) src n).drop off).take (ℓ + n)) =
      ((B.drop off).take ℓ) ++ ((B.drop src).take n) := by
  apply slice_eq_list
  · rw [copy_forward_length]
    omega
  · rw [List.length_append, slice_length B off ℓ (by omega),
      slice_length B src n hs]
  · intro k hk
    rw [copy_forward_getD n B (off + ℓ) src hd (off + k)]
    by_cases hkl : k < ℓ
    · rw [if_neg (by omega)]
      rw [List.getD_append _ _ _ _ (by rw [slice_length B off ℓ (by omega)]; omega)]
      rw [slice_getD B off ℓ k hkl (by omega)]
    · rw [if_pos (by omega)]
      rw [List.getD_append_right _ _ _ _ (by rw [slice_length B off ℓ (by omega)]; omega)]
      rw [slice_length B off ℓ (by omega)]
      have h1 : off + k - (off + ℓ) = k - ℓ := by omega
      rw [h1]
      rw [slice_getD B src n (k - ℓ) (by omega) hs]

theorem set_agree_below (B : List Nat) (i c : Nat) :
    agree_below (B.set i c) B i := by
  intro j hj
  rw [getD_set, if_neg (by omega)]

theorem copy_forward_agree_below (B : List Nat) (dst src n : Nat)
    (h : dst ≤ src) : agree_below (copy_forward B dst src n) B dst := by
  intro j hj
  rw [copy_forward_getD n B dst src h j, if_neg (by omega)]

theorem list_overwrite_agree_below (B : List Nat) (i : Nat)
    (src : List Nat) : agree_below (list_overwrite B i src) B i := by
  intro j hj
  rw [list_overwrite_getD src B i j, if_neg (by omega)]

theorem list_overwrite_slice (B : List Nat) (off : Nat) (src : List Nat)
    (h : off + src.length ≤ B.length) :
    ((list_overwrite B off src).drop off).take src.length = src := by
  apply slice_eq_list
  · rw [list_overwrite_length]
    exact h
  · rfl
  · intro k hk
    rw [list_overwrite_getD src B off (off + k), if_pos (by omega)]
    have h1 : off + k - off = k := by omega
    rw [h1]

theorem agree_below_refl (B : List Nat) (p : Nat) : agree_below B B p :=
  fun _ _ => rfl

theorem agree_below_trans {A B C : List Nat} {p : Nat}
    (h1 : agree_below A B p) (h2 : agree_below B C p) :
    agree_below A C p := by
  intro j hj
  rw [h1 j hj, h2 j hj]

theorem agree_below_mono {A B : List Nat} {p q : Nat}
    (h : agree_below A B p) (hq : q ≤ p) : agree_below A B q :=
  fun j hj => h j (by omega)

theorem agree_from_mono {A B : List Nat} {p q : Nat}
    (h : agree_from A B p) (hq : p ≤ q) : agree_from A B q :=
  fun j hj => h j (by omega)

theorem val_rel_mono {B B' : List Nat} {M M' : Nat} {v : Nat × Nat}
    {o : List Nat} (h : val_rel B M v o) (hM : M ≤ M')
    (hag : agree_below B' B M) (hlen : B'.length = B.length) :
    val_rel B' M' v o := by
  refine ⟨by have := h.1; omega, ?_⟩
  rw [← h.2]
  apply slice_eq_of_agree _ _ _ _ hlen
  intro i h1 h2
  exact hag i (by have := h.1; omega)

theorem data_rel_mono {B B' : List Nat} {M M' : Nat} (hM : M ≤ M')
    (hag : agree_below B' B M) (hlen : B'.length = B.length) :
    ∀ {vs : List (Nat × Nat)} {os : List (List Nat)},
      data_rel B M vs os → data_rel B' M' vs os
  | [], [], _ => trivial
  | v :: vs, o :: os, h =>
    ⟨val_rel_mono h.1 hM hag hlen, data_rel_mono hM hag hlen h.2⟩

mutual

theorem doc_rel_mono {B B' : List Nat} {M M' : Nat} (hM : M ≤ M')
    (hag : agree_below B' B M) (hlen : B'.length = B.length) :
    ∀ {dv : basic_document (Nat × Nat)} {od : document},
      doc_rel B M dv od → doc_rel B' M' dv od
  | .mk iv dvs cvs, .mk io os cos, h =>
    ⟨val_rel_mono h.1 hM hag hlen, data_rel_mono hM hag hlen h.2.1,
      kids_rel_mono hM hag hlen h.2.2⟩

theorem kids_rel_mono {B B' : List Nat} {M M' : Nat} (hM : M ≤ M')
    (hag : agree_below B' B M) (hlen : B'.length = B.length) :
    ∀ {cs : List (basic_document (Nat × Nat))} {ds : List document},
      kids_rel B M cs ds → kids_rel B' M' cs ds
  | [], [], _ => trivial
  | c :: cs, d :: ds, h =>
    ⟨doc_rel_mono hM hag hlen h.1, kids_rel_mono hM hag hlen h.2⟩

end

theorem data_rel_extract (B : List Nat) (M : Nat) :
    ∀ (vs : List (Nat × Nat)) (os : List (List Nat)),
      data_rel B M vs os → vs.map (fun v => (B.drop v.1).take v.2) = os
  | [], [], _ => rfl
  | v :: vs, o :: os, h => by
    show ((B.drop v.1).take v.2) :: _ = _
    rw [h.1.2, data_rel_extract B M vs os h.2]

mutual

theorem doc_rel_extract (B : List Nat) (M : Nat) :
    ∀ (dv : basic_document (Nat × Nat)) (od : document),
      doc_rel B M dv od → view_extract B dv = od
  | .mk iv dvs cvs, .mk io os cos, h => by
    unfold view_extract
    rw [kids_rel_extract B M cvs cos h.2.2, h.1.2,
      data_rel_extract B M dvs os h.2.1]

theorem kids_rel_extract (B : List Nat) (M : Nat) :
    ∀ (cs : List (basic_document (Nat × Nat))) (ds : List document),
      kids_rel B M cs ds → view_extract_list B cs = ds
  | [], [], _ => rfl
  | c :: cs, d :: ds, h => by
    unfold view_extract_list
    rw [doc_rel_extract B M c d h.1, kids_rel_extract B M cs ds h.2]

end

/-! ## Owned/view correspondence: state primitives -/

theorem next_character_src (σ : parser_state) :
    (next_character σ).source = σ.source := by
  unfold next_character spec_next
  split <;> rfl

theorem next_character_cc_eq (σ : parser_state) :
    (next_character σ).current_character = σ.current_character := by
  unfold next_character spec_next
  split <;> rfl

theorem next_character_el (σ : parser_state) :
    (next_character σ).error_limit = σ.error_limit := by
  unfold next_character spec_next
  split <;> rfl

theorem next_character_bp (σ : parser_state) :
    (next_character σ).buffer_position =
      if σ.current_character = 13 ∧ peek_next_character σ = 10 then
        σ.buffer_position + 2
      else σ.buffer_position + 1 := by
  unfold next_character spec_next
  by_cases h : σ.current_character = 13 ∧ peek_next_character σ = 10
  · rw [if_pos h, if_pos h]
  · rw [if_neg h, if_neg h]

theorem next_character_bp_ge (σ : parser_state) :
    σ.buffer_position + 1 ≤ (next_character σ).buffer_position := by
  rw [next_character_bp]
  split <;> omega

theorem report_error_fields (σ : parser_state) (t : parser_error) (ch p : Nat) :
    (report_error σ t ch p).source = σ.source ∧
    (report_error σ t ch p).buffer_position = σ.buffer_position ∧
    (report_error σ t ch p).current_character = σ.current_character ∧
    (report_error σ t ch p).recursion_limit = σ.recursion_limit := by
  unfold report_error
  split <;> exact ⟨rfl, rfl, rfl, rfl⟩

theorem V_eof {S : List Nat} {σo σv : parser_state} (h : view_rel S σo σv) :
    eof_at σv = eof_at σo := by
  obtain ⟨hsrc, hlen, hbp, -, -, -, -⟩ := h
  unfold eof_at
  rw [hlen, hbp, hsrc]

theorem V_next_eof {S : List Nat} {σo σv : parser_state}
    (h : view_rel S σo σv) : next_eof_at σv = next_eof_at σo := by
  obtain ⟨hsrc, hlen, hbp, -, -, -, -⟩ := h
  unfold next_eof_at
  rw [hlen, hbp, hsrc]

theorem V_spec_current {S : List Nat} {σo σv : parser_state}
    (h : view_rel S σo σv) : spec_current σv = spec_current σo := by
  obtain ⟨hsrc, hlen, hbp, hcc, hrl, hel, hag⟩ := h
  unfold spec_current
  rw [hbp, hag σo.buffer_position (Nat.le_refl _), hsrc]

theorem V_peek {S : List Nat} {σo σv : parser_state} (h : view_rel S σo σv) :
    peek_next_character σv = peek_next_character σo := by
  unfold peek_next_character
  rw [V_next_eof h, h.2.2.1, h.2.2.2.2.2.2 (σo.buffer_position + 1) (by omega),
    h.1]

theorem V_next {S : List Nat} {σo σv : parser_state} (h : view_rel S σo σv) :
    view_rel S (next_character σo) (next_character σv) := by
  have hpk := V_peek h
  obtain ⟨hsrc, hlen, hbp, hcc, hrl, hel, hag⟩ := h
  refine ⟨?_, ?_, ?_, ?_, ?_, ?_, ?_⟩
  · rw [next_character_src]; exact hsrc
  · rw [next_character_src]; exact hlen
  · rw [next_character_bp, next_character_bp, hcc, hpk, hbp]
  · rw [next_character_cc_eq, next_character_cc_eq]; exact hcc
  · rw [next_character_rl, next_character_rl]; exact hrl
  · rw [next_character_el, next_character_el]; exact hel
  · rw [next_character_src, next_character_bp]
    exact agree_from_mono hag (by split <;> omega)

theorem V_nocheck {S : List Nat} {σo σv : parser_state}
    (h : view_rel S σo σv) :
    view_rel S (update_current_character_nocheck σo)
      (update_current_character_nocheck σv) := by
  have hsc := V_spec_current h
  obtain ⟨hsrc, hlen, hbp, hcc, hrl, hel, hag⟩ := h
  exact ⟨hsrc, hlen, hbp, hsc, hrl, hel, hag⟩

theorem V_update {S : List Nat} {σo σv : parser_state}
    (h : view_rel S σo σv) :
    view_rel S (update_current_character σo) (update_current_character σv) := by
  have heq := V_eof h
  have hsc := V_spec_current h
  obtain ⟨hsrc, hlen, hbp, hcc, hrl, hel, hag⟩ := h
  refine ⟨hsrc, hlen, hbp, ?_, hrl, hel, hag⟩
  show (if eof_at σv then 0 else spec_current σv) =
    (if eof_at σo then 0 else spec_current σo)
  rw [heq, hsc]

theorem V_report {S : List Nat} {σo σv : parser_state}
    (h : view_rel S σo σv) (t : parser_error) (ch p : Nat) :
    view_rel S (report_error σo t ch p) (report_error σv t ch p) := by
  obtain ⟨hsrc, hlen, hbp, hcc, hrl, hel, hag⟩ := h
  unfold report_error
  rw [hel]
  by_cases h0 : σo.error_limit = 0
  · rw [if_pos h0, if_pos h0]
    exact ⟨hsrc, hlen, hbp, hcc, hrl, hel, hag⟩
  · rw [if_neg h0, if_neg h0]
    exact ⟨hsrc, hlen, hbp, hcc, hrl, rfl, hag⟩

theorem V_skip_general (S : List Nat) (q : parser_state → Bool)
    (hq : ∀ a b, view_rel S a b → q b = q a) :
    ∀ (fuel : Nat) (σo σv : parser_state), view_rel S σo σv →
      view_rel S (skip fuel q σo).1 (skip fuel q σv).1 ∧
      (skip fuel q σv).2 = (skip fuel q σo).2 ∧
      (skip fuel q σo).1.source = σo.source ∧
      (skip fuel q σv).1.source = σv.source ∧
      σo.buffer_position ≤ (skip fuel q σo).1.buffer_position := by
  intro fuel
  induction fuel with
  | zero =>
    intro σo σv h
    refine ⟨h, ?_, rfl, rfl, Nat.le_refl _⟩
    show (if eof_at σv then parsing_position.eof else parsing_position.valid) =
      (if eof_at σo then parsing_position.eof else parsing_position.valid)
    rw [V_eof h]
  | succ fuel ih =>
    intro σo σv h
    have hqq : q σv = q σo := hq σo σv h
    cases hcase : q σo with
    | false =>
      have ho : skip (fuel + 1) q σo =
          (σo, if eof_at σo then parsing_position.eof
            else parsing_position.valid) := by
        simp [skip, hcase]
      have hv : skip (fuel + 1) q σv =
          (σv, if eof_at σv then parsing_position.eof
            else parsing_position.valid) := by
        simp [skip, hqq, hcase]
      rw [ho, hv, V_eof h]
      exact ⟨h, rfl, rfl, rfl, Nat.le_refl _⟩
    | true =>
      have hn := V_next h
      cases heof : eof_at (next_character σo) with
      | true =>
        have heof' : eof_at (next_character σv) = true := by
          rw [V_eof hn]; exact heof
        have ho : skip (fuel + 1) q σo =
            (next_character σo, parsing_position.eof) := by
          simp [skip, hcase, heof]
        have hv : skip (fuel + 1) q σv =
            (next_character σv, parsing_position.eof) := by
          simp [skip, hqq, hcase, heof']
        rw [ho, hv]
        exact ⟨hn, rfl, next_character_src σo, next_character_src σv,
          Nat.le_trans (Nat.le_succ _) (next_character_bp_ge σo)⟩
      | false =>
        have heof' : eof_at (next_character σv) = false := by
          rw [V_eof hn]; exact heof
        have ho : skip (fuel + 1) q σo =
            skip fuel q (update_current_character_nocheck
              (next_character σo)) := by
          simp [skip, hcase, heof]
        have hv : skip (fuel + 1) q σv =
            skip fuel q (update_current_character_nocheck
              (next_character σv)) := by
          simp [skip, hqq, hcase, heof']
        rw [ho, hv]
        have hrec := ih (update_current_character_nocheck (next_character σo))
          (update_current_character_nocheck (next_character σv)) (V_nocheck hn)
        refine ⟨hrec.1, hrec.2.1, ?_, ?_, ?_⟩
        · rw [hrec.2.2.1]
          show (next_character σo).source = σo.source
          exact next_character_src σo
        · rw [hrec.2.2.2.1]
          show (next_character σv).source = σv.source
          exact next_character_src σv
        · have h1 : σo.buffer_position + 1 ≤ (next_character σo).buffer_position :=
            next_character_bp_ge σo
          have h2 : (update_current_character_nocheck
              (next_character σo)).buffer_position ≤
              (skip fuel q (update_current_character_nocheck
                (next_character σo))).1.buffer_position := hrec.2.2.2.2
          have h3 : (update_current_character_nocheck
              (next_character σo)).buffer_position =
              (next_character σo).buffer_position := rfl
          omega

theorem skip_exit_pred (q : parser_state → Bool)
    (hq : ∀ a b : parser_state,
      a.current_character = b.current_character → q a = q b) :
    ∀ (fuel : Nat) (σ : parser_state), eof_at σ = false →
      eof_at (skip fuel q σ).1 = false ∨ q (skip fuel q σ).1 = true := by
  intro fuel
  induction fuel with
  | zero =>
    intro σ hne
    left
    exact hne
  | succ fuel ih =>
    intro σ hne
    cases hcase : q σ with
    | false =>
      have ho : skip (fuel + 1) q σ =
          (σ, if eof_at σ then parsing_position.eof
            else parsing_position.valid) := by
        simp [skip, hcase]
      rw [ho]
      left
      exact hne
    | true =>
      cases heof : eof_at (next_character σ) with
      | true =>
        have ho : skip (fuel + 1) q σ =
            (next_character σ, parsing_position.eof) := by
          simp [skip, hcase, heof]
        rw [ho]
        right
        rw [hq (next_character σ) σ (next_character_cc_eq σ)]
        exact hcase
      | false =>
        have ho : skip (fuel + 1) q σ =
            skip fuel q (update_current_character_nocheck
              (next_character σ)) := by
          simp [skip, hcase, heof]
        rw [ho]
        exact ih _ heof

theorem V_read (S : List Nat) (q : parser_state → Bool)
    (hq : ∀ a b, view_rel S a b → q b = q a) (fuel : Nat)
    (σo σv : parser_state) (h : view_rel S σo σv) :
    view_rel S (read fuel q σo).1 (read fuel q σv).1 ∧
    (read fuel q σv).2 = (read fuel q σo).2 ∧
    (read fuel q σo).1.source = σo.source ∧
    (read fuel q σv).1.source = σv.source ∧
    σo.buffer_position ≤ (read fuel q σo).1.buffer_position := by
  have hs := V_skip_general S q hq fuel σo σv h
  refine ⟨hs.1, ?_, hs.2.2.1, hs.2.2.2.1, hs.2.2.2.2⟩
  show (skip fuel q σv).1.buffer_position - σv.buffer_position =
    (skip fuel q σo).1.buffer_position - σo.buffer_position
  rw [h.2.2.1, hs.1.2.2.1]

theorem V_whitespace (S : List Nat) :
    ∀ a b : parser_state, view_rel S a b → whitespace b = whitespace a := by
  intro a b h
  unfold whitespace
  rw [h.2.2.2.1]

theorem V_whitespace_and_newlines (S : List Nat) :
    ∀ a b : parser_state, view_rel S a b →
      whitespace_and_newlines b = whitespace_and_newlines a := by
  intro a b h
  unfold whitespace_and_newlines
  rw [h.2.2.2.1]

theorem V_identifier_pred (S : List Nat) :
    ∀ a b : parser_state, view_rel S a b → identifier b = identifier a := by
  intro a b h
  unfold identifier
  rw [h.2.2.2.1]

theorem V_until_newline (S : List Nat) :
    ∀ a b : parser_state, view_rel S a b →
      until_newline b = until_newline a := by
  intro a b h
  unfold until_newline
  rw [h.2.2.2.1]

theorem V_string_text (S : List Nat) :
    ∀ a b : parser_state, view_rel S a b → string_text b = string_text a := by
  intro a b h
  unfold string_text
  rw [h.2.2.2.1]

theorem V_block_text (S : List Nat) :
    ∀ a b : parser_state, view_rel S a b → block_text b = block_text a := by
  intro a b h
  unfold block_text
  rw [h.2.2.2.1]

theorem V_indent_pred (S : List Nat) (target : Nat) :
    ∀ a b : parser_state, view_rel S a b →
      (fun st => decide (st.buffer_position < target) &&
        is_whitespace st.current_character) b =
      (fun st => decide (st.buffer_position < target) &&
        is_whitespace st.current_character) a := by
  intro a b h
  have h1 := h.2.2.1
  have h2 := h.2.2.2.1
  simp only [h1, h2]

/-! ## Owned/view correspondence: comments and line skipping -/

theorem V_comment_loop (S : List Nat) :
    ∀ (fuel : Nat) (p0 : Nat) (t : comment_type) (σo σv : parser_state),
      view_rel S σo σv →
      view_rel S (skip_comment_loop fuel p0 t σo).1
        (skip_comment_loop fuel p0 t σv).1 ∧
      (skip_comment_loop fuel p0 t σv).2 =
        (skip_comment_loop fuel p0 t σo).2 ∧
      (skip_comment_loop fuel p0 t σo).1.source = σo.source ∧
      (skip_comment_loop fuel p0 t σv).1.source = σv.source ∧
      σo.buffer_position ≤
        (skip_comment_loop fuel p0 t σo).1.buffer_position := by
  intro fuel
  induction fuel with
  | zero =>
    intro p0 t σo σv h
    exact ⟨h, rfl, rfl, rfl, Nat.le_refl _⟩
  | succ fuel ih =>
    intro p0 t σo σv h
    cases heof : eof_at σo with
    | true =>
      have heof' : eof_at σv = true := by rw [V_eof h]; exact heof
      have ho : skip_comment_loop (fuel + 1) p0 t σo =
          (report_error σo .comment_not_closed 0 p0, t) := by
        simp [skip_comment_loop, heof]
      have hv : skip_comment_loop (fuel + 1) p0 t σv =
          (report_error σv .comment_not_closed 0 p0, t) := by
        simp [skip_comment_loop, heof']
      rw [ho, hv]
      exact ⟨V_report h _ _ _, rfl, (report_error_fields σo _ _ _).1,
        (report_error_fields σv _ _ _).1,
        Nat.le_of_eq (report_error_fields σo _ _ _).2.1.symm⟩
    | false =>
      have heof' : eof_at σv = false := by rw [V_eof h]; exact heof
      have hn := V_nocheck h
      by_cases hstar :
          (update_current_character_nocheck σo).current_character = 42 ∧
          peek_next_character (update_current_character_nocheck σo) = 47
      · have hstar' :
            (update_current_character_nocheck σv).current_character = 42 ∧
            peek_next_character (update_current_character_nocheck σv) = 47 := by
          rw [hn.2.2.2.1, V_peek hn]
          exact hstar
        have ho : skip_comment_loop (fuel + 1) p0 t σo =
            (update_current_character (next_character (next_character
              (update_current_character_nocheck σo))), t) := by
          simp [skip_comment_loop, heof, hstar]
        have hv : skip_comment_loop (fuel + 1) p0 t σv =
            (update_current_character (next_character (next_character
              (update_current_character_nocheck σv))), t) := by
          simp [skip_comment_loop, heof', hstar']
        rw [ho, hv]
        refine ⟨V_update (V_next (V_next hn)), rfl, ?_, ?_, ?_⟩
        · show (next_character (next_character
            (update_current_character_nocheck σo))).source = σo.source
          rw [next_character_src, next_character_src]
          rfl
        · show (next_character (next_character
            (update_current_character_nocheck σv))).source = σv.source
          rw [next_character_src, next_character_src]
          rfl
        · show σo.buffer_position ≤ (update_current_character (next_character
            (next_character (update_current_character_nocheck
              σo)))).buffer_position
          have h1 := next_character_bp_ge (update_current_character_nocheck σo)
          have h2 := next_character_bp_ge (next_character
            (update_current_character_nocheck σo))
          have h3 : (update_current_character_nocheck σo).buffer_position =
              σo.buffer_position := rfl
          have h4 : (update_current_character (next_character (next_character
              (update_current_character_nocheck σo)))).buffer_position =
              (next_character (next_character
                (update_current_character_nocheck σo))).buffer_position := rfl
          omega
      · have hstar' :
            ¬((update_current_character_nocheck σv).current_character = 42 ∧
            peek_next_character (update_current_character_nocheck σv) = 47) := by
          rw [hn.2.2.2.1, V_peek hn]
          exact hstar
        have hccn : (update_current_character_nocheck σv).current_character =
            (update_current_character_nocheck σo).current_character :=
          hn.2.2.2.1
        have hstar2 :
            ¬((update_current_character_nocheck σo).current_character = 42 ∧
            peek_next_character (update_current_character_nocheck σv) = 47) := by
          rw [V_peek hn]
          exact hstar
        have ho : skip_comment_loop (fuel + 1) p0 t σo =
            skip_comment_loop fuel p0
              (if is_newline
                (update_current_character_nocheck σo).current_character then
                .passed_to_next_line else t)
              (next_character (update_current_character_nocheck σo)) := by
          simp [skip_comment_loop, heof, hstar]
        have hv : skip_comment_loop (fuel + 1) p0 t σv =
            skip_comment_loop fuel p0
              (if is_newline
                (update_current_character_nocheck σo).current_character then
                .passed_to_next_line else t)
              (next_character (update_current_character_nocheck σv)) := by
          simp [skip_comment_loop, heof', hstar', hstar2, hccn]
        rw [ho, hv]
        have hrec := ih p0
          (if is_newline
            (update_current_character_nocheck σo).current_character then
            .passed_to_next_line else t)
          (next_character (update_current_character_nocheck σo))
          (next_character (update_current_character_nocheck σv))
          (V_next hn)
        refine ⟨hrec.1, hrec.2.1, ?_, ?_, ?_⟩
        · rw [hrec.2.2.1, next_character_src]
          rfl
        · rw [hrec.2.2.2.1, next_character_src]
          rfl
        · have h1 := next_character_bp_ge (update_current_character_nocheck σo)
          have h2 := hrec.2.2.2.2
          have h3 : (update_current_character_nocheck σo).buffer_position =
              σo.buffer_position := rfl
          omega

theorem V_comment (S : List Nat) (fuel : Nat) (σo σv : parser_state)
    (h : view_rel S σo σv) :
    view_rel S (skip_comment fuel σo).1 (skip_comment fuel σv).1 ∧
    (skip_comment fuel σv).2 = (skip_comment fuel σo).2 ∧
    (skip_comment fuel σo).1.source = σo.source ∧
    (skip_comment fuel σv).1.source = σv.source ∧
    σo.buffer_position ≤ (skip_comment fuel σo).1.buffer_position := by
  have hpk : peek_next_character σv = peek_next_character σo := V_peek h
  unfold skip_comment
  dsimp only
  rw [hpk, h.2.2.1]
  by_cases h42 : peek_next_character σo = 42
  · rw [if_pos h42, if_pos h42]
    have hrec := V_comment_loop S fuel σo.buffer_position .stayed_on_same_line
      (next_character (next_character σo)) (next_character (next_character σv))
      (V_next (V_next h))
    refine ⟨hrec.1, hrec.2.1, ?_, ?_, ?_⟩
    · rw [hrec.2.2.1, next_character_src, next_character_src]
    · rw [hrec.2.2.2.1, next_character_src, next_character_src]
    · have h1 := next_character_bp_ge σo
      have h2 := next_character_bp_ge (next_character σo)
      have h3 := hrec.2.2.2.2
      omega
  · rw [if_neg h42, if_neg h42]
    by_cases h47 : peek_next_character σo = 47
    · rw [if_pos h47, if_pos h47]
      have hs := V_skip_general S until_newline (V_until_newline S) fuel σo σv h
      exact ⟨hs.1, rfl, hs.2.2.1, hs.2.2.2.1, hs.2.2.2.2⟩
    · rw [if_neg h47, if_neg h47]
      exact ⟨h, rfl, rfl, rfl, Nat.le_refl _⟩

theorem V_swun (S : List Nat) (fuel : Nat) (σo σv : parser_state)
    (h : view_rel S σo σv) :
    view_rel S (skip_whitespace_until_newline fuel σo)
      (skip_whitespace_until_newline fuel σv) ∧
    (skip_whitespace_until_newline fuel σo).source = σo.source ∧
    (skip_whitespace_until_newline fuel σv).source = σv.source ∧
    σo.buffer_position ≤
      (skip_whitespace_until_newline fuel σo).buffer_position := by
  have hA := V_skip_general S whitespace (V_whitespace S) fuel σo σv h
  unfold skip_whitespace_until_newline
  dsimp only
  rw [hA.1.2.2.2.1, hA.1.2.2.1]
  by_cases hnl : (!is_newline
      (skip fuel whitespace σo).1.current_character) = true
  · rw [if_pos hnl, if_pos hnl]
    have hB := V_skip_general S until_newline (V_until_newline S) fuel
      (report_error (skip fuel whitespace σo).1 .require_newline
        (skip fuel whitespace σo).1.current_character
        (skip fuel whitespace σo).1.buffer_position)
      (report_error (skip fuel whitespace σv).1 .require_newline
        (skip fuel whitespace σo).1.current_character
        (skip fuel whitespace σo).1.buffer_position)
      (V_report hA.1 _ _ _)
    rw [V_eof hB.1]
    by_cases hef : (!eof_at (skip fuel until_newline
        (report_error (skip fuel whitespace σo).1 .require_newline
          (skip fuel whitespace σo).1.current_character
          (skip fuel whitespace σo).1.buffer_position)).1) = true
    · rw [if_pos hef, if_pos hef]
      refine ⟨V_update (V_next hB.1), ?_, ?_, ?_⟩
      · show (next_character (skip fuel until_newline
          (report_error (skip fuel whitespace σo).1 .require_newline
            (skip fuel whitespace σo).1.current_character
            (skip fuel whitespace σo).1.buffer_position)).1).source = σo.source
        rw [next_character_src, hB.2.2.1, (report_error_fields _ _ _ _).1,
          hA.2.2.1]
      · show (next_character (skip fuel until_newline
          (report_error (skip fuel whitespace σv).1 .require_newline
            (skip fuel whitespace σo).1.current_character
            (skip fuel whitespace σo).1.buffer_position)).1).source = σv.source
        rw [next_character_src, hB.2.2.2.1, (report_error_fields _ _ _ _).1,
          hA.2.2.2.1]
      · have h0 := hA.2.2.2.2
        have h1 : (report_error (skip fuel whitespace σo).1 .require_newline
            (skip fuel whitespace σo).1.current_character
            (skip fuel whitespace σo).1.buffer_position).buffer_position =
            (skip fuel whitespace σo).1.buffer_position :=
          (report_error_fields _ _ _ _).2.1
        have h2 := hB.2.2.2.2
        have h3 := next_character_bp_ge (skip fuel until_newline
          (report_error (skip fuel whitespace σo).1 .require_newline
            (skip fuel whitespace σo).1.current_character
            (skip fuel whitespace σo).1.buffer_position)).1
        have h4 : (update_current_character (next_character (skip fuel
            until_newline (report_error (skip fuel whitespace σo).1
              .require_newline
              (skip fuel whitespace σo).1.current_character
              (skip fuel whitespace σo).1.buffer_position)).1)).buffer_position =
            (next_character (skip fuel until_newline
              (report_error (skip fuel whitespace σo).1 .require_newline
                (skip fuel whitespace σo).1.current_character
                (skip fuel whitespace σo).1.buffer_position)).1).buffer_position :=
          rfl
        omega
    · rw [if_neg hef, if_neg hef]
      refine ⟨hB.1, ?_, ?_, ?_⟩
      · rw [hB.2.2.1, (report_error_fields _ _ _ _).1, hA.2.2.1]
      · rw [hB.2.2.2.1, (report_error_fields _ _ _ _).1, hA.2.2.2.1]
      · have h0 := hA.2.2.2.2
        have h1 : (report_error (skip fuel whitespace σo).1 .require_newline
            (skip fuel whitespace σo).1.current_character
            (skip fuel whitespace σo).1.buffer_position).buffer_position =
            (skip fuel whitespace σo).1.buffer_position :=
          (report_error_fields _ _ _ _).2.1
        have h2 := hB.2.2.2.2
        omega
  · rw [if_neg hnl, if_neg hnl]
    rw [V_eof hA.1]
    by_cases hef : (!eof_at (skip fuel whitespace σo).1) = true
    · rw [if_pos hef, if_pos hef]
      refine ⟨V_update (V_next hA.1), ?_, ?_, ?_⟩
      · show (next_character (skip fuel whitespace σo).1).source = σo.source
        rw [next_character_src, hA.2.2.1]
      · show (next_character (skip fuel whitespace σv).1).source = σv.source
        rw [next_character_src, hA.2.2.2.1]
      · have h0 := hA.2.2.2.2
        have h1 := next_character_bp_ge (skip fuel whitespace σo).1
        have h2 : (update_current_character (next_character
            (skip fuel whitespace σo).1)).buffer_position =
            (next_character (skip fuel whitespace σo).1).buffer_position := rfl
        omega
    · rw [if_neg hef, if_neg hef]
      exact ⟨hA.1, hA.2.2.1, hA.2.2.2.1, hA.2.2.2.2⟩

/-! ## Owned/view correspondence: value materialisation primitives -/

theorem make_data_view (buf : List Nat) (pos : Nat) :
    view_spec.make_data buf pos = (pos, 0) := rfl

theorem append_char_view (s : parser_state) (p l ch : Nat) :
    append_buffer_character view_spec s (p, l) ch =
      ({ s with source := s.source.set (p + l) ch }, (p, l + 1)) := rfl

theorem append_string_view (s : parser_state) (p l n : Nat) :
    append_buffer_string view_spec s (p, l) n =
      ({ s with source := if p = s.buffer_position - n then s.source
          else copy_forward s.source (p + l) (s.buffer_position - n) n },
        (p, l + n)) := rfl

theorem base64_convert_view (s : parser_state) (p l : Nat) :
    base64_convert view_spec s (p, l) =
      ({ s with
          source := list_overwrite s.source p
                      (convert_from_base64 ((s.source.drop p).take l)).1 },
        (p, (convert_from_base64 ((s.source.drop p).take l)).2)) := rfl

theorem take_getD (l : List Nat) (n k : Nat) (hk : k < n) (hl : k < l.length) :
    (l.take n).getD k 0 = l.getD k 0 := by
  have h1 : k < (l.take n).length := by
    simp only [List.length_take]
    omega
  rw [List.getD_eq_getElem?_getD, List.getElem?_eq_getElem h1,
    List.getD_eq_getElem?_getD, List.getElem?_eq_getElem hl]
  simp only [List.getElem_take, Option.getD_some]

theorem skip_bp_le_len (q : parser_state → Bool) :
    ∀ (fuel : Nat) (σ : parser_state), eof_at σ = false →
      (skip fuel q σ).1.buffer_position ≤ σ.source.length := by
  intro fuel
  induction fuel with
  | zero =>
    intro σ hne
    have hlt := eof_at_false_lt σ hne
    show σ.buffer_position ≤ σ.source.length
    omega
  | succ fuel ih =>
    intro σ hne
    have hlt := eof_at_false_lt σ hne
    cases hcase : q σ with
    | false =>
      have ho : skip (fuel + 1) q σ =
          (σ, if eof_at σ then parsing_position.eof
            else parsing_position.valid) := by
        simp [skip, hcase]
      rw [ho]
      show σ.buffer_position ≤ σ.source.length
      omega
    | true =>
      have hnb : (next_character σ).buffer_position ≤ σ.source.length := by
        rw [next_character_bp]
        by_cases hc : σ.current_character = 13 ∧ peek_next_character σ = 10
        · rw [if_pos hc]
          have hp := hc.2
          unfold peek_next_character at hp
          by_cases hne2 : next_eof_at σ = true
          · rw [if_pos hne2] at hp
            exact absurd hp (by decide)
          · have hne3 : ¬(σ.source.length ≤ σ.buffer_position + 1) := by
              unfold next_eof_at at hne2
              simpa using hne2
            omega
        · rw [if_neg hc]
          omega
      cases heof : eof_at (next_character σ) with
      | true =>
        have ho : skip (fuel + 1) q σ = (next_character σ, parsing_position.eof) := by
          simp [skip, hcase, heof]
        rw [ho]
        exact hnb
      | false =>
        have ho : skip (fuel + 1) q σ =
            skip fuel q (update_current_character_nocheck
              (next_character σ)) := by
          simp [skip, hcase, heof]
        rw [ho]
        have hrec := ih (update_current_character_nocheck (next_character σ))
          heof
        have he : (update_current_character_nocheck
            (next_character σ)).source = σ.source := next_character_src σ
        rw [he] at hrec
        exact hrec

theorem V_append_string (S : List Nat) (σo σv : parser_state) (p l n : Nat)
    (o : List Nat) (h : view_rel S σo σv)
    (hpln : p + l + n ≤ σo.buffer_position)
    (hble : σo.buffer_position ≤ S.length)
    (hag0 : agree_from σv.source S (σo.buffer_position - n))
    (hsl : (σv.source.drop p).take l = o) :
    view_rel S (append_buffer_string owned_spec σo o n).1
      (append_buffer_string view_spec σv (p, l) n).1 ∧
    (append_buffer_string owned_spec σo o n).1 = σo ∧
    (append_buffer_string view_spec σv (p, l) n).2 = (p, l + n) ∧
    (append_buffer_string view_spec σv (p, l) n).1.source.length =
      σv.source.length ∧
    agree_below (append_buffer_string view_spec σv (p, l) n).1.source
      σv.source (p + l) ∧
    (((append_buffer_string view_spec σv (p, l) n).1.source.drop p).take
      (l + n)) = (append_buffer_string owned_spec σo o n).2 := by
  obtain ⟨hsrc, hlen, hbp, hcc, hrl, hel, hag⟩ := h
  rw [append_string_owned, append_string_view, hbp, hsrc]
  by_cases hps : p = σo.buffer_position - n
  · rw [if_pos hps]
    have hl0 : l = 0 := by omega
    subst hl0
    have ho0 : o = [] := by
      rw [← hsl]
      simp
    subst ho0
    refine ⟨⟨hsrc, hlen, rfl, hcc, hrl, hel, hag⟩, rfl, rfl, rfl,
      agree_below_refl _ _, ?_⟩
    show (σv.source.drop p).take (0 + n) = [] ++ (S.drop (σo.buffer_position - n)).take n
    rw [Nat.zero_add, List.nil_append, hps]
    apply slice_eq_of_agree _ _ _ _ hlen
    intro i h1 h2
    exact hag0 i h1
  · rw [if_neg hps]
    have hd : p + l ≤ σo.buffer_position - n := by omega
    have hs' : (σo.buffer_position - n) + n ≤ σv.source.length := by
      rw [hlen]
      omega
    refine ⟨⟨hsrc, ?_, rfl, hcc, hrl, hel, ?_⟩, rfl, rfl, ?_, ?_, ?_⟩
    · show (copy_forward σv.source (p + l) (σo.buffer_position - n)
        n).length = S.length
      rw [copy_forward_length, hlen]
    · intro i hi
      have hi2 : σo.buffer_position ≤ i := hi
      show (copy_forward σv.source (p + l) (σo.buffer_position - n)
        n).getD i 0 = S.getD i 0
      rw [copy_forward_getD n σv.source (p + l) (σo.buffer_position - n) hd i,
        if_neg (by omega)]
      exact hag i hi2
    · show (copy_forward σv.source (p + l) (σo.buffer_position - n)
        n).length = σv.source.length
      rw [copy_forward_length]
    · exact copy_forward_agree_below σv.source (p + l)
        (σo.buffer_position - n) n hd
    · show ((copy_forward σv.source (p + l) (σo.buffer_position - n)
        n).drop p).take (l + n) = o ++ (S.drop (σo.buffer_position - n)).take n
      rw [copy_append σv.source p l (σo.buffer_position - n) n hd hs', hsl]
      congr 1
      apply slice_eq_of_agree _ _ _ _ hlen
      intro i h1 h2
      exact hag0 i h1

theorem V_escape (S : List Nat) (σo σv : parser_state) (p l : Nat)
    (o : List Nat) (h : view_rel S σo σv)
    (hlt : σo.buffer_position < S.length)
    (hpl : p + l ≤ σo.buffer_position)
    (hsl : (σv.source.drop p).take l = o) :
    view_rel S (read_escape_character owned_spec σo o).1
      (read_escape_character view_spec σv (p, l)).1 ∧
    σo.buffer_position ≤
      (read_escape_character owned_spec σo o).1.buffer_position ∧
    (read_escape_character view_spec σv (p, l)).1.source.length =
      σv.source.length ∧
    agree_below (read_escape_character view_spec σv (p, l)).1.source
      σv.source (p + l) ∧
    ∃ l2, (read_escape_character view_spec σv (p, l)).2 = (p, l2) ∧
      l ≤ l2 ∧
      p + l2 ≤ (read_escape_character owned_spec σo o).1.buffer_position ∧
      p + l2 ≤ S.length ∧
      (((read_escape_character view_spec σv (p, l)).1.source.drop p).take l2)
        = (read_escape_character owned_spec σo o).2 := by
  have h1 := V_update (V_next h)
  have hbp1 : σo.buffer_position + 1 ≤
      (update_current_character (next_character σo)).buffer_position := by
    have h2 := next_character_bp_ge σo
    have h3 : (update_current_character
        (next_character σo)).buffer_position =
        (next_character σo).buffer_position := rfl
    omega
  unfold read_escape_character
  dsimp only
  rw [h1.2.2.2.1]
  cases hE : escape_map
      (update_current_character (next_character σo)).current_character with
  | none =>
    simp only [hE]
    rw [h1.2.2.1]
    refine ⟨V_report h1 _ _ _, ?_, ?_, ?_,
      ⟨l, rfl, Nat.le_refl _, ?_, by omega, ?_⟩⟩
    · rw [(report_error_fields _ _ _ _).2.1]
      omega
    · rw [(report_error_fields _ _ _ _).1]
      show (next_character σv).source.length = σv.source.length
      rw [next_character_src]
    · rw [(report_error_fields _ _ _ _).1]
      show agree_below (next_character σv).source σv.source (p + l)
      rw [next_character_src]
      exact agree_below_refl _ _
    · rw [(report_error_fields _ _ _ _).2.1]
      omega
    · rw [(report_error_fields _ _ _ _).1]
      show ((next_character σv).source.drop p).take l = o
      rw [next_character_src]
      exact hsl
  | some ch =>
    simp only [hE]
    rw [append_char_owned, append_char_view]
    dsimp only
    have hsv : (update_current_character (next_character σv)).source =
        σv.source := next_character_src σv
    have hso : (update_current_character (next_character σo)).source =
        S := by
      show (next_character σo).source = S
      rw [next_character_src]
      exact h.1
    have hplen : p + l < σv.source.length := by
      rw [h.2.1]
      omega
    have hvrset : view_rel S (update_current_character (next_character σo))
        { (update_current_character (next_character σv)) with
          source := (update_current_character
            (next_character σv)).source.set (p + l) ch } := by
      obtain ⟨g1, g2, g3, g4, g5, g6, g7⟩ := h1
      refine ⟨g1, ?_, g3, g4, g5, g6, ?_⟩
      · show ((update_current_character
          (next_character σv)).source.set (p + l) ch).length = S.length
        rw [List.length_set]
        exact g2
      · intro i hi
        show ((update_current_character
          (next_character σv)).source.set (p + l) ch).getD i 0 = S.getD i 0
        rw [getD_set, if_neg (by omega)]
        exact g7 i hi
    have hx := V_update (V_next hvrset)
    refine ⟨hx, ?_, ?_, ?_, ⟨l + 1, rfl, by omega, ?_, by omega, ?_⟩⟩
    · have h4 := next_character_bp_ge
        (update_current_character (next_character σo))
      have h5 : (update_current_character (next_character
          (update_current_character (next_character σo)))).buffer_position =
          (next_character (update_current_character
            (next_character σo))).buffer_position := rfl
      omega
    · show (next_character { (update_current_character (next_character σv)) with
        source := (update_current_character
          (next_character σv)).source.set (p + l) ch }).source.length =
        σv.source.length
      rw [next_character_src]
      show ((update_current_character
        (next_character σv)).source.set (p + l) ch).length = σv.source.length
      rw [List.length_set, hsv]
    · show agree_below (next_character { (update_current_character
        (next_character σv)) with
        source := (update_current_character
          (next_character σv)).source.set (p + l) ch }).source σv.source (p + l)
      rw [next_character_src]
      show agree_below ((update_current_character
        (next_character σv)).source.set (p + l) ch) σv.source (p + l)
      rw [hsv]
      exact set_agree_below σv.source (p + l) ch
    · have h4 := next_character_bp_ge
        (update_current_character (next_character σo))
      have h5 : (update_current_character (next_character
          (update_current_character (next_character σo)))).buffer_position =
          (next_character (update_current_character
            (next_character σo))).buffer_position := rfl
      omega
    · show ((next_character { (update_current_character (next_character σv)) with
        source := (update_current_character
          (next_character σv)).source.set (p + l) ch }).source.drop p).take
          (l + 1) = o ++ [ch]
      rw [next_character_src]
      show (((update_current_character
        (next_character σv)).source.set (p + l) ch).drop p).take (l + 1) =
        o ++ [ch]
      rw [hsv, take_set_append σv.source p l ch hplen, hsl]

/-! ## Owned/view correspondence: identifier and codec contexts -/

theorem V_identifier_ctx (S : List Nat) (fuel : Nat) (σo σv : parser_state)
    (h : view_rel S σo σv) (hne : eof_at σo = false) :
    view_rel S (parse_data_identifier_context owned_spec fuel σo).1
      (parse_data_identifier_context view_spec fuel σv).1 ∧
    σo.buffer_position ≤
      (parse_data_identifier_context owned_spec fuel σo).1.buffer_position ∧
    (parse_data_identifier_context view_spec fuel σv).1.source.length =
      σv.source.length ∧
    agree_below (parse_data_identifier_context view_spec fuel σv).1.source
      σv.source σo.buffer_position ∧
    val_rel (parse_data_identifier_context view_spec fuel σv).1.source
      (parse_data_identifier_context owned_spec fuel σo).1.buffer_position
      (parse_data_identifier_context view_spec fuel σv).2
      (parse_data_identifier_context owned_spec fuel σo).2 := by
  have hr := V_read S identifier (V_identifier_pred S) fuel σo σv h
  have hn2 : (read fuel identifier σo).2 =
      (read fuel identifier σo).1.buffer_position - σo.buffer_position := rfl
  have hble : (read fuel identifier σo).1.buffer_position ≤ S.length := by
    have hs := skip_bp_le_len identifier fuel σo hne
    rw [h.1] at hs
    exact hs
  have hbpm : σo.buffer_position ≤ (read fuel identifier σo).1.buffer_position :=
    hr.2.2.2.2
  unfold parse_data_identifier_context
  dsimp only
  rw [make_data_owned, make_data_view, h.2.2.1, hr.2.1]
  have hag0 : agree_from (read fuel identifier σv).1.source S
      ((read fuel identifier σo).1.buffer_position -
        (read fuel identifier σo).2) := by
    rw [hr.2.2.2.1]
    have he : (read fuel identifier σo).1.buffer_position -
        (read fuel identifier σo).2 = σo.buffer_position := by omega
    rw [he]
    exact h.2.2.2.2.2.2
  have hsl : ((read fuel identifier σv).1.source.drop
      σo.buffer_position).take 0 = [] := by simp
  have hA := V_append_string S (read fuel identifier σo).1
    (read fuel identifier σv).1 σo.buffer_position 0
    (read fuel identifier σo).2 [] hr.1 (by omega) hble hag0 hsl
  refine ⟨hA.1, ?_, ?_, ?_, ?_, ?_⟩
  · rw [hA.2.1]
    exact hbpm
  · rw [hA.2.2.2.1, hr.2.2.2.1]
  · have hg := hA.2.2.2.2.1
    rw [hr.2.2.2.1] at hg
    exact agree_below_mono hg (by omega)
  · rw [hA.2.2.1, hA.2.1]
    show σo.buffer_position + (0 + (read fuel identifier σo).2) ≤
      (read fuel identifier σo).1.buffer_position
    omega
  · rw [hA.2.2.1]
    show (((append_buffer_string view_spec (read fuel identifier σv).1
      (σo.buffer_position, 0) (read fuel identifier σo).2).1.source.drop
        σo.buffer_position).take (0 + (read fuel identifier σo).2)) = _
    exact hA.2.2.2.2.2

theorem V_codec (S : List Nat) (fuel : Nat) (σo σv : parser_state)
    (h : view_rel S σo σv) :
    view_rel S (parse_data_block_codec_context fuel σo).1
      (parse_data_block_codec_context fuel σv).1 ∧
    (parse_data_block_codec_context fuel σv).2 =
      (parse_data_block_codec_context fuel σo).2 ∧
    (parse_data_block_codec_context fuel σo).1.source = σo.source ∧
    (parse_data_block_codec_context fuel σv).1.source = σv.source ∧
    σo.buffer_position ≤
      (parse_data_block_codec_context fuel σo).1.buffer_position := by
  have hr := V_read S identifier (V_identifier_pred S) fuel σo σv h
  have hn2 : (read fuel identifier σo).2 =
      (read fuel identifier σo).1.buffer_position - σo.buffer_position := rfl
  have hbpm : σo.buffer_position ≤ (read fuel identifier σo).1.buffer_position :=
    hr.2.2.2.2
  unfold parse_data_block_codec_context
  dsimp only
  rw [hr.2.1, hr.1.2.2.1, hr.2.2.2.1, hr.2.2.1, h.1]
  have hcod : ((σv.source.drop ((read fuel identifier σo).1.buffer_position -
      (read fuel identifier σo).2)).take (read fuel identifier σo).2) =
      ((S.drop ((read fuel identifier σo).1.buffer_position -
        (read fuel identifier σo).2)).take (read fuel identifier σo).2) := by
    apply slice_eq_of_agree _ _ _ _ h.2.1
    intro i h1 h2
    refine h.2.2.2.2.2.2 i ?_
    omega
  rw [hcod, h.2.2.1]
  by_cases hb64 : ((S.drop ((read fuel identifier σo).1.buffer_position -
      (read fuel identifier σo).2)).take (read fuel identifier σo).2) =
      base64_codec
  · rw [if_pos hb64, if_pos hb64]
    exact And.intro hr.1 (And.intro rfl (And.intro (hr.2.2.1.trans h.1)
      (And.intro hr.2.2.2.1 hbpm)))
  · rw [if_neg hb64, if_neg hb64]
    by_cases htxt : ((S.drop ((read fuel identifier σo).1.buffer_position -
        (read fuel identifier σo).2)).take (read fuel identifier σo).2) ≠
        text_codec
    · rw [if_pos htxt, if_pos htxt]
      refine And.intro (V_report hr.1 _ _ _) (And.intro rfl
        (And.intro ?_ (And.intro ?_ ?_)))
      · rw [(report_error_fields _ _ _ _).1, hr.2.2.1]
        exact h.1
      · rw [(report_error_fields _ _ _ _).1, hr.2.2.2.1]
      · rw [(report_error_fields _ _ _ _).2.1]
        exact hbpm
    · rw [if_neg htxt, if_neg htxt]
      exact And.intro hr.1 (And.intro rfl (And.intro (hr.2.2.1.trans h.1)
        (And.intro hr.2.2.2.1 hbpm)))

/-! ## Owned/view correspondence: string context -/

theorem string_text_false_92 (s : parser_state)
    (h : s.current_character = 92) : string_text s = false := by
  unfold string_text
  rw [h]
  simp

theorem parse_data_string_loop_view_succ (fuel : Nat) (s : parser_state)
    (p l p0 : Nat) :
    parse_data_string_loop view_spec (fuel + 1) s (p, l) p0 =
      if eof_at s then (report_error s .string_not_closed 0 p0, (p, l))
      else
        let r := read fuel string_text (update_current_character_nocheck s)
        let a := append_buffer_string view_spec r.1 (p, l) r.2
        if a.1.current_character = 34 then
          (update_current_character (next_character a.1), a.2)
        else if a.1.current_character = 92 then
          let e := read_escape_character view_spec a.1 a.2
          parse_data_string_loop view_spec fuel e.1 e.2 p0
        else (report_error a.1 .string_not_closed 0 p0, a.2) := by
  rw [parse_data_string_loop]

theorem V_string_loop (S : List Nat) :
    ∀ (fuel : Nat) (p0 : Nat) (σo σv : parser_state) (p l : Nat)
      (o : List Nat), view_rel S σo σv → p + l ≤ σo.buffer_position →
      (σv.source.drop p).take l = o →
      view_rel S (parse_data_string_loop owned_spec fuel σo o p0).1
        (parse_data_string_loop view_spec fuel σv (p, l) p0).1 ∧
      σo.buffer_position ≤
        (parse_data_string_loop owned_spec fuel σo o p0).1.buffer_position ∧
      (parse_data_string_loop view_spec fuel σv (p, l) p0).1.source.length =
        σv.source.length ∧
      agree_below
        (parse_data_string_loop view_spec fuel σv (p, l) p0).1.source
        σv.source (p + l) ∧
      ∃ l2, l ≤ l2 ∧
        (parse_data_string_loop view_spec fuel σv (p, l) p0).2 = (p, l2) ∧
        p + l2 ≤
          (parse_data_string_loop owned_spec fuel σo o p0).1.buffer_position ∧
        ((parse_data_string_loop view_spec fuel σv (p, l) p0).1.source.drop
          p).take l2 = (parse_data_string_loop owned_spec fuel σo o p0).2 := by
  intro fuel
  induction fuel with
  | zero =>
    intro p0 σo σv p l o h hpl hsl
    exact ⟨h, Nat.le_refl _, rfl, agree_below_refl _ _,
      ⟨l, Nat.le_refl _, rfl, hpl, hsl⟩⟩
  | succ fuel ih =>
    intro p0 σo σv p l o h hpl hsl
    cases heof : eof_at σo with
    | true =>
      have heof' : eof_at σv = true := by rw [V_eof h]; exact heof
      rw [parse_data_string_loop_succ, parse_data_string_loop_view_succ,
        if_pos heof, if_pos heof']
      refine ⟨V_report h _ _ _, ?_, ?_, ?_, ⟨l, Nat.le_refl _, rfl, ?_, ?_⟩⟩
      · rw [(report_error_fields _ _ _ _).2.1]
      · rw [(report_error_fields _ _ _ _).1]
      · rw [(report_error_fields _ _ _ _).1]
        exact agree_below_refl _ _
      · rw [(report_error_fields _ _ _ _).2.1]
        exact hpl
      · rw [(report_error_fields _ _ _ _).1]
        exact hsl
    | false =>
      have heof' : eof_at σv = false := by rw [V_eof h]; exact heof
      have hno : ¬(eof_at σo = true) := by
        rw [heof]; exact Bool.false_ne_true
      have hnv : ¬(eof_at σv = true) := by
        rw [heof']; exact Bool.false_ne_true
      rw [parse_data_string_loop_succ, parse_data_string_loop_view_succ,
        if_neg hno, if_neg hnv]
      dsimp only
      have h1 := V_nocheck h
      have hr := V_read S string_text (V_string_text S) fuel
        (update_current_character_nocheck σo)
        (update_current_character_nocheck σv) h1
      have hn2 : (read fuel string_text
          (update_current_character_nocheck σo)).2 =
          (read fuel string_text
            (update_current_character_nocheck σo)).1.buffer_position -
          σo.buffer_position := rfl
      have hbpr : σo.buffer_position ≤ (read fuel string_text
          (update_current_character_nocheck σo)).1.buffer_position :=
        hr.2.2.2.2
      have hble : (read fuel string_text
          (update_current_character_nocheck σo)).1.buffer_position ≤
          S.length := by
        have hs := skip_bp_le_len string_text fuel
          (update_current_character_nocheck σo) heof
        rw [show (update_current_character_nocheck σo).source = S
          from h.1] at hs
        exact hs
      rw [hr.2.1]
      have hag0 : agree_from (read fuel string_text
          (update_current_character_nocheck σv)).1.source S
          ((read fuel string_text
            (update_current_character_nocheck σo)).1.buffer_position -
           (read fuel string_text
            (update_current_character_nocheck σo)).2) := by
        rw [hr.2.2.2.1]
        have he : (read fuel string_text
            (update_current_character_nocheck σo)).1.buffer_position -
            (read fuel string_text
              (update_current_character_nocheck σo)).2 =
            σo.buffer_position := by omega
        rw [he]
        exact h.2.2.2.2.2.2
      have hsl2 : ((read fuel string_text
          (update_current_character_nocheck σv)).1.source.drop p).take l =
          o := by
        rw [hr.2.2.2.1]
        exact hsl
      have hA := V_append_string S
        (read fuel string_text (update_current_character_nocheck σo)).1
        (read fuel string_text (update_current_character_nocheck σv)).1
        p l (read fuel string_text (update_current_character_nocheck σo)).2
        o hr.1 (by omega) hble hag0 hsl2
      have hacc : (append_buffer_string view_spec
          (read fuel string_text (update_current_character_nocheck σv)).1
          (p, l)
          (read fuel string_text
            (update_current_character_nocheck σo)).2).1.current_character =
          (read fuel string_text
            (update_current_character_nocheck σo)).1.current_character :=
        hr.1.2.2.2.1
      have hAsl := hA.2.2.2.2.2
      rw [append_string_owned] at hAsl
      dsimp only at hAsl
      rw [hacc, hA.2.2.1]
      by_cases h34 : (read fuel string_text
          (update_current_character_nocheck σo)).1.current_character = 34
      · rw [if_pos h34, if_pos h34]
        dsimp only
        have h4 := next_character_bp_ge
          (read fuel string_text (update_current_character_nocheck σo)).1
        have h5 : (update_current_character (next_character
            (read fuel string_text
              (update_current_character_nocheck σo)).1)).buffer_position =
            (next_character (read fuel string_text
              (update_current_character_nocheck σo)).1).buffer_position := rfl
        refine ⟨V_update (V_next hA.1), by omega, ?_, ?_,
          ⟨l + (read fuel string_text
            (update_current_character_nocheck σo)).2, by omega, rfl,
            by omega, ?_⟩⟩
        · show (next_character (append_buffer_string view_spec
            (read fuel string_text (update_current_character_nocheck σv)).1
            (p, l) (read fuel string_text
              (update_current_character_nocheck σo)).2).1).source.length =
            σv.source.length
          rw [next_character_src, hA.2.2.2.1, hr.2.2.2.1]
          rfl
        · show agree_below (next_character (append_buffer_string view_spec
            (read fuel string_text (update_current_character_nocheck σv)).1
            (p, l) (read fuel string_text
              (update_current_character_nocheck σo)).2).1).source
            σv.source (p + l)
          rw [next_character_src]
          have hg := hA.2.2.2.2.1
          rw [hr.2.2.2.1] at hg
          exact hg
        · show ((next_character (append_buffer_string view_spec
            (read fuel string_text (update_current_character_nocheck σv)).1
            (p, l) (read fuel string_text
              (update_current_character_nocheck σo)).2).1).source.drop
            p).take (l + (read fuel string_text
              (update_current_character_nocheck σo)).2) = _
          rw [next_character_src]
          exact hAsl
      · rw [if_neg h34, if_neg h34]
        by_cases h92 : (read fuel string_text
            (update_current_character_nocheck σo)).1.current_character = 92
        · rw [if_pos h92, if_pos h92]
          have hlt : (read fuel string_text
              (update_current_character_nocheck σo)).1.buffer_position <
              S.length := by
            have hdis : eof_at (read fuel string_text
                (update_current_character_nocheck σo)).1 = false ∨
                string_text (read fuel string_text
                  (update_current_character_nocheck σo)).1 = true :=
              skip_exit_pred string_text
                (fun a b hab => by unfold string_text; rw [hab]) fuel
                (update_current_character_nocheck σo) heof
            cases hdis with
            | inl hl =>
              have hx := eof_at_false_lt _ hl
              rw [show (read fuel string_text
                (update_current_character_nocheck σo)).1.source = S
                from hr.2.2.1.trans h.1] at hx
              exact hx
            | inr hrt =>
              exfalso
              rw [string_text_false_92 _ h92] at hrt
              exact absurd hrt Bool.false_ne_true
          have hE := V_escape S
            (read fuel string_text (update_current_character_nocheck σo)).1
            (append_buffer_string view_spec
              (read fuel string_text
                (update_current_character_nocheck σv)).1 (p, l)
              (read fuel string_text
                (update_current_character_nocheck σo)).2).1
            p (l + (read fuel string_text
              (update_current_character_nocheck σo)).2) _
            hA.1 hlt (by omega) hAsl
          obtain ⟨l3, he1, he2, he3, he4, he5⟩ := hE.2.2.2.2
          rw [he1]
          have hrec := ih p0 _ _ p l3 _ hE.1 he3 he5
          obtain ⟨l4, hr1, hr2, hr3, hr4⟩ := hrec.2.2.2.2
          refine ⟨hrec.1, ?_, ?_, ?_, ⟨l4, by omega, hr2, hr3, hr4⟩⟩
          · have hx1 := hE.2.1
            have hx2 := hrec.2.1
            omega
          · rw [hrec.2.2.1, hE.2.2.1, hA.2.2.2.1, hr.2.2.2.1]
            rfl
          · have hg1 := hrec.2.2.2.1
            have hg2 := hE.2.2.2.1
            have hg3 := hA.2.2.2.2.1
            rw [hr.2.2.2.1] at hg3
            exact agree_below_trans
              (agree_below_mono hg1 (by omega))
              (agree_below_trans (agree_below_mono hg2 (by omega)) hg3)
        · rw [if_neg h92, if_neg h92]
          dsimp only
          refine ⟨V_report hA.1 _ _ _, ?_, ?_, ?_,
            ⟨l + (read fuel string_text
              (update_current_character_nocheck σo)).2, by omega, rfl,
              ?_, ?_⟩⟩
          · rw [(report_error_fields _ _ _ _).2.1]
            exact hbpr
          · rw [(report_error_fields _ _ _ _).1, hA.2.2.2.1, hr.2.2.2.1]
            rfl
          · rw [(report_error_fields _ _ _ _).1]
            have hg := hA.2.2.2.2.1
            rw [hr.2.2.2.1] at hg
            exact hg
          · rw [(report_error_fields _ _ _ _).2.1]
            omega
          · rw [(report_error_fields _ _ _ _).1]
            exact hAsl

theorem V_string_ctx (S : List Nat) (fuel : Nat) (σo σv : parser_state)
    (h : view_rel S σo σv) :
    view_rel S (parse_data_string_context owned_spec fuel σo).1
      (parse_data_string_context view_spec fuel σv).1 ∧
    σo.buffer_position ≤
      (parse_data_string_context owned_spec fuel σo).1.buffer_position ∧
    (parse_data_string_context view_spec fuel σv).1.source.length =
      σv.source.length ∧
    agree_below (parse_data_string_context view_spec fuel σv).1.source
      σv.source σo.buffer_position ∧
    val_rel (parse_data_string_context view_spec fuel σv).1.source
      (parse_data_string_context owned_spec fuel σo).1.buffer_position
      (parse_data_string_context view_spec fuel σv).2
      (parse_data_string_context owned_spec fuel σo).2 := by
  have hn := V_next h
  unfold parse_data_string_context
  dsimp only
  rw [make_data_owned, make_data_view, hn.2.2.1, h.2.2.1]
  have hsl0 : ((next_character σv).source.drop
      (next_character σo).buffer_position).take 0 = [] := by simp
  have hloop := V_string_loop S fuel σo.buffer_position (next_character σo)
    (next_character σv) (next_character σo).buffer_position 0 [] hn
    (by omega) hsl0
  obtain ⟨l2, hl1, hl2, hl3, hl4⟩ := hloop.2.2.2.2
  refine ⟨hloop.1, ?_, ?_, ?_, ?_⟩
  · have hx1 := next_character_bp_ge σo
    have hx2 := hloop.2.1
    omega
  · rw [hloop.2.2.1, next_character_src]
  · have hg := hloop.2.2.2.1
    rw [next_character_src] at hg
    exact agree_below_mono hg (by have := next_character_bp_ge σo; omega)
  · rw [hl2]
    exact ⟨hl3, hl4⟩

/-! ## Owned/view correspondence: block lines -/

theorem block_text_false_nl (s : parser_state)
    (h : is_newline s.current_character = true) : block_text s = false := by
  unfold block_text
  rw [h]
  rfl

theorem parse_block_line_view_succ (fuel : Nat) (s : parser_state)
    (p l : Nat) :
    parse_block_line view_spec (fuel + 1) s (p, l) =
      if eof_at s then (s, (p, l))
      else
        let r := read fuel block_text s
        let a := append_buffer_string view_spec r.1 (p, l) r.2
        if eof_at a.1 then (a.1, a.2)
        else if is_newline a.1.current_character then
          (update_current_character (next_character a.1), a.2)
        else if a.1.current_character = 92 then
          let e := read_escape_character view_spec a.1 a.2
          parse_block_line view_spec fuel e.1 e.2
        else (a.1, a.2) := by
  rw [parse_block_line]

theorem parse_block_line_bok_succ (fuel : Nat) (s : parser_state)
    (data : List Nat) :
    parse_block_line_bok (fuel + 1) s data =
      if eof_at s then true
      else
        let r := read fuel block_text s
        let data2 := data ++
          ((r.1.source.drop (r.1.buffer_position - r.2)).take r.2)
        if eof_at r.1 then true
        else if is_newline r.1.current_character then true
        else if r.1.current_character = 92 then
          let e := read_escape_character owned_spec r.1 data2
          parse_block_line_bok fuel e.1 e.2
        else false := by
  rw [parse_block_line_bok]
  simp only [append_string_owned]

theorem V_block_line (S : List Nat) :
    ∀ (fuel : Nat) (σo σv : parser_state) (p l : Nat) (o : List Nat),
      view_rel S σo σv → p + l ≤ σo.buffer_position →
      (σv.source.drop p).take l = o →
      view_rel S (parse_block_line owned_spec fuel σo o).1
        (parse_block_line view_spec fuel σv (p, l)).1 ∧
      σo.buffer_position ≤
        (parse_block_line owned_spec fuel σo o).1.buffer_position ∧
      (parse_block_line view_spec fuel σv (p, l)).1.source.length =
        σv.source.length ∧
      agree_below (parse_block_line view_spec fuel σv (p, l)).1.source
        σv.source (p + l) ∧
      ∃ l2, l ≤ l2 ∧
        (parse_block_line view_spec fuel σv (p, l)).2 = (p, l2) ∧
        p + l2 ≤ (parse_block_line owned_spec fuel σo o).1.buffer_position ∧
        ((parse_block_line view_spec fuel σv (p, l)).1.source.drop p).take l2
          = (parse_block_line owned_spec fuel σo o).2 ∧
        (parse_block_line_bok fuel σo o = true →
          eof_at (parse_block_line owned_spec fuel σo o).1 = true ∨
          p + l2 < (parse_block_line owned_spec fuel σo o).1.buffer_position) := by
  intro fuel
  induction fuel with
  | zero =>
    intro σo σv p l o h hpl hsl
    exact ⟨h, Nat.le_refl _, rfl, agree_below_refl _ _,
      ⟨l, Nat.le_refl _, rfl, hpl, hsl,
        fun hb => absurd hb Bool.false_ne_true⟩⟩
  | succ fuel ih =>
    intro σo σv p l o h hpl hsl
    cases heof : eof_at σo with
    | true =>
      have heof' : eof_at σv = true := by rw [V_eof h]; exact heof
      rw [parse_block_line_succ, parse_block_line_view_succ,
        if_pos heof, if_pos heof']
      refine ⟨h, Nat.le_refl _, rfl, agree_below_refl _ _,
        ⟨l, Nat.le_refl _, rfl, hpl, hsl, fun _ => Or.inl heof⟩⟩
    | false =>
      have heof' : eof_at σv = false := by rw [V_eof h]; exact heof
      have hno : ¬(eof_at σo = true) := by
        rw [heof]; exact Bool.false_ne_true
      have hnv : ¬(eof_at σv = true) := by
        rw [heof']; exact Bool.false_ne_true
      rw [parse_block_line_succ, parse_block_line_view_succ,
        if_neg hno, if_neg hnv]
      dsimp only
      have hr := V_read S block_text (V_block_text S) fuel σo σv h
      have hn2 : (read fuel block_text σo).2 =
          (read fuel block_text σo).1.buffer_position -
          σo.buffer_position := rfl
      have hbpr : σo.buffer_position ≤
          (read fuel block_text σo).1.buffer_position := hr.2.2.2.2
      have hble : (read fuel block_text σo).1.buffer_position ≤
          S.length := by
        have hs := skip_bp_le_len block_text fuel σo heof
        rw [show σo.source = S from h.1] at hs
        exact hs
      rw [hr.2.1]
      have hag0 : agree_from (read fuel block_text σv).1.source S
          ((read fuel block_text σo).1.buffer_position -
           (read fuel block_text σo).2) := by
        rw [hr.2.2.2.1]
        have he : (read fuel block_text σo).1.buffer_position -
            (read fuel block_text σo).2 = σo.buffer_position := by omega
        rw [he]
        exact h.2.2.2.2.2.2
      have hsl2 : ((read fuel block_text σv).1.source.drop p).take l = o := by
        rw [hr.2.2.2.1]
        exact hsl
      have hA := V_append_string S (read fuel block_text σo).1
        (read fuel block_text σv).1 p l (read fuel block_text σo).2
        o hr.1 (by omega) hble hag0 hsl2
      have hAsl := hA.2.2.2.2.2
      rw [append_string_owned] at hAsl
      dsimp only at hAsl
      have hef2 : eof_at (append_buffer_string view_spec
          (read fuel block_text σv).1 (p, l)
          (read fuel block_text σo).2).1 =
          eof_at (read fuel block_text σo).1 := V_eof hA.1
      have hacc : (append_buffer_string view_spec
          (read fuel block_text σv).1 (p, l)
          (read fuel block_text σo).2).1.current_character =
          (read fuel block_text σo).1.current_character := hr.1.2.2.2.1
      rw [hef2, hacc, hA.2.2.1]
      by_cases hef : eof_at (read fuel block_text σo).1 = true
      · rw [if_pos hef, if_pos hef]
        dsimp only
        refine ⟨hA.1, ?_, ?_, ?_,
          ⟨l + (read fuel block_text σo).2, by omega, rfl, ?_, hAsl, ?_⟩⟩
        · exact hbpr
        · rw [hA.2.2.2.1, hr.2.2.2.1]
        · have hg := hA.2.2.2.2.1
          rw [hr.2.2.2.1] at hg
          exact hg
        · omega
        · intro hb
          left
          exact hef
      · rw [if_neg hef, if_neg hef]
        have hef0 : eof_at (read fuel block_text σo).1 = false := by
          cases hx : eof_at (read fuel block_text σo).1 with
          | false => rfl
          | true => exact absurd hx hef
        have hltr : (read fuel block_text σo).1.buffer_position <
            S.length := by
          have hx := eof_at_false_lt _ hef0
          rw [show (read fuel block_text σo).1.source = S
            from hr.2.2.1.trans h.1] at hx
          exact hx
        by_cases hnl : is_newline
            (read fuel block_text σo).1.current_character = true
        · rw [if_pos hnl, if_pos hnl]
          dsimp only
          have h4 := next_character_bp_ge (read fuel block_text σo).1
          have h5 : (update_current_character (next_character
              (read fuel block_text σo).1)).buffer_position =
              (next_character
                (read fuel block_text σo).1).buffer_position := rfl
          refine ⟨V_update (V_next hA.1), by omega, ?_, ?_,
            ⟨l + (read fuel block_text σo).2, by omega, rfl, by omega, ?_,
              ?_⟩⟩
          · show (next_character (append_buffer_string view_spec
              (read fuel block_text σv).1 (p, l)
              (read fuel block_text σo).2).1).source.length =
              σv.source.length
            rw [next_character_src, hA.2.2.2.1, hr.2.2.2.1]
          · show agree_below (next_character (append_buffer_string view_spec
              (read fuel block_text σv).1 (p, l)
              (read fuel block_text σo).2).1).source σv.source (p + l)
            rw [next_character_src]
            have hg := hA.2.2.2.2.1
            rw [hr.2.2.2.1] at hg
            exact hg
          · show ((next_character (append_buffer_string view_spec
              (read fuel block_text σv).1 (p, l)
              (read fuel block_text σo).2).1).source.drop p).take
              (l + (read fuel block_text σo).2) = _
            rw [next_character_src]
            exact hAsl
          · intro hb
            right
            omega
        · have hnln : ¬(is_newline
              (read fuel block_text σo).1.current_character = true) := hnl
          rw [if_neg hnln, if_neg hnln]
          by_cases h92 : (read fuel block_text σo).1.current_character = 92
          · rw [if_pos h92, if_pos h92]
            have hE := V_escape S (read fuel block_text σo).1
              (append_buffer_string view_spec
                (read fuel block_text σv).1 (p, l)
                (read fuel block_text σo).2).1
              p (l + (read fuel block_text σo).2) _
              hA.1 hltr (by omega) hAsl
            obtain ⟨l3, he1, he2, he3, he4, he5⟩ := hE.2.2.2.2
            rw [he1]
            have hrec := ih _ _ p l3 _ hE.1 he3 he5
            obtain ⟨l4, hq1, hq2, hq3, hq4, hq5⟩ := hrec.2.2.2.2
            refine ⟨hrec.1, ?_, ?_, ?_, ⟨l4, by omega, hq2, hq3, hq4, ?_⟩⟩
            · have hx1 := hE.2.1
              have hx2 := hrec.2.1
              omega
            · rw [hrec.2.2.1, hE.2.2.1, hA.2.2.2.1, hr.2.2.2.1]
            · have hg1 := hrec.2.2.2.1
              have hg2 := hE.2.2.2.1
              have hg3 := hA.2.2.2.2.1
              rw [hr.2.2.2.1] at hg3
              exact agree_below_trans
                (agree_below_mono hg1 (by omega))
                (agree_below_trans (agree_below_mono hg2 (by omega)) hg3)
            · intro hb
              rw [parse_block_line_bok_succ, if_neg hno] at hb
              dsimp only at hb
              rw [if_neg hef, if_neg hnln, if_pos h92] at hb
              exact hq5 hb
          · have h92n : ¬((read fuel block_text σo).1.current_character =
                92) := h92
            rw [if_neg h92n, if_neg h92n]
            dsimp only
            refine ⟨hA.1, ?_, ?_, ?_,
              ⟨l + (read fuel block_text σo).2, by omega, rfl, ?_, hAsl,
                ?_⟩⟩
            · exact hbpr
            · rw [hA.2.2.2.1, hr.2.2.2.1]
            · have hg := hA.2.2.2.2.1
              rw [hr.2.2.2.1] at hg
              exact hg
            · omega
            · intro hb
              exfalso
              rw [parse_block_line_bok_succ, if_neg hno] at hb
              dsimp only at hb
              rw [if_neg hef, if_neg hnln, if_neg h92n] at hb
              exact absurd hb Bool.false_ne_true

/-! ## Owned/view correspondence: block body loop -/

theorem skip_preserves_eof (q : parser_state → Bool) :
    ∀ (fuel : Nat) (σ : parser_state), eof_at σ = true →
      eof_at (skip fuel q σ).1 = true := by
  intro fuel
  induction fuel with
  | zero =>
    intro σ hσ
    exact hσ
  | succ fuel ih =>
    intro σ hσ
    cases hcase : q σ with
    | false =>
      have ho : skip (fuel + 1) q σ =
          (σ, if eof_at σ then parsing_position.eof
            else parsing_position.valid) := by
        simp [skip, hcase]
      rw [ho]
      exact hσ
    | true =>
      have he1 : eof_at (next_character σ) = true := by
        unfold eof_at at hσ ⊢
        simp only [decide_eq_true_eq] at hσ ⊢
        have h1 := next_character_bp_ge σ
        have h2 : (next_character σ).source = σ.source := next_character_src σ
        rw [h2]
        omega
      have ho : skip (fuel + 1) q σ = (next_character σ,
          parsing_position.eof) := by
        simp [skip, hcase, he1]
      rw [ho]
      exact he1

theorem V_append_newline (S : List Nat) (σo σv : parser_state) (p l : Nat)
    (o : List Nat) (h : view_rel S σo σv)
    (hlt : p + l < σo.buffer_position)
    (hblen : σo.buffer_position ≤ S.length)
    (hsl : (σv.source.drop p).take l = o) :
    view_rel S σo (append_buffer_character view_spec σv (p, l) 10).1 ∧
    (append_buffer_character view_spec σv (p, l) 10).2 = (p, l + 1) ∧
    (append_buffer_character view_spec σv (p, l) 10).1.source.length =
      σv.source.length ∧
    agree_below (append_buffer_character view_spec σv (p, l) 10).1.source
      σv.source (p + l) ∧
    (((append_buffer_character view_spec σv (p, l) 10).1.source.drop p).take
      (l + 1)) = o ++ [10] := by
  obtain ⟨hsrc, hlen, hbp, hcc, hrl, hel, hag⟩ := h
  rw [append_char_view]
  have hpll : p + l < σv.source.length := by
    rw [hlen]
    omega
  refine ⟨⟨hsrc, ?_, hbp, hcc, hrl, hel, ?_⟩, rfl, ?_, ?_, ?_⟩
  · show (σv.source.set (p + l) 10).length = S.length
    rw [List.length_set]
    exact hlen
  · intro i hi
    show (σv.source.set (p + l) 10).getD i 0 = S.getD i 0
    rw [getD_set, if_neg (by omega)]
    exact hag i hi
  · show (σv.source.set (p + l) 10).length = σv.source.length
    rw [List.length_set]
  · exact set_agree_below σv.source (p + l) 10
  · show ((σv.source.set (p + l) 10).drop p).take (l + 1) = o ++ [10]
    rw [take_set_append σv.source p l 10 hpll, hsl]

theorem parse_data_block_body_loop_view_succ (fuel : Nat) (s : parser_state)
    (p l : Nat) (cd ccs : Nat) (first b64 : Bool) (sp : Nat) :
    parse_data_block_body_loop view_spec (fuel + 1) s (p, l) cd ccs first
        b64 sp =
      if eof_at s then (report_error s .block_not_closed 0 sp, (p, l))
      else if s.current_character = 125 ∧
          (s.buffer_position - ccs < cd ∨ first = true) then
        (update_current_character (next_character s), (p, l))
      else
        let s1 := if s.current_character = 125 then
            report_error s .bad_block_close 0 s.buffer_position
          else s
        let a := if first = false ∧ b64 = false then
            append_buffer_character view_spec s1 (p, l) 10
          else (s1, (p, l))
        let q := parse_block_line view_spec fuel a.1 a.2
        let r := skip fuel
          (fun st => decide (st.buffer_position <
            q.1.buffer_position + cd) &&
            is_whitespace st.current_character) q.1
        parse_data_block_body_loop view_spec fuel r.1 q.2 cd
          q.1.buffer_position false b64 sp := by
  rw [parse_data_block_body_loop]

theorem parse_data_block_body_loop_bok_succ (fuel : Nat) (s : parser_state)
    (data : List Nat) (cd ccs : Nat) (first b64 : Bool) (sp : Nat) :
    parse_data_block_body_loop_bok (fuel + 1) s data cd ccs first b64 sp =
      if eof_at s then true
      else if s.current_character = 125 ∧
          (s.buffer_position - ccs < cd ∨ first = true) then true
      else
        let s1 := if s.current_character = 125 then
            report_error s .bad_block_close 0 s.buffer_position
          else s
        let a := if first = false ∧ b64 = false then
            (s1, data ++ [10])
          else (s1, data)
        let q := parse_block_line owned_spec fuel a.1 a.2
        parse_block_line_bok fuel a.1 a.2 &&
          (let r := skip fuel
            (fun st => decide (st.buffer_position <
              q.1.buffer_position + cd) &&
              is_whitespace st.current_character) q.1
           parse_data_block_body_loop_bok fuel r.1 q.2 cd
             q.1.buffer_position false b64 sp) := by
  rw [parse_data_block_body_loop_bok]
  simp only [append_char_owned]

theorem V_block_body_loop (S : List Nat) :
    ∀ (fuel : Nat) (cd ccs : Nat) (b64 : Bool) (sp : Nat) (first : Bool)
      (σo σv : parser_state) (p l : Nat) (o : List Nat),
      view_rel S σo σv → p + l ≤ σo.buffer_position →
      (σv.source.drop p).take l = o →
      parse_data_block_body_loop_bok fuel σo o cd ccs first b64 sp = true →
      (first = false → eof_at σo = true ∨ p + l < σo.buffer_position) →
      view_rel S
        (parse_data_block_body_loop owned_spec fuel σo o cd ccs first
          b64 sp).1
        (parse_data_block_body_loop view_spec fuel σv (p, l) cd ccs first
          b64 sp).1 ∧
      σo.buffer_position ≤
        (parse_data_block_body_loop owned_spec fuel σo o cd ccs first
          b64 sp).1.buffer_position ∧
      (parse_data_block_body_loop view_spec fuel σv (p, l) cd ccs first
        b64 sp).1.source.length = σv.source.length ∧
      agree_below (parse_data_block_body_loop view_spec fuel σv (p, l) cd
        ccs first b64 sp).1.source σv.source (p + l) ∧
      ∃ l2, l ≤ l2 ∧
        (parse_data_block_body_loop view_spec fuel σv (p, l) cd ccs first
          b64 sp).2 = (p, l2) ∧
        p + l2 ≤ (parse_data_block_body_loop owned_spec fuel σo o cd ccs
          first b64 sp).1.buffer_position ∧
        ((parse_data_block_body_loop view_spec fuel σv (p, l) cd ccs first
          b64 sp).1.source.drop p).take l2 =
          (parse_data_block_body_loop owned_spec fuel σo o cd ccs first
            b64 sp).2 := by
  intro fuel
  induction fuel with
  | zero =>
    intro cd ccs b64 sp first σo σv p l o h hpl hsl hok hstrict
    exact ⟨h, Nat.le_refl _, rfl, agree_below_refl _ _,
      ⟨l, Nat.le_refl _, rfl, hpl, hsl⟩⟩
  | succ fuel ih =>
    intro cd ccs b64 sp first σo σv p l o h hpl hsl hok hstrict
    by_cases heof : eof_at σo = true
    · have heof' : eof_at σv = true := by rw [V_eof h]; exact heof
      rw [parse_data_block_body_loop_succ,
        parse_data_block_body_loop_view_succ, if_pos heof, if_pos heof']
      refine ⟨V_report h _ _ _, ?_, ?_, ?_, ⟨l, Nat.le_refl _, rfl, ?_, ?_⟩⟩
      · rw [(report_error_fields _ _ _ _).2.1]
      · rw [(report_error_fields _ _ _ _).1]
      · rw [(report_error_fields _ _ _ _).1]
        exact agree_below_refl _ _
      · rw [(report_error_fields _ _ _ _).2.1]
        exact hpl
      · rw [(report_error_fields _ _ _ _).1]
        exact hsl
    · have heof' : ¬(eof_at σv = true) := by rw [V_eof h]; exact heof
      have heof0 : eof_at σo = false := by
        cases hx : eof_at σo with
        | false => rfl
        | true => exact absurd hx heof
      have hbplen : σo.buffer_position < S.length := by
        have hx := eof_at_false_lt σo heof0
        rw [h.1] at hx
        exact hx
      rw [parse_data_block_body_loop_succ,
        parse_data_block_body_loop_view_succ, if_neg heof, if_neg heof',
        h.2.2.2.1, h.2.2.1]
      rw [parse_data_block_body_loop_bok_succ, if_neg heof] at hok
      by_cases hcl : σo.current_character = 125 ∧
          (σo.buffer_position - ccs < cd ∨ first = true)
      · rw [if_pos hcl, if_pos hcl]
        dsimp only
        have h4 := next_character_bp_ge σo
        have h5 : (update_current_character
            (next_character σo)).buffer_position =
            (next_character σo).buffer_position := rfl
        refine ⟨V_update (V_next h), by omega, ?_, ?_,
          ⟨l, Nat.le_refl _, rfl, by omega, ?_⟩⟩
        · show (next_character σv).source.length = σv.source.length
          rw [next_character_src]
        · show agree_below (next_character σv).source σv.source (p + l)
          rw [next_character_src]
          exact agree_below_refl _ _
        · show ((next_character σv).source.drop p).take l = o
          rw [next_character_src]
          exact hsl
      · rw [if_neg hcl, if_neg hcl]
        rw [if_neg hcl] at hok
        dsimp only
        dsimp only at hok
        rw [Bool.and_eq_true] at hok
        obtain ⟨hok1, hok2⟩ := hok
        -- facts about the (possibly) reported state
        have hVs1 : view_rel S
            (if σo.current_character = 125 then
              report_error σo .bad_block_close 0 σo.buffer_position else σo)
            (if σo.current_character = 125 then
              report_error σv .bad_block_close 0 σo.buffer_position
             else σv) := by
          by_cases h125 : σo.current_character = 125
          · rw [if_pos h125, if_pos h125]
            exact V_report h _ _ _
          · rw [if_neg h125, if_neg h125]
            exact h
        have hs1bp : (if σo.current_character = 125 then
            report_error σo .bad_block_close 0 σo.buffer_position
            else σo).buffer_position = σo.buffer_position := by
          by_cases h125 : σo.current_character = 125
          · rw [if_pos h125]
            exact (report_error_fields _ _ _ _).2.1
          · rw [if_neg h125]
        have hs1vsrc : (if σo.current_character = 125 then
            report_error σv .bad_block_close 0 σo.buffer_position
            else σv).source = σv.source := by
          by_cases h125 : σo.current_character = 125
          · rw [if_pos h125]
            exact (report_error_fields _ _ _ _).1
          · rw [if_neg h125]
        -- owned append step keeps the state
        have ha1o : (if first = false ∧ b64 = false then
            ((if σo.current_character = 125 then
              report_error σo .bad_block_close 0 σo.buffer_position
              else σo), o ++ [10])
            else ((if σo.current_character = 125 then
              report_error σo .bad_block_close 0 σo.buffer_position
              else σo), o)).1 =
            (if σo.current_character = 125 then
              report_error σo .bad_block_close 0 σo.buffer_position
              else σo) := by
          by_cases happ : first = false ∧ b64 = false
          · rw [if_pos happ]
          · rw [if_neg happ]
        have ha2o : (if first = false ∧ b64 = false then
            ((if σo.current_character = 125 then
              report_error σo .bad_block_close 0 σo.buffer_position
              else σo), o ++ [10])
            else ((if σo.current_character = 125 then
              report_error σo .bad_block_close 0 σo.buffer_position
              else σo), o)).2 =
            (if first = false ∧ b64 = false then o ++ [10] else o) := by
          by_cases happ : first = false ∧ b64 = false
          · rw [if_pos happ, if_pos happ]
          · rw [if_neg happ, if_neg happ]
        rw [ha1o, ha2o]
        rw [ha1o, ha2o] at hok1 hok2
        -- facts about the view-side append step
        have hva : view_rel S
            (if σo.current_character = 125 then
              report_error σo .bad_block_close 0 σo.buffer_position else σo)
            (if first = false ∧ b64 = false then
              append_buffer_character view_spec
                (if σo.current_character = 125 then
                  report_error σv .bad_block_close 0 σo.buffer_position
                 else σv) (p, l) 10
             else ((if σo.current_character = 125 then
                report_error σv .bad_block_close 0 σo.buffer_position
               else σv), (p, l))).1 ∧
            (if first = false ∧ b64 = false then
              append_buffer_character view_spec
                (if σo.current_character = 125 then
                  report_error σv .bad_block_close 0 σo.buffer_position
                 else σv) (p, l) 10
             else ((if σo.current_character = 125 then
                report_error σv .bad_block_close 0 σo.buffer_position
               else σv), (p, l))).1.source.length = σv.source.length ∧
            agree_below (if first = false ∧ b64 = false then
              append_buffer_character view_spec
                (if σo.current_character = 125 then
                  report_error σv .bad_block_close 0 σo.buffer_position
                 else σv) (p, l) 10
             else ((if σo.current_character = 125 then
                report_error σv .bad_block_close 0 σo.buffer_position
               else σv), (p, l))).1.source σv.source (p + l) ∧
            ∃ la, l ≤ la ∧ p + la ≤ σo.buffer_position ∧
              (if first = false ∧ b64 = false then
                append_buffer_character view_spec
                  (if σo.current_character = 125 then
                    report_error σv .bad_block_close 0 σo.buffer_position
                   else σv) (p, l) 10
               else ((if σo.current_character = 125 then
                  report_error σv .bad_block_close 0 σo.buffer_position
                 else σv), (p, l))).2 = (p, la) ∧
              ((if first = false ∧ b64 = false then
                append_buffer_character view_spec
                  (if σo.current_character = 125 then
                    report_error σv .bad_block_close 0 σo.buffer_position
                   else σv) (p, l) 10
               else ((if σo.current_character = 125 then
                  report_error σv .bad_block_close 0 σo.buffer_position
                 else σv), (p, l))).1.source.drop p).take la =
                (if first = false ∧ b64 = false then o ++ [10] else o) := by
          by_cases happ : first = false ∧ b64 = false
          · rw [if_pos happ, if_pos happ]
            have hstr : p + l < σo.buffer_position := by
              cases hstrict happ.1 with
              | inl hx => exact absurd hx heof
              | inr hx => exact hx
            have hN := V_append_newline S
              (if σo.current_character = 125 then
                report_error σo .bad_block_close 0 σo.buffer_position
                else σo)
              (if σo.current_character = 125 then
                report_error σv .bad_block_close 0 σo.buffer_position
                else σv) p l o hVs1
              (by rw [hs1bp]; exact hstr)
              (by rw [hs1bp]; omega)
              (by rw [hs1vsrc]; exact hsl)
            refine ⟨hN.1, ?_, ?_, ⟨l + 1, by omega, by omega, hN.2.1, ?_⟩⟩
            · rw [hN.2.2.1, hs1vsrc]
            · have hg := hN.2.2.2.1
              rw [hs1vsrc] at hg
              exact hg
            · exact hN.2.2.2.2
          · rw [if_neg happ, if_neg happ]
            refine ⟨hVs1, ?_, ?_, ⟨l, Nat.le_refl _, hpl, rfl, ?_⟩⟩
            · rw [hs1vsrc]
            · rw [hs1vsrc]
              exact agree_below_refl _ _
            · rw [hs1vsrc]
              exact hsl
        obtain ⟨hva1, hva2, hva3, la, hla1, hla2, hla3, hla4⟩ := hva
        rw [hla3]
        have hline := V_block_line S fuel
          (if σo.current_character = 125 then
            report_error σo .bad_block_close 0 σo.buffer_position else σo)
          _ p la _ hva1 (by rw [hs1bp]; exact hla2) hla4
        obtain ⟨l2, hl2a, hl2b, hl2c, hl2d, hl2e⟩ := hline.2.2.2.2
        rw [hl2b]
        have hqbp : (parse_block_line view_spec fuel
            (if first = false ∧ b64 = false then
              append_buffer_character view_spec
                (if σo.current_character = 125 then
                  report_error σv .bad_block_close 0 σo.buffer_position
                 else σv) (p, l) 10
             else ((if σo.current_character = 125 then
                report_error σv .bad_block_close 0 σo.buffer_position
               else σv), (p, l))).1 (p, la)).1.buffer_position =
            (parse_block_line owned_spec fuel
              (if σo.current_character = 125 then
                report_error σo .bad_block_close 0 σo.buffer_position
               else σo)
              (if first = false ∧ b64 = false then o ++ [10]
               else o)).1.buffer_position := hline.1.2.2.1
        rw [hqbp]
        have hskip := V_skip_general S
          (fun st => decide (st.buffer_position <
            (parse_block_line owned_spec fuel
              (if σo.current_character = 125 then
                report_error σo .bad_block_close 0 σo.buffer_position
               else σo)
              (if first = false ∧ b64 = false then o ++ [10]
               else o)).1.buffer_position + cd) &&
            is_whitespace st.current_character)
          (V_indent_pred S _) fuel _ _ hline.1
        have hstrict2 : eof_at (skip fuel
            (fun st => decide (st.buffer_position <
              (parse_block_line owned_spec fuel
                (if σo.current_character = 125 then
                  report_error σo .bad_block_close 0 σo.buffer_position
                 else σo)
                (if first = false ∧ b64 = false then o ++ [10]
                 else o)).1.buffer_position + cd) &&
              is_whitespace st.current_character)
            (parse_block_line owned_spec fuel
              (if σo.current_character = 125 then
                report_error σo .bad_block_close 0 σo.buffer_position
               else σo)
              (if first = false ∧ b64 = false then o ++ [10]
               else o)).1).1 = true ∨
            p + l2 < (skip fuel
              (fun st => decide (st.buffer_position <
                (parse_block_line owned_spec fuel
                  (if σo.current_character = 125 then
                    report_error σo .bad_block_close 0 σo.buffer_position
                   else σo)
                  (if first = false ∧ b64 = false then o ++ [10]
                   else o)).1.buffer_position + cd) &&
                is_whitespace st.current_character)
              (parse_block_line owned_spec fuel
                (if σo.current_character = 125 then
                  report_error σo .bad_block_close 0 σo.buffer_position
                 else σo)
                (if first = false ∧ b64 = false then o ++ [10]
                 else o)).1).1.buffer_position := by
          cases hl2e hok1 with
          | inl hx => exact Or.inl (skip_preserves_eof _ fuel _ hx)
          | inr hx =>
            right
            have hy := hskip.2.2.2.2
            omega
        have hrec := ih cd
          (parse_block_line owned_spec fuel
            (if σo.current_character = 125 then
              report_error σo .bad_block_close 0 σo.buffer_position
             else σo)
            (if first = false ∧ b64 = false then o ++ [10]
             else o)).1.buffer_position b64 sp false _ _ p l2 _ hskip.1
          (by have := hskip.2.2.2.2; omega)
          (by rw [hskip.2.2.2.1]; exact hl2d) hok2
          (fun _ => hstrict2)
        obtain ⟨l3, hr1, hr2, hr3, hr4⟩ := hrec.2.2.2.2
        refine ⟨hrec.1, ?_, ?_, ?_, ⟨l3, by omega, hr2, hr3, hr4⟩⟩
        · have hx1 := hline.2.1
          have hx2 := hskip.2.2.2.2
          have hx3 := hrec.2.1
          omega
        · rw [hrec.2.2.1, hskip.2.2.2.1, hline.2.2.1, hva2]
        · have hg1 := hrec.2.2.2.1
          rw [hskip.2.2.2.1] at hg1
          have hg2 := hline.2.2.2.1
          exact agree_below_trans (agree_below_mono hg1 (by omega))
            (agree_below_trans (agree_below_mono hg2 (by omega)) hva3)

/-! ## Owned/view correspondence: block context and base64 -/

theorem V_block_body_ctx (S : List Nat) (fuel : Nat) (σo σv : parser_state)
    (sp : Nat) (b64 : Bool) (h : view_rel S σo σv)
    (hok : parse_data_block_body_context_bok fuel σo sp b64 = true) :
    view_rel S (parse_data_block_body_context owned_spec fuel σo sp b64).1
      (parse_data_block_body_context view_spec fuel σv sp b64).1 ∧
    σo.buffer_position ≤
      (parse_data_block_body_context owned_spec fuel σo sp
        b64).1.buffer_position ∧
    (parse_data_block_body_context view_spec fuel σv sp
      b64).1.source.length = σv.source.length ∧
    agree_below (parse_data_block_body_context view_spec fuel σv sp
      b64).1.source σv.source σo.buffer_position ∧
    ∃ pb lb, (parse_data_block_body_context view_spec fuel σv sp b64).2 =
        (pb, lb) ∧ σo.buffer_position ≤ pb ∧
      pb + lb ≤ (parse_data_block_body_context owned_spec fuel σo sp
        b64).1.buffer_position ∧
      ((parse_data_block_body_context view_spec fuel σv sp
        b64).1.source.drop pb).take lb =
        (parse_data_block_body_context owned_spec fuel σo sp b64).2 := by
  have hs := V_skip_general S whitespace (V_whitespace S) fuel σo σv h
  unfold parse_data_block_body_context
  unfold parse_data_block_body_context_bok at hok
  dsimp only
  dsimp only at hok
  rw [make_data_owned, make_data_view, h.2.2.1, hs.1.2.2.1]
  have hsl0 : (((skip fuel whitespace σv).1.source.drop
      (skip fuel whitespace σo).1.buffer_position).take 0) = [] := by simp
  have hloop := V_block_body_loop S fuel
    ((skip fuel whitespace σo).1.buffer_position - σo.buffer_position)
    σo.buffer_position b64 sp true (skip fuel whitespace σo).1
    (skip fuel whitespace σv).1 (skip fuel whitespace σo).1.buffer_position
    0 [] hs.1 (by omega) hsl0 hok (fun hf => nomatch hf)
  obtain ⟨l2, hl1, hl2, hl3, hl4⟩ := hloop.2.2.2.2
  refine ⟨hloop.1, ?_, ?_, ?_,
    ⟨(skip fuel whitespace σo).1.buffer_position, l2, hl2, hs.2.2.2.2, hl3,
      hl4⟩⟩
  · have hx1 := hs.2.2.2.2
    have hx2 := hloop.2.1
    omega
  · rw [hloop.2.2.1, hs.2.2.2.1]
  · have hg := hloop.2.2.2.1
    rw [hs.2.2.2.1] at hg
    exact agree_below_mono hg (by have := hs.2.2.2.2; omega)

theorem b64_aligned_out_length_le : ∀ l : List Nat,
    (b64_aligned_out l).length ≤ l.length
  | [] => Nat.zero_le _
  | [_] => Nat.zero_le _
  | [_, _] => Nat.zero_le _
  | [_, _, _] => Nat.zero_le _
  | a :: b :: c :: d :: rest => by
    show (b64_block_out a b c d ++ b64_aligned_out rest).length ≤
      rest.length + 4
    rw [List.length_append]
    have hx := b64_aligned_out_length_le rest
    show 3 + (b64_aligned_out rest).length ≤ rest.length + 4
    omega

theorem convert_from_base64_length (inp : List Nat) :
    (convert_from_base64 inp).1.length = inp.length := by
  unfold convert_from_base64
  dsimp only
  rw [list_overwrite_length, list_overwrite_length]

theorem convert_from_base64_nil : convert_from_base64 [] = ([], 0) := rfl

theorem convert_from_base64_bound (inp : List Nat) :
    (convert_from_base64 inp).2 ≤ inp.length := by
  unfold convert_from_base64
  dsimp only
  have hal : (b64_aligned_out (inp.take (inp.length -
      inp.length % 4))).length ≤ inp.length - inp.length % 4 := by
    have hx := b64_aligned_out_length_le
      (inp.take (inp.length - inp.length % 4))
    rw [List.length_take] at hx
    omega
  by_cases h1 : (inp.length % 4 == 1) = true
  · rw [if_pos h1]
    simp only [beq_iff_eq] at h1
    split_ifs <;> simp only [List.length_nil] <;> omega
  · rw [if_neg h1]
    by_cases h2 : (inp.length % 4 == 2) = true
    · rw [if_pos h2]
      simp only [beq_iff_eq] at h2
      split_ifs <;> simp only [List.length_cons, List.length_nil] <;> omega
    · rw [if_neg h2]
      by_cases h3 : (inp.length % 4 == 3) = true
      · rw [if_pos h3]
        simp only [beq_iff_eq] at h3
        split_ifs <;> simp only [List.length_cons, List.length_nil] <;> omega
      · rw [if_neg h3]
        split_ifs <;> simp only [List.length_nil] <;> omega

theorem V_base64 (S : List Nat) (σo σv : parser_state) (p l2 : Nat)
    (o : List Nat) (h : view_rel S σo σv)
    (hb : p + l2 ≤ σo.buffer_position)
    (hsl : (σv.source.drop p).take l2 = o) :
    view_rel S (base64_convert owned_spec σo o).1
      (base64_convert view_spec σv (p, l2)).1 ∧
    (base64_convert owned_spec σo o).1 = σo ∧
    (base64_convert view_spec σv (p, l2)).1.source.length =
      σv.source.length ∧
    agree_below (base64_convert view_spec σv (p, l2)).1.source σv.source p ∧
    ∃ m2, (base64_convert view_spec σv (p, l2)).2 = (p, m2) ∧
      p + m2 ≤ σo.buffer_position ∧
      ((base64_convert view_spec σv (p, l2)).1.source.drop p).take m2 =
        (base64_convert owned_spec σo o).2 := by
  obtain ⟨hsrc, hlen, hbp, hcc, hrl, hel, hag⟩ := h
  rw [base64_convert_owned, base64_convert_view, hsl]
  dsimp only
  have hCl : (convert_from_base64 o).1.length = o.length :=
    convert_from_base64_length o
  have hCb : (convert_from_base64 o).2 ≤ o.length :=
    convert_from_base64_bound o
  have holen : o.length ≤ l2 := by
    rw [← hsl]
    simp [List.length_take]
  have holen2 : p + o.length ≤ σv.source.length ∨ o.length = 0 := by
    rw [← hsl]
    simp only [List.length_take, List.length_drop]
    omega
  have hres : owned_spec.resize_string (convert_from_base64 o).1
      (convert_from_base64 o).2 =
      (convert_from_base64 o).1.take (convert_from_base64 o).2 := by
    show (convert_from_base64 o).1.take (convert_from_base64 o).2 ++
      List.replicate ((convert_from_base64 o).2 -
        (convert_from_base64 o).1.length) 0 = _
    rw [show (convert_from_base64 o).2 -
      (convert_from_base64 o).1.length = 0 from by omega]
    simp
  refine ⟨⟨hsrc, ?_, hbp, hcc, hrl, hel, ?_⟩, rfl, ?_, ?_,
    ⟨(convert_from_base64 o).2, rfl, by omega, ?_⟩⟩
  · show (list_overwrite σv.source p (convert_from_base64 o).1).length =
      S.length
    rw [list_overwrite_length]
    exact hlen
  · intro i hi
    show (list_overwrite σv.source p
      (convert_from_base64 o).1).getD i 0 = S.getD i 0
    rw [list_overwrite_getD, if_neg (by omega)]
    exact hag i hi
  · show (list_overwrite σv.source p (convert_from_base64 o).1).length =
      σv.source.length
    rw [list_overwrite_length]
  · exact list_overwrite_agree_below σv.source p (convert_from_base64 o).1
  · rw [hres]
    by_cases hplen : p + o.length ≤ σv.source.length
    · apply slice_eq_list
      · rw [list_overwrite_length]
        omega
      · rw [List.length_take]
        omega
      · intro k hk
        rw [list_overwrite_getD, if_pos (by omega),
          show p + k - p = k from by omega,
          take_getD _ _ _ hk (by omega)]
    · have ho0 : o.length = 0 := by
        cases holen2 with
        | inl hx => exact absurd hx hplen
        | inr hx => exact hx
      have honil : o = [] := List.length_eq_zero.mp ho0
      subst honil
      rw [convert_from_base64_nil]
      simp [list_overwrite]

theorem V_block_ctx (S : List Nat) (fuel : Nat) (σo σv : parser_state)
    (h : view_rel S σo σv)
    (hok : parse_data_block_context_bok fuel σo = true) :
    view_rel S (parse_data_block_context owned_spec fuel σo).1
      (parse_data_block_context view_spec fuel σv).1 ∧
    σo.buffer_position ≤
      (parse_data_block_context owned_spec fuel σo).1.buffer_position ∧
    (parse_data_block_context view_spec fuel σv).1.source.length =
      σv.source.length ∧
    agree_below (parse_data_block_context view_spec fuel σv).1.source
      σv.source σo.buffer_position ∧
    val_rel (parse_data_block_context view_spec fuel σv).1.source
      (parse_data_block_context owned_spec fuel σo).1.buffer_position
      (parse_data_block_context view_spec fuel σv).2
      (parse_data_block_context owned_spec fuel σo).2 := by
  have h1 := V_update (V_next h)
  have hvsrc : (update_current_character (next_character σv)).source =
      σv.source := next_character_src σv
  have hbp1 : σo.buffer_position + 1 ≤
      (update_current_character (next_character σo)).buffer_position := by
    have h2 := next_character_bp_ge σo
    have h3 : (update_current_character
        (next_character σo)).buffer_position =
        (next_character σo).buffer_position := rfl
    omega
  have hs := V_skip_general S whitespace (V_whitespace S) fuel
    (update_current_character (next_character σo))
    (update_current_character (next_character σv)) h1
  unfold parse_data_block_context
  unfold parse_data_block_context_bok at hok
  dsimp only
  dsimp only at hok
  rw [h.2.2.1, hs.2.1]
  by_cases hef : (skip fuel whitespace
      (update_current_character (next_character σo))).2 =
      parsing_position.eof
  · rw [if_pos hef, if_pos hef]
    rw [make_data_owned, make_data_view, hs.1.2.2.1]
    refine ⟨V_report hs.1 _ _ _, ?_, ?_, ?_, ?_, ?_⟩
    · rw [(report_error_fields _ _ _ _).2.1]
      have := hs.2.2.2.2
      omega
    · rw [(report_error_fields _ _ _ _).1, hs.2.2.2.1, hvsrc]
    · rw [(report_error_fields _ _ _ _).1, hs.2.2.2.1, hvsrc]
      exact agree_below_refl _ _
    · show (skip fuel whitespace (update_current_character
        (next_character σo))).1.buffer_position + 0 ≤ _
      rw [(report_error_fields _ _ _ _).2.1]
      omega
    · simp
  · rw [if_neg hef, if_neg hef]
    rw [if_neg hef] at hok
    rw [hs.1.2.2.2.1]
    by_cases hid : is_identifier (skip fuel whitespace
        (update_current_character (next_character σo))).1.current_character =
        true
    · rw [if_pos hid, if_pos hid]
      rw [if_pos hid] at hok
      have hc := V_codec S fuel _ _ hs.1
      rw [hc.2.1]
      dsimp only
      have hsw := V_swun S fuel _ _ hc.1
      have hB := V_block_body_ctx S fuel _ _ σo.buffer_position
        (decide ((parse_data_block_codec_context fuel
          (skip fuel whitespace (update_current_character
            (next_character σo))).1).2 = block_codec_type.base64))
        hsw.1 hok
      obtain ⟨pb, lb, hb1, hb2, hb3, hb4⟩ := hB.2.2.2.2
      rw [hb1]
      have hbpc : σo.buffer_position ≤
          (parse_data_block_codec_context fuel (skip fuel whitespace
            (update_current_character
              (next_character σo))).1).1.buffer_position := by
        have hx1 := hs.2.2.2.2
        have hx2 := hc.2.2.2.2
        omega
      have hbpw : σo.buffer_position ≤
          (skip_whitespace_until_newline fuel
            (parse_data_block_codec_context fuel (skip fuel whitespace
              (update_current_character
                (next_character σo))).1).1).buffer_position := by
        have hx := hsw.2.2.2
        omega
      by_cases hb64 : decide ((parse_data_block_codec_context fuel
          (skip fuel whitespace (update_current_character
            (next_character σo))).1).2 = block_codec_type.base64) = true
      · rw [if_pos hb64, if_pos hb64]
        have hcv := V_base64 S _ _ pb lb _ hB.1
          (by omega) hb4
        obtain ⟨m2, hm1, hm2, hm3⟩ := hcv.2.2.2.2
        rw [hm1]
        refine ⟨hcv.1, ?_, ?_, ?_, ?_⟩
        · rw [hcv.2.1]
          have hx := hB.2.1
          omega
        · rw [hcv.2.2.1, hB.2.2.1, hsw.2.2.1,
            hc.2.2.2.1, hs.2.2.2.1, hvsrc]
        · have hg1 := hcv.2.2.2.1
          have hg2 := hB.2.2.2.1
          have hgv : (skip_whitespace_until_newline fuel
              (parse_data_block_codec_context fuel (skip fuel whitespace
                (update_current_character
                  (next_character σv))).1).1).source = σv.source := by
            rw [hsw.2.2.1, hc.2.2.2.1, hs.2.2.2.1]
            exact hvsrc
          rw [hgv] at hg2
          exact agree_below_trans (agree_below_mono hg1 (by omega))
            (agree_below_mono hg2 (by omega))
        · rw [hcv.2.1]
          exact ⟨hm2, hm3⟩
      · rw [if_neg hb64, if_neg hb64]
        refine ⟨hB.1, ?_, ?_, ?_, ?_⟩
        · have hx := hB.2.1
          omega
        · rw [hB.2.2.1, hsw.2.2.1, hc.2.2.2.1, hs.2.2.2.1, hvsrc]
        · have hg2 := hB.2.2.2.1
          have hgv : (skip_whitespace_until_newline fuel
              (parse_data_block_codec_context fuel (skip fuel whitespace
                (update_current_character
                  (next_character σv))).1).1).source = σv.source := by
            rw [hsw.2.2.1, hc.2.2.2.1, hs.2.2.2.1]
            exact hvsrc
          rw [hgv] at hg2
          exact agree_below_mono hg2 (by omega)
        · rw [hb1]
          exact ⟨hb3, hb4⟩
    · rw [if_neg hid, if_neg hid]
      rw [if_neg hid] at hok
      dsimp only
      simp only [Bool.false_eq_true, if_false]
      have hsw := V_swun S fuel _ _ hs.1
      have hB := V_block_body_ctx S fuel _ _ σo.buffer_position false
        hsw.1 hok
      obtain ⟨pb, lb, hb1, hb2, hb3, hb4⟩ := hB.2.2.2.2
      rw [hb1]
      have hbpw : σo.buffer_position ≤
          (skip_whitespace_until_newline fuel (skip fuel whitespace
            (update_current_character
              (next_character σo))).1).buffer_position := by
        have hx1 := hs.2.2.2.2
        have hx := hsw.2.2.2
        omega
      refine ⟨hB.1, ?_, ?_, ?_, ?_⟩
      · have hx := hB.2.1
        omega
      · rw [hB.2.2.1, hsw.2.2.1, hs.2.2.2.1, hvsrc]
      · have hg2 := hB.2.2.2.1
        have hgv : (skip_whitespace_until_newline fuel (skip fuel whitespace
            (update_current_character
              (next_character σv))).1).source = σv.source := by
          rw [hsw.2.2.1, hs.2.2.2.1]
          exact hvsrc
        rw [hgv] at hg2
        exact agree_below_mono hg2 (by omega)
      · exact ⟨hb3, hb4⟩

theorem skip_valid_not_eof (q : parser_state → Bool) :
    ∀ (fuel : Nat) (σ : parser_state),
      (skip fuel q σ).2 = parsing_position.valid →
      eof_at (skip fuel q σ).1 = false := by
  intro fuel
  induction fuel with
  | zero =>
    intro σ hv
    show eof_at σ = false
    by_cases he : eof_at σ = true
    · have hx : (skip 0 q σ).2 = parsing_position.eof := by
        show (if eof_at σ then parsing_position.eof
          else parsing_position.valid) = _
        rw [if_pos he]
      rw [hx] at hv
      exact absurd hv (by decide)
    · cases hx : eof_at σ with
      | false => rfl
      | true => exact absurd hx he
  | succ fuel ih =>
    intro σ hv
    rw [skip] at hv ⊢
    by_cases hp : q σ = true
    · rw [if_pos hp] at hv ⊢
      by_cases he : eof_at (next_character σ) = true
      · rw [if_pos he] at hv
        exact nomatch hv
      · have hne : ¬(eof_at (next_character σ) = true) := he
        rw [if_neg hne] at hv ⊢
        exact ih _ hv
    · have hnp : ¬(q σ = true) := hp
      rw [if_neg hnp] at hv ⊢
      dsimp only at hv ⊢
      by_cases he : eof_at σ = true
      · rw [if_pos he] at hv
        exact nomatch hv
      · cases hx : eof_at σ with
        | false => rfl
        | true => exact absurd hx he

theorem skip_comment_loop_ne :
    ∀ (fuel p0 : Nat) (t : comment_type) (σ : parser_state),
      t ≠ comment_type.not_a_comment →
      (skip_comment_loop fuel p0 t σ).2 ≠ comment_type.not_a_comment := by
  intro fuel
  induction fuel with
  | zero =>
    intro p0 t σ ht
    exact ht
  | succ fuel ih =>
    intro p0 t σ ht
    rw [skip_comment_loop]
    by_cases he : eof_at σ = true
    · rw [if_pos he]
      exact ht
    · have hne : ¬(eof_at σ = true) := he
      rw [if_neg hne]
      dsimp only
      by_cases hc : ((update_current_character_nocheck σ).current_character =
          42 ∧ peek_next_character (update_current_character_nocheck σ) = 47)
      · rw [if_pos hc]
        exact ht
      · rw [if_neg hc]
        apply ih
        by_cases hnl : is_newline
            (update_current_character_nocheck σ).current_character = true
        · rw [if_pos hnl]
          exact fun hx => nomatch hx
        · have hn2 : ¬(is_newline
              (update_current_character_nocheck σ).current_character =
              true) := hnl
          rw [if_neg hn2]
          exact ht

theorem skip_comment_nc (fuel : Nat) (s : parser_state)
    (h : (skip_comment fuel s).2 = comment_type.not_a_comment) :
    (skip_comment fuel s).1 = s := by
  unfold skip_comment at h ⊢
  dsimp only at h ⊢
  by_cases h42 : peek_next_character s = 42
  · rw [if_pos h42] at h
    exact absurd h (skip_comment_loop_ne fuel s.buffer_position
      comment_type.stayed_on_same_line _ (fun hx => nomatch hx))
  · rw [if_neg h42] at h ⊢
    by_cases h47 : peek_next_character s = 47
    · rw [if_pos h47] at h
      exact nomatch h
    · rw [if_neg h47]

theorem data_rel_append {B : List Nat} {M : Nat} (v : Nat × Nat)
    (o : List Nat) :
    ∀ {vs : List (Nat × Nat)} {os : List (List Nat)},
      data_rel B M vs os → val_rel B M v o →
      data_rel B M (vs ++ [v]) (os ++ [o])
  | [], [], _, hv => ⟨hv, trivial⟩
  | _ :: vs, _ :: os, h, hv => ⟨h.1, data_rel_append v o h.2 hv⟩

theorem kids_rel_append {B : List Nat} {M : Nat}
    (c : basic_document (Nat × Nat)) (d : document) :
    ∀ {cs : List (basic_document (Nat × Nat))} {ds : List document},
      kids_rel B M cs ds → doc_rel B M c d →
      kids_rel B M (cs ++ [c]) (ds ++ [d])
  | [], [], _, hc => ⟨hc, trivial⟩
  | _ :: cs, _ :: ds, h, hc => ⟨h.1, kids_rel_append c d h.2 hc⟩

theorem doc_rel_add_data {B : List Nat} {M : Nat}
    {nv : basic_document (Nat × Nat)} {no : document}
    (h : doc_rel B M nv no) {v : Nat × Nat} {o : List Nat}
    (hv : val_rel B M v o) :
    doc_rel B M (nv.add_data v) (no.add_data o) := by
  cases nv with
  | mk iv dvs cvs =>
    cases no with
    | mk io os cos =>
      exact ⟨h.1, data_rel_append v o h.2.1 hv, h.2.2⟩

theorem doc_rel_add_child {B : List Nat} {M : Nat}
    {nv : basic_document (Nat × Nat)} {no : document}
    (h : doc_rel B M nv no) {cv : basic_document (Nat × Nat)}
    {co : document} (hc : doc_rel B M cv co) :
    doc_rel B M (nv.add_child cv) (no.add_child co) := by
  cases nv with
  | mk iv dvs cvs =>
    cases no with
    | mk io os cos =>
      exact ⟨h.1, h.2.1, kids_rel_append cv co h.2.2 hc⟩

theorem V_single_data (S : List Nat) (fuel : Nat) (σo σv : parser_state)
    (t : parser_data_type) (h : view_rel S σo σv)
    (hne : eof_at σo = false)
    (hok : parse_single_data_bok fuel σo t = true) :
    view_rel S (parse_single_data owned_spec fuel σo t).1
      (parse_single_data view_spec fuel σv t).1 ∧
    σo.buffer_position ≤
      (parse_single_data owned_spec fuel σo t).1.buffer_position ∧
    (parse_single_data view_spec fuel σv t).1.source.length =
      σv.source.length ∧
    agree_below (parse_single_data view_spec fuel σv t).1.source
      σv.source σo.buffer_position ∧
    val_rel (parse_single_data view_spec fuel σv t).1.source
      (parse_single_data owned_spec fuel σo t).1.buffer_position
      (parse_single_data view_spec fuel σv t).2
      (parse_single_data owned_spec fuel σo t).2 := by
  cases t with
  | block => exact V_block_ctx S fuel σo σv h hok
  | string => exact V_string_ctx S fuel σo σv h
  | identifier => exact V_identifier_ctx S fuel σo σv h hne
  | not_a_data_type =>
    unfold parse_single_data
    dsimp only
    rw [h.2.2.2.1, h.2.2.1]
    have h2 := V_update (V_next (V_report h parser_error.illegal_character
      σo.current_character σo.buffer_position))
    have hbp : σo.buffer_position ≤ (update_current_character
        (next_character (report_error σo parser_error.illegal_character
          σo.current_character σo.buffer_position))).buffer_position := by
      have h3 := next_character_bp_ge (report_error σo
        parser_error.illegal_character σo.current_character
        σo.buffer_position)
      have h4 : (report_error σo parser_error.illegal_character
          σo.current_character σo.buffer_position).buffer_position =
          σo.buffer_position := (report_error_fields _ _ _ _).2.1
      have h5 : (update_current_character (next_character (report_error σo
          parser_error.illegal_character σo.current_character
          σo.buffer_position))).buffer_position =
          (next_character (report_error σo parser_error.illegal_character
            σo.current_character σo.buffer_position)).buffer_position := rfl
      omega
    have hvs : (update_current_character (next_character (report_error σv
        parser_error.illegal_character σo.current_character
        σo.buffer_position))).source = σv.source := by
      show (next_character (report_error σv parser_error.illegal_character
        σo.current_character σo.buffer_position)).source = σv.source
      rw [next_character_src, (report_error_fields _ _ _ _).1]
    refine ⟨h2, hbp, by rw [hvs], ?_, ?_, ?_⟩
    · rw [hvs]
      exact agree_below_refl _ _
    · rw [make_data_view]
      show (update_current_character (next_character (report_error σv
        parser_error.illegal_character σo.current_character
        σo.buffer_position))).buffer_position + 0 ≤ _
      rw [h2.2.2.1]
      omega
    · rfl

theorem V_data_ctx (S : List Nat) :
    ∀ (fuel : Nat) (σo σv : parser_state) (no : document)
      (nv : basic_document (Nat × Nat)), view_rel S σo σv →
      parse_node_data_context_bok fuel σo no = true →
      doc_rel σv.source σo.buffer_position nv no →
      view_rel S (parse_node_data_context owned_spec fuel σo no).1
        (parse_node_data_context view_spec fuel σv nv).1 ∧
      σo.buffer_position ≤
        (parse_node_data_context owned_spec fuel σo no).1.buffer_position ∧
      (parse_node_data_context view_spec fuel σv nv).1.source.length =
        σv.source.length ∧
      agree_below (parse_node_data_context view_spec fuel σv nv).1.source
        σv.source σo.buffer_position ∧
      doc_rel (parse_node_data_context view_spec fuel σv nv).1.source
        (parse_node_data_context owned_spec fuel σo no).1.buffer_position
        (parse_node_data_context view_spec fuel σv nv).2
        (parse_node_data_context owned_spec fuel σo no).2 := by
  intro fuel
  induction fuel with
  | zero =>
    intro σo σv no nv h hok hd
    exact ⟨h, Nat.le_refl _, rfl, agree_below_refl _ _, hd⟩
  | succ fuel ih =>
    intro σo σv no nv h hok hd
    rw [parse_node_data_context_bok] at hok
    rw [parse_node_data_context, parse_node_data_context]
    dsimp only
    dsimp only at hok
    have hsk := V_skip_general S whitespace (V_whitespace S) fuel σo σv h
    rw [hsk.2.1]
    by_cases hv : (skip fuel whitespace σo).2 ≠ parsing_position.valid
    · rw [if_pos hv, if_pos hv]
      dsimp only
      refine ⟨hsk.1, hsk.2.2.2.2, ?_, ?_, ?_⟩
      · rw [hsk.2.2.2.1]
      · rw [hsk.2.2.2.1]
        exact agree_below_refl _ _
      · rw [hsk.2.2.2.1]
        exact doc_rel_mono hsk.2.2.2.2 (agree_below_refl _ _) rfl hd
    · rw [if_neg hv, if_neg hv]
      rw [if_neg hv] at hok
      have hval : (skip fuel whitespace σo).2 = parsing_position.valid :=
        not_not.mp hv
      have hne0 : eof_at (skip fuel whitespace σo).1 = false :=
        skip_valid_not_eof whitespace fuel σo hval
      have hccs : (skip fuel whitespace σv).1.current_character =
          (skip fuel whitespace σo).1.current_character := hsk.1.2.2.2.1
      rw [hccs]
      have hcomb : view_rel S
          (if (skip fuel whitespace σo).1.current_character = 47
            then skip_comment fuel (skip fuel whitespace σo).1
            else ((skip fuel whitespace σo).1,
              comment_type.not_a_comment)).1
          (if (skip fuel whitespace σo).1.current_character = 47
            then skip_comment fuel (skip fuel whitespace σv).1
            else ((skip fuel whitespace σv).1,
              comment_type.not_a_comment)).1 ∧
          (if (skip fuel whitespace σo).1.current_character = 47
            then skip_comment fuel (skip fuel whitespace σv).1
            else ((skip fuel whitespace σv).1,
              comment_type.not_a_comment)).2 =
          (if (skip fuel whitespace σo).1.current_character = 47
            then skip_comment fuel (skip fuel whitespace σo).1
            else ((skip fuel whitespace σo).1,
              comment_type.not_a_comment)).2 ∧
          (if (skip fuel whitespace σo).1.current_character = 47
            then skip_comment fuel (skip fuel whitespace σo).1
            else ((skip fuel whitespace σo).1,
              comment_type.not_a_comment)).1.source =
            (skip fuel whitespace σo).1.source ∧
          (if (skip fuel whitespace σo).1.current_character = 47
            then skip_comment fuel (skip fuel whitespace σv).1
            else ((skip fuel whitespace σv).1,
              comment_type.not_a_comment)).1.source =
            (skip fuel whitespace σv).1.source ∧
          (skip fuel whitespace σo).1.buffer_position ≤
            (if (skip fuel whitespace σo).1.current_character = 47
              then skip_comment fuel (skip fuel whitespace σo).1
              else ((skip fuel whitespace σo).1,
                comment_type.not_a_comment)).1.buffer_position ∧
          ((if (skip fuel whitespace σo).1.current_character = 47
              then skip_comment fuel (skip fuel whitespace σo).1
              else ((skip fuel whitespace σo).1,
                comment_type.not_a_comment)).2 =
              comment_type.not_a_comment →
            (if (skip fuel whitespace σo).1.current_character = 47
              then skip_comment fuel (skip fuel whitespace σo).1
              else ((skip fuel whitespace σo).1,
                comment_type.not_a_comment)).1 =
              (skip fuel whitespace σo).1 ∧
            (if (skip fuel whitespace σo).1.current_character = 47
              then skip_comment fuel (skip fuel whitespace σv).1
              else ((skip fuel whitespace σv).1,
                comment_type.not_a_comment)).1 =
              (skip fuel whitespace σv).1) := by
        by_cases h47 : (skip fuel whitespace σo).1.current_character = 47
        · rw [if_pos h47, if_pos h47]
          have hcm := V_comment S fuel _ _ hsk.1
          refine ⟨hcm.1, hcm.2.1, hcm.2.2.1, hcm.2.2.2.1, hcm.2.2.2.2, ?_⟩
          intro hnc
          exact ⟨skip_comment_nc fuel _ hnc,
            skip_comment_nc fuel _ (by rw [hcm.2.1]; exact hnc)⟩
        · rw [if_neg h47, if_neg h47]
          exact ⟨hsk.1, rfl, rfl, rfl, Nat.le_refl _, fun _ => ⟨rfl, rfl⟩⟩
      generalize hgo : (if (skip fuel whitespace σo).1.current_character = 47
          then skip_comment fuel (skip fuel whitespace σo).1
          else ((skip fuel whitespace σo).1,
            comment_type.not_a_comment)) = co at hcomb hok ⊢
      generalize hgv : (if (skip fuel whitespace σo).1.current_character = 47
          then skip_comment fuel (skip fuel whitespace σv).1
          else ((skip fuel whitespace σv).1,
            comment_type.not_a_comment)) = cv at hcomb ⊢
      obtain ⟨hcoV, hcv2, hcoS, hcvS, hcoB, hcNC⟩ := hcomb
      rw [hcv2]
      cases hc2 : co.2 with
      | passed_to_next_line =>
        simp only [hc2, if_true] at hok ⊢
        refine ⟨hcoV, ?_, ?_, ?_, ?_⟩
        · have h1 := hsk.2.2.2.2
          omega
        · rw [hcvS, hsk.2.2.2.1]
        · rw [hcvS, hsk.2.2.2.1]
          exact agree_below_refl _ _
        · rw [hcvS, hsk.2.2.2.1]
          exact doc_rel_mono (by have h1 := hsk.2.2.2.2; omega)
            (agree_below_refl _ _) rfl hd
      | stayed_on_same_line =>
        simp only [hc2, if_true,
          if_neg (fun h => (nomatch h :
            (comment_type.stayed_on_same_line =
              comment_type.passed_to_next_line) → False) h)] at hok ⊢
        have hdm : doc_rel cv.1.source co.1.buffer_position nv no := by
          rw [hcvS, hsk.2.2.2.1]
          exact doc_rel_mono (by have h1 := hsk.2.2.2.2; omega)
            (agree_below_refl _ _) rfl hd
        have hrec := ih co.1 cv.1 no nv hcoV hok hdm
        refine ⟨hrec.1, ?_, ?_, ?_, hrec.2.2.2.2⟩
        · have h1 := hsk.2.2.2.2
          have h2 := hrec.2.1
          omega
        · rw [hrec.2.2.1, hcvS, hsk.2.2.2.1]
        · have hg := hrec.2.2.2.1
          rw [hcvS, hsk.2.2.2.1] at hg
          exact agree_below_mono hg (by have h1 := hsk.2.2.2.2; omega)
      | not_a_comment =>
        rw [(hcNC hc2).1] at hok
        rw [(hcNC hc2).1, (hcNC hc2).2]
        simp only [hc2,
          if_neg (fun h => (nomatch h :
            (comment_type.not_a_comment =
              comment_type.passed_to_next_line) → False) h),
          if_neg (fun h => (nomatch h :
            (comment_type.not_a_comment =
              comment_type.stayed_on_same_line) → False) h)] at hok ⊢
        rw [hccs]
        by_cases h59 : (skip fuel whitespace σo).1.current_character = 59
        · rw [if_pos h59, if_pos h59]
          dsimp only
          have hup := V_update (V_next hsk.1)
          have hbp2 : (skip fuel whitespace σo).1.buffer_position ≤
              (update_current_character (next_character
                (skip fuel whitespace σo).1)).buffer_position := by
            have h1 := next_character_bp_ge (skip fuel whitespace σo).1
            have h2 : (update_current_character (next_character
                (skip fuel whitespace σo).1)).buffer_position =
                (next_character
                  (skip fuel whitespace σo).1).buffer_position := rfl
            omega
          have hvs2 : (update_current_character (next_character
              (skip fuel whitespace σv).1)).source = σv.source := by
            show (next_character (skip fuel whitespace σv).1).source =
              σv.source
            rw [next_character_src, hsk.2.2.2.1]
          refine ⟨hup, ?_, ?_, ?_, ?_⟩
          · have h1 := hsk.2.2.2.2
            omega
          · rw [hvs2]
          · rw [hvs2]
            exact agree_below_refl _ _
          · rw [hvs2]
            exact doc_rel_mono (by have h1 := hsk.2.2.2.2; omega)
              (agree_below_refl _ _) rfl hd
        · rw [if_neg h59, if_neg h59]
          rw [if_neg h59] at hok
          by_cases h92 : (skip fuel whitespace σo).1.current_character = 92
          · rw [if_pos h92, if_pos h92]
            rw [if_pos h92] at hok
            have hup := V_update (V_next hsk.1)
            have hsw := V_swun S fuel _ _ hup
            have hbpc : σo.buffer_position ≤
                (skip_whitespace_until_newline fuel (update_current_character
                  (next_character
                    (skip fuel whitespace σo).1))).buffer_position := by
              have h1 := hsk.2.2.2.2
              have h2 := next_character_bp_ge (skip fuel whitespace σo).1
              have h2b : (update_current_character (next_character
                  (skip fuel whitespace σo).1)).buffer_position =
                  (next_character
                    (skip fuel whitespace σo).1).buffer_position := rfl
              have h3 := hsw.2.2.2
              omega
            have hsrcv : (skip_whitespace_until_newline fuel
                (update_current_character (next_character
                  (skip fuel whitespace σv).1))).source = σv.source := by
              rw [hsw.2.2.1]
              show (next_character (skip fuel whitespace σv).1).source =
                σv.source
              rw [next_character_src, hsk.2.2.2.1]
            have hdm : doc_rel (skip_whitespace_until_newline fuel
                (update_current_character (next_character
                  (skip fuel whitespace σv).1))).source
                (skip_whitespace_until_newline fuel (update_current_character
                  (next_character
                    (skip fuel whitespace σo).1))).buffer_position nv no := by
              rw [hsrcv]
              exact doc_rel_mono hbpc (agree_below_refl _ _) rfl hd
            have hrec := ih _ _ no nv hsw.1 hok hdm
            refine ⟨hrec.1, ?_, ?_, ?_, hrec.2.2.2.2⟩
            · have h2 := hrec.2.1
              omega
            · rw [hrec.2.2.1, hsrcv]
            · have hg := hrec.2.2.2.1
              rw [hsrcv] at hg
              exact agree_below_mono hg hbpc
          · rw [if_neg h92, if_neg h92]
            rw [if_neg h92] at hok
            by_cases hnl : is_newline
                (skip fuel whitespace σo).1.current_character = true
            · rw [if_pos hnl, if_pos hnl]
              dsimp only
              refine ⟨hsk.1, hsk.2.2.2.2, ?_, ?_, ?_⟩
              · rw [hsk.2.2.2.1]
              · rw [hsk.2.2.2.1]
                exact agree_below_refl _ _
              · rw [hsk.2.2.2.1]
                exact doc_rel_mono hsk.2.2.2.2 (agree_below_refl _ _) rfl hd
            · rw [if_neg hnl, if_neg hnl]
              rw [if_neg hnl] at hok
              by_cases hdt : detect_data_type
                  (skip fuel whitespace σo).1.current_character =
                  parser_data_type.not_a_data_type
              · rw [if_pos hdt, if_pos hdt]
                rw [if_pos hdt] at hok
                rw [show (skip fuel whitespace σv).1.buffer_position =
                  (skip fuel whitespace σo).1.buffer_position
                  from hsk.1.2.2.1]
                have hrep := V_update (V_next (V_report hsk.1
                  parser_error.illegal_character
                  (skip fuel whitespace σo).1.current_character
                  (skip fuel whitespace σo).1.buffer_position))
                have hbpc : σo.buffer_position ≤
                    (update_current_character (next_character (report_error
                      (skip fuel whitespace σo).1
                      parser_error.illegal_character
                      (skip fuel whitespace σo).1.current_character
                      (skip fuel whitespace σo).1.buffer_position
                      ))).buffer_position := by
                  have h1 := hsk.2.2.2.2
                  have h2 := next_character_bp_ge (report_error
                    (skip fuel whitespace σo).1
                    parser_error.illegal_character
                    (skip fuel whitespace σo).1.current_character
                    (skip fuel whitespace σo).1.buffer_position)
                  have h3 : (report_error (skip fuel whitespace σo).1
                      parser_error.illegal_character
                      (skip fuel whitespace σo).1.current_character
                      (skip fuel whitespace σo).1.buffer_position
                      ).buffer_position =
                      (skip fuel whitespace σo).1.buffer_position :=
                    (report_error_fields _ _ _ _).2.1
                  have h4 : (update_current_character (next_character
                      (report_error (skip fuel whitespace σo).1
                        parser_error.illegal_character
                        (skip fuel whitespace σo).1.current_character
                        (skip fuel whitespace σo).1.buffer_position
                        ))).buffer_position =
                      (next_character (report_error
                        (skip fuel whitespace σo).1
                        parser_error.illegal_character
                        (skip fuel whitespace σo).1.current_character
                        (skip fuel whitespace σo).1.buffer_position
                        )).buffer_position := rfl
                  omega
                have hsrcv : (update_current_character (next_character
                    (report_error (skip fuel whitespace σv).1
                      parser_error.illegal_character
                      (skip fuel whitespace σo).1.current_character
                      (skip fuel whitespace σo).1.buffer_position
                      ))).source = σv.source := by
                  show (next_character (report_error
                    (skip fuel whitespace σv).1
                    parser_error.illegal_character
                    (skip fuel whitespace σo).1.current_character
                    (skip fuel whitespace σo).1.buffer_position
                    )).source = σv.source
                  rw [next_character_src, (report_error_fields _ _ _ _).1,
                    hsk.2.2.2.1]
                have hdm : doc_rel (update_current_character (next_character
                    (report_error (skip fuel whitespace σv).1
                      parser_error.illegal_character
                      (skip fuel whitespace σo).1.current_character
                      (skip fuel whitespace σo).1.buffer_position))).source
                    (update_current_character (next_character (report_error
                      (skip fuel whitespace σo).1
                      parser_error.illegal_character
                      (skip fuel whitespace σo).1.current_character
                      (skip fuel whitespace σo).1.buffer_position
                      ))).buffer_position nv no := by
                  rw [hsrcv]
                  exact doc_rel_mono hbpc (agree_below_refl _ _) rfl hd
                have hrec := ih _ _ no nv hrep hok hdm
                refine ⟨hrec.1, ?_, ?_, ?_, hrec.2.2.2.2⟩
                · have h2 := hrec.2.1
                  omega
                · rw [hrec.2.2.1, hsrcv]
                · have hg := hrec.2.2.2.1
                  rw [hsrcv] at hg
                  exact agree_below_mono hg hbpc
              · rw [if_neg hdt, if_neg hdt]
                rw [if_neg hdt, Bool.and_eq_true] at hok
                have hsd := V_single_data S fuel (skip fuel whitespace σo).1
                  (skip fuel whitespace σv).1
                  (detect_data_type
                    (skip fuel whitespace σo).1.current_character)
                  hsk.1 hne0 hok.1
                have hvr := hsd.2.2.2.2
                have hagd : agree_below (parse_single_data view_spec fuel
                    (skip fuel whitespace σv).1
                    (detect_data_type
                      (skip fuel whitespace σo).1.current_character)).1.source
                    σv.source σo.buffer_position := by
                  have hg := hsd.2.2.2.1
                  rw [hsk.2.2.2.1] at hg
                  exact agree_below_mono hg (by have h1 := hsk.2.2.2.2; omega)
                have hlend : (parse_single_data view_spec fuel
                    (skip fuel whitespace σv).1
                    (detect_data_type
                      (skip fuel whitespace σo).1.current_character
                      )).1.source.length = σv.source.length := by
                  rw [hsd.2.2.1, hsk.2.2.2.1]
                have hdm : doc_rel (parse_single_data view_spec fuel
                    (skip fuel whitespace σv).1
                    (detect_data_type
                      (skip fuel whitespace σo).1.current_character)).1.source
                    (parse_single_data owned_spec fuel
                      (skip fuel whitespace σo).1
                      (detect_data_type
                        (skip fuel whitespace σo).1.current_character
                        )).1.buffer_position
                    (nv.add_data (parse_single_data view_spec fuel
                      (skip fuel whitespace σv).1
                      (detect_data_type
                        (skip fuel whitespace σo).1.current_character)).2)
                    (no.add_data (parse_single_data owned_spec fuel
                      (skip fuel whitespace σo).1
                      (detect_data_type
                        (skip fuel whitespace σo).1.current_character)).2) :=
                  doc_rel_add_data
                    (doc_rel_mono (by
                        have h1 := hsk.2.2.2.2
                        have h2 := hsd.2.1
                        omega)
                      hagd hlend hd) hvr
                have hrec := ih _ _ _ _ hsd.1 hok.2 hdm
                refine ⟨hrec.1, ?_, ?_, ?_, hrec.2.2.2.2⟩
                · have h1 := hsk.2.2.2.2
                  have h2 := hsd.2.1
                  have h3 := hrec.2.1
                  omega
                · rw [hrec.2.2.1, hlend]
                · have hg := hrec.2.2.2.1
                  exact agree_below_trans
                    (agree_below_mono hg (by
                      have h1 := hsk.2.2.2.2
                      have h2 := hsd.2.1
                      omega)) hagd

theorem V_header_ctx (S : List Nat) (fuel : Nat) (σo σv : parser_state)
    (t : parser_data_type) (h : view_rel S σo σv) (hne : eof_at σo = false)
    (hok : parse_node_header_context_bok fuel σo t = true) :
    view_rel S (parse_node_header_context owned_spec fuel σo t).1
      (parse_node_header_context view_spec fuel σv t).1 ∧
    σo.buffer_position ≤
      (parse_node_header_context owned_spec fuel σo t).1.buffer_position ∧
    (parse_node_header_context view_spec fuel σv t).1.source.length =
      σv.source.length ∧
    agree_below (parse_node_header_context view_spec fuel σv t).1.source
      σv.source σo.buffer_position ∧
    doc_rel (parse_node_header_context view_spec fuel σv t).1.source
      (parse_node_header_context owned_spec fuel σo t).1.buffer_position
      (parse_node_header_context view_spec fuel σv t).2
      (parse_node_header_context owned_spec fuel σo t).2 := by
  unfold parse_node_header_context_bok at hok
  dsimp only at hok
  rw [Bool.and_eq_true] at hok
  unfold parse_node_header_context
  dsimp only
  have hsd := V_single_data S fuel σo σv t h hne hok.1
  have hdm : doc_rel (parse_single_data view_spec fuel σv t).1.source
      (parse_single_data owned_spec fuel σo t).1.buffer_position
      (basic_document.mk (parse_single_data view_spec fuel σv t).2 [] [])
      (basic_document.mk (parse_single_data owned_spec fuel σo t).2
        [] []) :=
    ⟨hsd.2.2.2.2, trivial, trivial⟩
  have hrec := V_data_ctx S fuel (parse_single_data owned_spec fuel σo t).1
    (parse_single_data view_spec fuel σv t).1
    (basic_document.mk (parse_single_data owned_spec fuel σo t).2 [] [])
    (basic_document.mk (parse_single_data view_spec fuel σv t).2 [] [])
    hsd.1 hok.2 hdm
  refine ⟨hrec.1, ?_, ?_, ?_, hrec.2.2.2.2⟩
  · have h1 := hsd.2.1
    have h2 := hrec.2.1
    omega
  · rw [hrec.2.2.1, hsd.2.2.1]
  · exact agree_below_trans (agree_below_mono hrec.2.2.2.1 hsd.2.1)
      hsd.2.2.2.1

theorem V_body_mutual (S : List Nat) :
    ∀ fuel : Nat,
      (∀ (σo σv : parser_state) (no : document)
          (nv : basic_document (Nat × Nat)) (curr sp : Nat),
        view_rel S σo σv →
        parse_node_body_context_bok fuel σo no curr sp = true →
        doc_rel σv.source σo.buffer_position nv no →
        view_rel S
          (parse_node_body_context owned_spec fuel σo no curr sp).1
          (parse_node_body_context view_spec fuel σv nv curr sp).1 ∧
        σo.buffer_position ≤ (parse_node_body_context owned_spec fuel σo no
          curr sp).1.buffer_position ∧
        (parse_node_body_context view_spec fuel σv nv curr
          sp).1.source.length = σv.source.length ∧
        agree_below (parse_node_body_context view_spec fuel σv nv curr
          sp).1.source σv.source σo.buffer_position ∧
        doc_rel (parse_node_body_context view_spec fuel σv nv curr
            sp).1.source
          (parse_node_body_context owned_spec fuel σo no curr
            sp).1.buffer_position
          (parse_node_body_context view_spec fuel σv nv curr sp).2
          (parse_node_body_context owned_spec fuel σo no curr sp).2) ∧
      (∀ (σo σv : parser_state) (no : document)
          (nv : basic_document (Nat × Nat)) (curr sp : Nat),
        view_rel S σo σv → eof_at σo = false →
        parse_node_body_item_bok fuel σo no curr sp = true →
        doc_rel σv.source σo.buffer_position nv no →
        view_rel S (parse_node_body_item owned_spec fuel σo no curr sp).1
          (parse_node_body_item view_spec fuel σv nv curr sp).1 ∧
        σo.buffer_position ≤ (parse_node_body_item owned_spec fuel σo no
          curr sp).1.buffer_position ∧
        (parse_node_body_item view_spec fuel σv nv curr
          sp).1.source.length = σv.source.length ∧
        agree_below (parse_node_body_item view_spec fuel σv nv curr
          sp).1.source σv.source σo.buffer_position ∧
        (parse_node_body_item view_spec fuel σv nv curr sp).2.2 =
          (parse_node_body_item owned_spec fuel σo no curr sp).2.2 ∧
        doc_rel (parse_node_body_item view_spec fuel σv nv curr
            sp).1.source
          (parse_node_body_item owned_spec fuel σo no curr
            sp).1.buffer_position
          (parse_node_body_item view_spec fuel σv nv curr sp).2.1
          (parse_node_body_item owned_spec fuel σo no curr sp).2.1) ∧
      (∀ (σo σv : parser_state) (no : document)
          (nv : basic_document (Nat × Nat)) (curr nsp : Nat)
          (nested : Bool),
        view_rel S σo σv → eof_at σo = false →
        parse_node_body_header_bok fuel σo no curr nsp nested = true →
        doc_rel σv.source σo.buffer_position nv no →
        view_rel S
          (parse_node_body_header owned_spec fuel σo no curr nsp nested).1
          (parse_node_body_header view_spec fuel σv nv curr nsp
            nested).1 ∧
        σo.buffer_position ≤ (parse_node_body_header owned_spec fuel σo no
          curr nsp nested).1.buffer_position ∧
        (parse_node_body_header view_spec fuel σv nv curr nsp
          nested).1.source.length = σv.source.length ∧
        agree_below (parse_node_body_header view_spec fuel σv nv curr nsp
          nested).1.source σv.source σo.buffer_position ∧
        (parse_node_body_header view_spec fuel σv nv curr nsp
            nested).2.2 =
          (parse_node_body_header owned_spec fuel σo no curr nsp
            nested).2.2 ∧
        doc_rel (parse_node_body_header view_spec fuel σv nv curr nsp
            nested).1.source
          (parse_node_body_header owned_spec fuel σo no curr nsp
            nested).1.buffer_position
          (parse_node_body_header view_spec fuel σv nv curr nsp
            nested).2.1
          (parse_node_body_header owned_spec fuel σo no curr nsp
            nested).2.1) := by
  intro fuel
  induction fuel with
  | zero =>
    exact ⟨fun σo σv no nv curr sp h _ hd =>
        ⟨h, Nat.le_refl _, rfl, agree_below_refl _ _, hd⟩,
      fun σo σv no nv curr sp h _ _ hd =>
        ⟨h, Nat.le_refl _, rfl, agree_below_refl _ _, rfl, hd⟩,
      fun σo σv no nv curr nsp nested h _ _ hd =>
        ⟨h, Nat.le_refl _, rfl, agree_below_refl _ _, rfl, hd⟩⟩
  | succ fuel ih =>
    obtain ⟨ihb, ihi, ihh⟩ := ih
    refine ⟨fun σo σv no nv curr sp h hok hd => ?_,
      fun σo σv no nv curr sp h hne hok hd => ?_,
      fun σo σv no nv curr nsp nested h hne hok hd => ?_⟩
    · rw [parse_node_body_context_bok] at hok
      rw [parse_node_body_context, parse_node_body_context]
      dsimp only
      dsimp only at hok
      have hsk := V_skip_general S whitespace_and_newlines
        (V_whitespace_and_newlines S) fuel σo σv h
      rw [hsk.2.1]
      by_cases hv : (skip fuel whitespace_and_newlines σo).2 ≠
          parsing_position.valid
      · rw [if_pos hv, if_pos hv]
        dsimp only
        by_cases hr0 : 0 < curr
        · rw [if_pos hr0, if_pos hr0]
          have hrep := V_report hsk.1 parser_error.node_not_closed 0 sp
          refine ⟨hrep, ?_, ?_, ?_, ?_⟩
          · rw [(report_error_fields _ _ _ _).2.1]
            exact hsk.2.2.2.2
          · rw [(report_error_fields _ _ _ _).1, hsk.2.2.2.1]
          · rw [(report_error_fields _ _ _ _).1, hsk.2.2.2.1]
            exact agree_below_refl _ _
          · rw [(report_error_fields _ _ _ _).1, hsk.2.2.2.1,
              (report_error_fields _ _ _ _).2.1]
            exact doc_rel_mono hsk.2.2.2.2 (agree_below_refl _ _) rfl hd
        · rw [if_neg hr0, if_neg hr0]
          refine ⟨hsk.1, hsk.2.2.2.2, ?_, ?_, ?_⟩
          · rw [hsk.2.2.2.1]
          · rw [hsk.2.2.2.1]
            exact agree_below_refl _ _
          · rw [hsk.2.2.2.1]
            exact doc_rel_mono hsk.2.2.2.2 (agree_below_refl _ _) rfl hd
      · rw [if_neg hv, if_neg hv]
        rw [if_neg hv] at hok
        have hval : (skip fuel whitespace_and_newlines σo).2 =
            parsing_position.valid := not_not.mp hv
        have hne1 : eof_at (skip fuel whitespace_and_newlines σo).1 =
            false := skip_valid_not_eof whitespace_and_newlines fuel σo hval
        have hccs : (skip fuel whitespace_and_newlines σv).1.current_character =
            (skip fuel whitespace_and_newlines σo).1.current_character :=
          hsk.1.2.2.2.1
        rw [hccs]
        have hcomb : view_rel S
            (if (skip fuel whitespace_and_newlines σo).1.current_character =
                47
              then skip_comment fuel (skip fuel whitespace_and_newlines σo).1
              else ((skip fuel whitespace_and_newlines σo).1,
                comment_type.not_a_comment)).1
            (if (skip fuel whitespace_and_newlines σo).1.current_character =
                47
              then skip_comment fuel (skip fuel whitespace_and_newlines σv).1
              else ((skip fuel whitespace_and_newlines σv).1,
                comment_type.not_a_comment)).1 ∧
            (if (skip fuel whitespace_and_newlines σo).1.current_character =
                47
              then skip_comment fuel (skip fuel whitespace_and_newlines σv).1
              else ((skip fuel whitespace_and_newlines σv).1,
                comment_type.not_a_comment)).2 =
            (if (skip fuel whitespace_and_newlines σo).1.current_character =
                47
              then skip_comment fuel (skip fuel whitespace_and_newlines σo).1
              else ((skip fuel whitespace_and_newlines σo).1,
                comment_type.not_a_comment)).2 ∧
            (if (skip fuel whitespace_and_newlines σo).1.current_character =
                47
              then skip_comment fuel (skip fuel whitespace_and_newlines σo).1
              else ((skip fuel whitespace_and_newlines σo).1,
                comment_type.not_a_comment)).1.source =
              (skip fuel whitespace_and_newlines σo).1.source ∧
            (if (skip fuel whitespace_and_newlines σo).1.current_character =
                47
              then skip_comment fuel (skip fuel whitespace_and_newlines σv).1
              else ((skip fuel whitespace_and_newlines σv).1,
                comment_type.not_a_comment)).1.source =
              (skip fuel whitespace_and_newlines σv).1.source ∧
            (skip fuel whitespace_and_newlines σo).1.buffer_position ≤
              (if (skip fuel
                  whitespace_and_newlines σo).1.current_character = 47
                then skip_comment fuel
                  (skip fuel whitespace_and_newlines σo).1
                else ((skip fuel whitespace_and_newlines σo).1,
                  comment_type.not_a_comment)).1.buffer_position ∧
            ((if (skip fuel whitespace_and_newlines σo).1.current_character =
                  47
                then skip_comment fuel
                  (skip fuel whitespace_and_newlines σo).1
                else ((skip fuel whitespace_and_newlines σo).1,
                  comment_type.not_a_comment)).2 =
                comment_type.not_a_comment →
              (if (skip fuel whitespace_and_newlines σo).1.current_character =
                  47
                then skip_comment fuel
                  (skip fuel whitespace_and_newlines σo).1
                else ((skip fuel whitespace_and_newlines σo).1,
                  comment_type.not_a_comment)).1 =
                (skip fuel whitespace_and_newlines σo).1 ∧
              (if (skip fuel whitespace_and_newlines σo).1.current_character =
                  47
                then skip_comment fuel
                  (skip fuel whitespace_and_newlines σv).1
                else ((skip fuel whitespace_and_newlines σv).1,
                  comment_type.not_a_comment)).1 =
                (skip fuel whitespace_and_newlines σv).1) := by
          by_cases h47 : (skip fuel
              whitespace_and_newlines σo).1.current_character = 47
          · rw [if_pos h47, if_pos h47]
            have hcm := V_comment S fuel _ _ hsk.1
            refine ⟨hcm.1, hcm.2.1, hcm.2.2.1, hcm.2.2.2.1, hcm.2.2.2.2, ?_⟩
            intro hnc
            exact ⟨skip_comment_nc fuel _ hnc,
              skip_comment_nc fuel _ (by rw [hcm.2.1]; exact hnc)⟩
          · rw [if_neg h47, if_neg h47]
            exact ⟨hsk.1, rfl, rfl, rfl, Nat.le_refl _, fun _ => ⟨rfl, rfl⟩⟩
        generalize hgo : (if (skip fuel
            whitespace_and_newlines σo).1.current_character = 47
            then skip_comment fuel (skip fuel whitespace_and_newlines σo).1
            else ((skip fuel whitespace_and_newlines σo).1,
              comment_type.not_a_comment)) = co at hcomb hok ⊢
        generalize hgv : (if (skip fuel
            whitespace_and_newlines σo).1.current_character = 47
            then skip_comment fuel (skip fuel whitespace_and_newlines σv).1
            else ((skip fuel whitespace_and_newlines σv).1,
              comment_type.not_a_comment)) = cv at hcomb ⊢
        obtain ⟨hcoV, hcv2, hcoS, hcvS, hcoB, hcNC⟩ := hcomb
        rw [hcv2]
        by_cases hnc2 : co.2 ≠ comment_type.not_a_comment
        · rw [if_pos hnc2, if_pos hnc2]
          rw [if_pos hnc2] at hok
          have hdm : doc_rel cv.1.source co.1.buffer_position nv no := by
            rw [hcvS, hsk.2.2.2.1]
            exact doc_rel_mono (by have h1 := hsk.2.2.2.2; omega)
              (agree_below_refl _ _) rfl hd
          have hrec := ihb co.1 cv.1 no nv curr sp hcoV hok hdm
          refine ⟨hrec.1, ?_, ?_, ?_, hrec.2.2.2.2⟩
          · have h1 := hsk.2.2.2.2
            have h2 := hrec.2.1
            omega
          · rw [hrec.2.2.1, hcvS, hsk.2.2.2.1]
          · have hg := hrec.2.2.2.1
            rw [hcvS, hsk.2.2.2.1] at hg
            exact agree_below_mono hg (by have h1 := hsk.2.2.2.2; omega)
        · rw [if_neg hnc2, if_neg hnc2]
          rw [if_neg hnc2] at hok
          have hc2 : co.2 = comment_type.not_a_comment := not_not.mp hnc2
          rw [(hcNC hc2).1] at hok
          rw [(hcNC hc2).1, (hcNC hc2).2]
          rw [Bool.and_eq_true] at hok
          have hdm0 : doc_rel
              (skip fuel whitespace_and_newlines σv).1.source
              (skip fuel whitespace_and_newlines σo).1.buffer_position
              nv no := by
            rw [hsk.2.2.2.1]
            exact doc_rel_mono hsk.2.2.2.2 (agree_below_refl _ _) rfl hd
          have hit := ihi (skip fuel whitespace_and_newlines σo).1
            (skip fuel whitespace_and_newlines σv).1 no nv curr sp
            hsk.1 hne1 hok.1 hdm0
          rw [hit.2.2.2.2.1]
          have hok2 := hok.2
          by_cases hfl : (parse_node_body_item owned_spec fuel
              (skip fuel whitespace_and_newlines σo).1 no curr sp).2.2 =
              true
          · rw [if_pos hfl, if_pos hfl]
            rw [if_pos hfl] at hok2
            have hrec := ihb
              (parse_node_body_item owned_spec fuel
                (skip fuel whitespace_and_newlines σo).1 no curr sp).1
              (parse_node_body_item view_spec fuel
                (skip fuel whitespace_and_newlines σv).1 nv curr sp).1
              (parse_node_body_item owned_spec fuel
                (skip fuel whitespace_and_newlines σo).1 no curr sp).2.1
              (parse_node_body_item view_spec fuel
                (skip fuel whitespace_and_newlines σv).1 nv curr sp).2.1
              curr sp hit.1 hok2 hit.2.2.2.2.2
            refine ⟨hrec.1, ?_, ?_, ?_, hrec.2.2.2.2⟩
            · have h1 := hsk.2.2.2.2
              have h2 := hit.2.1
              have h3 := hrec.2.1
              omega
            · rw [hrec.2.2.1, hit.2.2.1, hsk.2.2.2.1]
            · have hg1 := hrec.2.2.2.1
              have hg2 := hit.2.2.2.1
              rw [hsk.2.2.2.1] at hg2
              exact agree_below_trans
                (agree_below_mono hg1 (by
                  have h1 := hsk.2.2.2.2
                  have h2 := hit.2.1
                  omega))
                (agree_below_mono hg2 (by have h1 := hsk.2.2.2.2; omega))
          · rw [if_neg hfl, if_neg hfl]
            dsimp only
            refine ⟨hit.1, ?_, ?_, ?_, hit.2.2.2.2.2⟩
            · have h1 := hsk.2.2.2.2
              have h2 := hit.2.1
              omega
            · rw [hit.2.2.1, hsk.2.2.2.1]
            · have hg2 := hit.2.2.2.1
              rw [hsk.2.2.2.1] at hg2
              exact agree_below_mono hg2 (by have h1 := hsk.2.2.2.2; omega)
    · rw [parse_node_body_item_bok] at hok
      rw [parse_node_body_item, parse_node_body_item]
      dsimp only
      dsimp only at hok
      rw [h.2.2.1, h.2.2.2.1]
      by_cases h35 : σo.current_character = 35
      · rw [if_pos h35, if_pos h35]
        rw [if_pos h35] at hok
        have hup := V_update (V_next h)
        rw [V_eof hup, hup.2.2.2.1]
        have hbp2 : σo.buffer_position ≤ (update_current_character
            (next_character σo)).buffer_position := by
          have h1 := next_character_bp_ge σo
          have h2 : (update_current_character
              (next_character σo)).buffer_position =
              (next_character σo).buffer_position := rfl
          omega
        have hvs2 : (update_current_character
            (next_character σv)).source = σv.source := by
          show (next_character σv).source = σv.source
          rw [next_character_src]
        by_cases hstop : (eof_at (update_current_character
            (next_character σo)) = true ∨
            is_whitespace (update_current_character
              (next_character σo)).current_character = true ∨
            is_newline (update_current_character
              (next_character σo)).current_character = true)
        · rw [if_pos hstop, if_pos hstop]
          by_cases hr0 : curr = 0
          · rw [if_pos hr0, if_pos hr0]
            dsimp only
            have hrep := V_report hup
              parser_error.too_may_node_closing_markers 0 σo.buffer_position
            refine ⟨hrep, ?_, ?_, ?_, rfl, ?_⟩
            · rw [(report_error_fields _ _ _ _).2.1]
              exact hbp2
            · rw [(report_error_fields _ _ _ _).1, hvs2]
            · rw [(report_error_fields _ _ _ _).1, hvs2]
              exact agree_below_refl _ _
            · rw [(report_error_fields _ _ _ _).1, hvs2,
                (report_error_fields _ _ _ _).2.1]
              exact doc_rel_mono hbp2 (agree_below_refl _ _) rfl hd
          · rw [if_neg hr0, if_neg hr0]
            dsimp only
            refine ⟨hup, hbp2, ?_, ?_, rfl, ?_⟩
            · rw [hvs2]
            · rw [hvs2]
              exact agree_below_refl _ _
            · rw [hvs2]
              exact doc_rel_mono hbp2 (agree_below_refl _ _) rfl hd
        · rw [if_neg hstop, if_neg hstop]
          rw [if_neg hstop] at hok
          have hne2 : eof_at (update_current_character
              (next_character σo)) = false := by
            cases hx : eof_at (update_current_character
                (next_character σo)) with
            | false => rfl
            | true => exact absurd (Or.inl hx) hstop
          have hdm : doc_rel (update_current_character
              (next_character σv)).source
              (update_current_character
                (next_character σo)).buffer_position nv no := by
            rw [hvs2]
            exact doc_rel_mono hbp2 (agree_below_refl _ _) rfl hd
          have hh := ihh (update_current_character (next_character σo))
            (update_current_character (next_character σv)) no nv curr
            σo.buffer_position true hup hne2 hok hdm
          refine ⟨hh.1, ?_, ?_, ?_, hh.2.2.2.2.1, hh.2.2.2.2.2⟩
          · have h2 := hh.2.1
            omega
          · rw [hh.2.2.1, hvs2]
          · have hg := hh.2.2.2.1
            rw [hvs2] at hg
            exact agree_below_mono hg hbp2
      · rw [if_neg h35, if_neg h35]
        rw [if_neg h35] at hok
        exact ihh σo σv no nv curr σo.buffer_position false h hne hok hd
    · rw [parse_node_body_header_bok] at hok
      rw [parse_node_body_header, parse_node_body_header]
      dsimp only
      dsimp only at hok
      rw [h.2.2.2.1, h.2.2.1]
      by_cases hd2 : (detect_data_type σo.current_character =
          parser_data_type.string ∨
          detect_data_type σo.current_character =
            parser_data_type.identifier)
      · rw [if_pos hd2, if_pos hd2]
        rw [if_pos hd2] at hok
        have hok1 : parse_node_header_context_bok fuel σo
            (detect_data_type σo.current_character) = true := by
          by_cases hc1 : (parse_node_header_context owned_spec fuel σo
              (detect_data_type σo.current_character)).1.recursion_limit ≤
              curr + 1
          · rwa [if_pos hc1] at hok
          · rw [if_neg hc1] at hok
            by_cases hn : nested = true
            · rw [if_pos hn, Bool.and_eq_true] at hok
              exact hok.1
            · rwa [if_neg hn] at hok
        have hhc := V_header_ctx S fuel σo σv
          (detect_data_type σo.current_character) h hne hok1
        rw [hhc.1.2.2.2.2.1]
        by_cases hrl : (parse_node_header_context owned_spec fuel σo
            (detect_data_type σo.current_character)).1.recursion_limit ≤
            curr + 1
        · rw [if_pos hrl, if_pos hrl]
          dsimp only
          have hrep := V_report hhc.1
            parser_error.recursion_limit_reached 0 nsp
          have hsk2 := V_skip_general S until_newline (V_until_newline S)
            fuel _ _ hrep
          have hbps : σo.buffer_position ≤
              (skip fuel until_newline (report_error
                (parse_node_header_context owned_spec fuel σo
                  (detect_data_type σo.current_character)).1
                parser_error.recursion_limit_reached 0
                nsp)).1.buffer_position := by
            have h1 := hhc.2.1
            have h2 : (report_error (parse_node_header_context owned_spec
                fuel σo (detect_data_type σo.current_character)).1
                parser_error.recursion_limit_reached 0
                nsp).buffer_position =
                (parse_node_header_context owned_spec fuel σo
                  (detect_data_type
                    σo.current_character)).1.buffer_position :=
              (report_error_fields _ _ _ _).2.1
            have h3 := hsk2.2.2.2.2
            omega
          refine ⟨hsk2.1, hbps, ?_, ?_, rfl, ?_⟩
          · rw [hsk2.2.2.2.1, (report_error_fields _ _ _ _).1, hhc.2.2.1]
          · rw [hsk2.2.2.2.1, (report_error_fields _ _ _ _).1]
            exact hhc.2.2.2.1
          · rw [hsk2.2.2.2.1, (report_error_fields _ _ _ _).1]
            refine doc_rel_add_child
              (doc_rel_mono hbps hhc.2.2.2.1 hhc.2.2.1 hd)
              (doc_rel_mono ?_ (agree_below_refl _ _) rfl hhc.2.2.2.2)
            have h2 : (report_error (parse_node_header_context owned_spec
                fuel σo (detect_data_type σo.current_character)).1
                parser_error.recursion_limit_reached 0
                nsp).buffer_position =
                (parse_node_header_context owned_spec fuel σo
                  (detect_data_type
                    σo.current_character)).1.buffer_position :=
              (report_error_fields _ _ _ _).2.1
            have h3 := hsk2.2.2.2.2
            omega
        · rw [if_neg hrl, if_neg hrl]
          rw [if_neg hrl] at hok
          by_cases hn : nested = true
          · rw [if_pos hn, if_pos hn]
            rw [if_pos hn, Bool.and_eq_true] at hok
            dsimp only
            have hb := ihb (parse_node_header_context owned_spec fuel σo
                (detect_data_type σo.current_character)).1
              (parse_node_header_context view_spec fuel σv
                (detect_data_type σo.current_character)).1
              (parse_node_header_context owned_spec fuel σo
                (detect_data_type σo.current_character)).2
              (parse_node_header_context view_spec fuel σv
                (detect_data_type σo.current_character)).2
              (curr + 1) nsp hhc.1 hok.2 hhc.2.2.2.2
            refine ⟨hb.1, ?_, ?_, ?_, rfl, ?_⟩
            · have h1 := hhc.2.1
              have h2 := hb.2.1
              omega
            · rw [hb.2.2.1, hhc.2.2.1]
            · exact agree_below_trans
                (agree_below_mono hb.2.2.2.1 hhc.2.1) hhc.2.2.2.1
            · refine doc_rel_add_child
                (doc_rel_mono (by
                    have h1 := hhc.2.1
                    have h2 := hb.2.1
                    omega)
                  (agree_below_trans
                    (agree_below_mono hb.2.2.2.1 hhc.2.1) hhc.2.2.2.1)
                  (by rw [hb.2.2.1, hhc.2.2.1]) hd)
                hb.2.2.2.2
          · rw [if_neg hn, if_neg hn]
            dsimp only
            refine ⟨hhc.1, hhc.2.1, hhc.2.2.1, hhc.2.2.2.1, rfl, ?_⟩
            exact doc_rel_add_child
              (doc_rel_mono hhc.2.1 hhc.2.2.2.1 hhc.2.2.1 hd) hhc.2.2.2.2
      · rw [if_neg hd2, if_neg hd2]
        have hrep := V_report h parser_error.illegal_character
          σo.current_character σo.buffer_position
        rw [report_error_cc, report_error_cc, h.2.2.2.1]
        by_cases h35n : σo.current_character ≠ 35
        · rw [if_pos h35n, if_pos h35n]
          dsimp only
          have hup := V_update (V_next hrep)
          have hbp2 : σo.buffer_position ≤ (update_current_character
              (next_character (report_error σo
                parser_error.illegal_character σo.current_character
                σo.buffer_position))).buffer_position := by
            have h1 := next_character_bp_ge (report_error σo
              parser_error.illegal_character σo.current_character
              σo.buffer_position)
            have h2 : (report_error σo parser_error.illegal_character
                σo.current_character σo.buffer_position).buffer_position =
                σo.buffer_position := (report_error_fields _ _ _ _).2.1
            have h3 : (update_current_character (next_character
                (report_error σo parser_error.illegal_character
                  σo.current_character
                  σo.buffer_position))).buffer_position =
                (next_character (report_error σo
                  parser_error.illegal_character σo.current_character
                  σo.buffer_position)).buffer_position := rfl
            omega
          have hvs2 : (update_current_character (next_character
              (report_error σv parser_error.illegal_character
                σo.current_character σo.buffer_position))).source =
              σv.source := by
            show (next_character (report_error σv
              parser_error.illegal_character σo.current_character
              σo.buffer_position)).source = σv.source
            rw [next_character_src, (report_error_fields _ _ _ _).1]
          refine ⟨hup, hbp2, ?_, ?_, rfl, ?_⟩
          · rw [hvs2]
          · rw [hvs2]
            exact agree_below_refl _ _
          · rw [hvs2]
            exact doc_rel_mono hbp2 (agree_below_refl _ _) rfl hd
        · rw [if_neg h35n, if_neg h35n]
          dsimp only
          have hbp2 : σo.buffer_position ≤ (report_error σo
              parser_error.illegal_character σo.current_character
              σo.buffer_position).buffer_position := by
            have h2 : (report_error σo parser_error.illegal_character
                σo.current_character σo.buffer_position).buffer_position =
                σo.buffer_position := (report_error_fields _ _ _ _).2.1
            omega
          refine ⟨hrep, hbp2, ?_, ?_, rfl, ?_⟩
          · rw [(report_error_fields _ _ _ _).1]
          · rw [(report_error_fields _ _ _ _).1]
            exact agree_below_refl _ _
          · rw [(report_error_fields _ _ _ _).1]
            exact doc_rel_mono hbp2 (agree_below_refl _ _) rfl hd

theorem initial_view_rel (S : List Nat) (rl el : Nat) :
    view_rel S (initial_parser_state S rl el)
      (initial_parser_state S rl el) :=
  ⟨rfl, rfl, rfl, rfl, rfl, rfl, fun _ _ => rfl⟩

theorem initial_doc_rel (S : List Nat) (rl el : Nat) :
    doc_rel (initial_parser_state S rl el).source
      (initial_parser_state S rl el).buffer_position
      (basic_document.mk (0, 0) [] []) (basic_document.mk [] [] []) :=
  ⟨⟨Nat.le_refl 0, rfl⟩, trivial, trivial⟩

/-- C2: for every source and every fuel whose owned run is
block-adequate (`load_blocks_ok`, which holds exactly when no
`parse_block_line` loop of the embedded owned run was cut short by
fuel, i.e. always for the program's run), parsing the source with the
owned parser (`load`) and parsing a mutable copy of it with the view
parser (`load_view`) produce structurally equal trees: materialising
every `(offset, length)` slice of the view tree against the view run's
final buffer yields exactly the owned tree — equal id, equal data
sequence and equal children sequence at every node. -/
theorem owned_view_equal_trees (fuel : Nat) (S : List Nat)
    (hok : load_blocks_ok fuel S = true) :
    view_extract (load_view fuel S).1.source (load_view fuel S).2 =
      (load fuel S).2 := by
  unfold load load_custom load_view load_view_custom
  unfold load_blocks_ok load_custom_blocks_ok at hok
  have h := (V_body_mutual S fuel).1
    (initial_parser_state S default_recursion_limit
      default_maximum_error_limit)
    (initial_parser_state S default_recursion_limit
      default_maximum_error_limit)
    (basic_document.mk [] [] []) (basic_document.mk (0, 0) [] []) 0 0
    (initial_view_rel S default_recursion_limit
      default_maximum_error_limit) hok
    (initial_doc_rel S default_recursion_limit
      default_maximum_error_limit)
  exact doc_rel_extract _ _ _ _ h.2.2.2.2

theorem owned_view_equal_trees_witness :
    view_extract
        (load_view 32 [107, 32, 123, 10, 32, 120, 121, 10, 125, 10]).1.source
        (load_view 32 [107, 32, 123, 10, 32, 120, 121, 10, 125, 10]).2 =
      (load 32 [107, 32, 123, 10, 32, 120, 121, 10, 125, 10]).2 :=
  owned_view_equal_trees 32 [107, 32, 123, 10, 32, 120, 121, 10, 125, 10]
    (by decide)

end Nepeta
